import Mathlib

/-!
# WFP-Inspect: the deferred-decision engine of `sys/inspect.c`

A shallow embedding of the classify callouts of `sys/inspect.c`
(`TLInspectALEConnectClassify`, `TLInspectALERecvAcceptClassify`,
`TLInspectTransportClassify`) over an explicit state holding the driver's
globals (`gConnList`, `gPacketQueue`, `gWorkerEvent`, `gDriverUnloading`,
`configPermitTraffic`) and a few ghost fields that record what the kernel was
asked to do (allocations, frees, lock operations, `KeSetEvent` calls).

Bit masks (`rights`, `flags`, `filter->flags`) and action types are kept as
natural numbers with the values the Windows headers give them.
-/

namespace WFPInspect

/-! ## Constants of the Windows Filtering Platform headers -/

/-- FWP_ACTION_BLOCK of fwptypes.h: `FWP_ACTION_FLAG_TERMINATING | 0x1`. -/
def FWP_ACTION_BLOCK : Nat := 0x1001

/-- FWP_ACTION_PERMIT of fwptypes.h: `FWP_ACTION_FLAG_TERMINATING | 0x2`. -/
def FWP_ACTION_PERMIT : Nat := 0x1002

/-- FWPS_RIGHT_ACTION_WRITE of fwpstypes.h. -/
def FWPS_RIGHT_ACTION_WRITE : Nat := 0x1

/-- FWPS_CLASSIFY_OUT_FLAG_ABSORB of fwpstypes.h. -/
def FWPS_CLASSIFY_OUT_FLAG_ABSORB : Nat := 0x1

/-- FWPS_FILTER_FLAG_CLEAR_ACTION_RIGHT of fwpstypes.h. -/
def FWPS_FILTER_FLAG_CLEAR_ACTION_RIGHT : Nat := 0x1

/-- The C expression `x & ~m` on a 32-bit unsigned value. -/
def andNot32 (x m : Nat) : Nat := x &&& (0xFFFFFFFF - m)

/-! ## Data model -/

/-- FWP_DIRECTION of fwptypes.h. -/
inductive FWP_DIRECTION where
  | FWP_DIRECTION_OUTBOUND
  | FWP_DIRECTION_INBOUND
  deriving DecidableEq, Repr

/-- TL_INSPECT_PACKET_TYPE: the kind of a pended item. -/
inductive TL_INSPECT_PACKET_TYPE where
  | TL_INSPECT_CONNECT_PACKET
  | TL_INSPECT_DATA_PACKET
  | TL_INSPECT_REAUTH_PACKET
  deriving DecidableEq, Repr

/-- FWPS_PACKET_INJECTION_STATE of fwpsk.h, the answer of
`FwpsQueryPacketInjectionState`. -/
inductive FWPS_PACKET_INJECTION_STATE where
  | FWPS_PACKET_NOT_INJECTED
  | FWPS_PACKET_INJECTED_BY_SELF
  | FWPS_PACKET_INJECTED_BY_OTHER
  | FWPS_PACKET_PREVIOUSLY_INJECTED_BY_SELF
  deriving DecidableEq, Repr

open FWP_DIRECTION TL_INSPECT_PACKET_TYPE FWPS_PACKET_INJECTION_STATE

/-- The two spin locks of the driver. -/
inductive Lock where
  | gConnListLock
  | gPacketQueueLock
  deriving DecidableEq, Repr

/-- One lock operation, as recorded in the ghost lock log. -/
inductive LockOp where
  | acquire (l : Lock)
  | release (l : Lock)
  deriving DecidableEq, Repr

/-- The flow identity an item captures at enqueue time (spec section 3). -/
structure FlowIdentity where
  addressFamily : Nat
  localAddr : Nat
  remoteAddr : Nat
  remoteScopeId : Nat
  protocol : Nat
  compartmentId : Nat
  interfaceIndex : Nat
  subInterfaceIndex : Nat
  deriving DecidableEq, Repr

/-- TL_INSPECT_PENDED_PACKET: the record of one pended event. `addr` is the
address of the heap record (its identity); `authConnectDecision` is an
FWP_ACTION_TYPE with `0` meaning that no decision has been taken;
`netBufferList` and `completionContext` are `none` for a NULL pointer. -/
structure TL_INSPECT_PENDED_PACKET where
  addr : Nat
  type : TL_INSPECT_PACKET_TYPE
  direction : FWP_DIRECTION
  authConnectDecision : Nat
  completionContext : Option Nat
  flow : FlowIdentity
  netBufferList : Option Nat
  ipSecProtected : Bool
  deriving DecidableEq, Repr

/-- FWPS_CLASSIFY_OUT: the decision output of one classify call. -/
structure FWPS_CLASSIFY_OUT where
  actionType : Nat
  rights : Nat
  flags : Nat
  deriving DecidableEq, Repr

/-- The arguments of one classify call, together with the answers the helper
functions and the stack give during that call. -/
structure ClassifyArgs where
  -- identity values of `inFixedValues` and `inMetaValues`
  flow : FlowIdentity
  -- the `layerData` pointer, `none` for NULL
  layerData : Option Nat
  -- the value of `filter->flags`
  filterFlags : Nat
  -- the answer of `IsAleReauthorize(inFixedValues)`
  isAleReauthorize : Bool
  -- the direction the handler works with: `inMetaValues->packetDirection` at
  -- the ALE layers, `GetPacketDirectionForLayer(layerId)` at the transport layer
  packetDirection : FWP_DIRECTION
  -- the answer of `IsAleClassifyRequired(inFixedValues, inMetaValues)`
  isAleClassifyRequired : Bool
  -- `packetInfo.ipsecInformation.inbound.isTunnelMode`
  isTunnelMode : Bool
  -- `packetInfo.ipsecInformation.inbound.isDeTunneled`
  isDeTunneled : Bool
  -- the answer of `IsSecureConnection(inFixedValues)`
  isSecureConnection : Bool
  -- the answer of `FwpsQueryPacketInjectionState` for `layerData`
  packetState : FWPS_PACKET_INJECTION_STATE
  -- whether the pool allocation of a pended packet succeeds
  allocOk : Bool
  -- the outcome of `FwpsPendOperation`: the completion context on success,
  -- `none` when the returned status is a failure
  pendResult : Option Nat
  deriving DecidableEq, Repr

/-- The globals of the driver and the ghost record of kernel calls. -/
structure Globals where
  gConnList : List TL_INSPECT_PENDED_PACKET
  gPacketQueue : List TL_INSPECT_PENDED_PACKET
  gWorkerEvent : Bool
  gDriverUnloading : Bool
  configPermitTraffic : Bool
  -- ghost: number of pended packets allocated so far (the next address)
  allocCount : Nat
  -- ghost: the packets passed to `FreePendedPacket`, in call order
  freed : List TL_INSPECT_PENDED_PACKET
  -- ghost: the lock operations performed, in order
  lockLog : List LockOp
  -- ghost: number of `KeSetEvent(&gWorkerEvent)` calls
  setEventCalls : Nat
  -- ghost: number of `KeClearEvent(&gWorkerEvent)` calls
  clearEventCalls : Nat := 0
  -- ghost: number of `IsTrafficPermitted()` calls
  policyQueries : Nat := 0
  -- ghost: the `FwpsCompleteOperation` calls in order, each with its completion
  -- context and its net buffer list argument (`none` for NULL)
  completeOps : List (Option Nat × Option Nat) := []
  -- ghost: the packets given to `TLInspectCloneReinjectOutbound`, in call order
  cloneSendCalls : List TL_INSPECT_PENDED_PACKET := []
  -- ghost: the packets given to `TLInspectCloneReinjectInbound`, in call order
  cloneRecvCalls : List TL_INSPECT_PENDED_PACKET := []
  -- ghost: the packets an injection call accepted, which now belong to the
  -- completion function `TLInspectInjectComplete`
  injected : List TL_INSPECT_PENDED_PACKET := []
  deriving DecidableEq, Repr

/-! ## Kernel and helper operations -/

/-- Modelled from the spec: AllocateAndInitializePendedPacket lives in
utils.c, which is not among the sources. It allocates a zeroed record and
captures the identity of the event and its buffer reference; a failed
allocation gives NULL and leaves no record behind. -/
def AllocateAndInitializePendedPacket (a : ClassifyArgs) (s : Globals)
    (packetType : TL_INSPECT_PACKET_TYPE) (packetDirection : FWP_DIRECTION) :
    Option TL_INSPECT_PENDED_PACKET × Globals :=
  if a.allocOk then
    (some { addr := s.allocCount, type := packetType, direction := packetDirection,
            authConnectDecision := 0, completionContext := none, flow := a.flow,
            netBufferList := a.layerData, ipSecProtected := false },
     { s with allocCount := s.allocCount + 1 })
  else (none, s)

/-- Modelled from the spec: FreePendedPacket lives in utils.c, which is not
among the sources. It releases the record and its buffer; the ghost list
`freed` records the call. -/
def FreePendedPacket (p : TL_INSPECT_PENDED_PACKET) (s : Globals) : Globals :=
  { s with freed := s.freed ++ [p] }

/-- KeAcquireInStackQueuedSpinLock, recorded in the lock log. -/
def KeAcquireInStackQueuedSpinLock (l : Lock) (s : Globals) : Globals :=
  { s with lockLog := s.lockLog ++ [LockOp.acquire l] }

/-- KeReleaseInStackQueuedSpinLock, recorded in the lock log. -/
def KeReleaseInStackQueuedSpinLock (l : Lock) (s : Globals) : Globals :=
  { s with lockLog := s.lockLog ++ [LockOp.release l] }

/-- KeSetEvent on `gWorkerEvent`. -/
def KeSetEvent (s : Globals) : Globals :=
  { s with gWorkerEvent := true, setEventCalls := s.setEventCalls + 1 }

/-- The statement `if (signalWorkerThread) KeSetEvent(&gWorkerEvent, 0, FALSE);`. -/
def signalWorker (signalWorkerThread : Bool) (s : Globals) : Globals :=
  if signalWorkerThread then KeSetEvent s else s

/-- The test `(packetState == FWPS_PACKET_INJECTED_BY_SELF) ||
(packetState == FWPS_PACKET_PREVIOUSLY_INJECTED_BY_SELF)`. -/
def injectedBySelf (st : FWPS_PACKET_INJECTION_STATE) : Bool :=
  st == FWPS_PACKET_INJECTED_BY_SELF || st == FWPS_PACKET_PREVIOUSLY_INJECTED_BY_SELF

/-- The statements `actionType = FWP_ACTION_BLOCK; rights &= ~FWPS_RIGHT_ACTION_WRITE;`. -/
def blockClassify (classifyOut : FWPS_CLASSIFY_OUT) : FWPS_CLASSIFY_OUT :=
  { classifyOut with
    actionType := FWP_ACTION_BLOCK
    rights := andNot32 classifyOut.rights FWPS_RIGHT_ACTION_WRITE }

/-- The statements `actionType = FWP_ACTION_BLOCK; rights &= ~FWPS_RIGHT_ACTION_WRITE;
flags |= FWPS_CLASSIFY_OUT_FLAG_ABSORB;`. -/
def blockAbsorbClassify (classifyOut : FWPS_CLASSIFY_OUT) : FWPS_CLASSIFY_OUT :=
  { actionType := FWP_ACTION_BLOCK
    rights := andNot32 classifyOut.rights FWPS_RIGHT_ACTION_WRITE
    flags := classifyOut.flags ||| FWPS_CLASSIFY_OUT_FLAG_ABSORB }

/-- The statements `actionType = FWP_ACTION_PERMIT; if (filter->flags &
FWPS_FILTER_FLAG_CLEAR_ACTION_RIGHT) rights &= ~FWPS_RIGHT_ACTION_WRITE;`. -/
def permitClassify (filterFlags : Nat) (classifyOut : FWPS_CLASSIFY_OUT) :
    FWPS_CLASSIFY_OUT :=
  { classifyOut with
    actionType := FWP_ACTION_PERMIT
    rights :=
      if filterFlags &&& FWPS_FILTER_FLAG_CLEAR_ACTION_RIGHT ≠ 0 then
        andNot32 classifyOut.rights FWPS_RIGHT_ACTION_WRITE
      else classifyOut.rights }

/-- InsertTailList on `gConnList`. -/
def insertTailConnList (p : TL_INSPECT_PENDED_PACKET) (s : Globals) : Globals :=
  { s with gConnList := s.gConnList ++ [p] }

/-- InsertTailList on `gPacketQueue`. -/
def insertTailPacketQueue (p : TL_INSPECT_PENDED_PACKET) (s : Globals) : Globals :=
  { s with gPacketQueue := s.gPacketQueue ++ [p] }

/-- The test of the re-authorization scan of the connect callout:
`IsMatchingConnectPacket(...) && (connEntry->authConnectDecision != 0)`.
`IsMatchingConnectPacket` is defined outside the sources (utils.h) and is a
parameter: its arguments are `inFixedValues`, `addressFamily`,
`packetDirection` and the list entry. -/
def reauthScanTest
    (IsMatchingConnectPacket :
      FlowIdentity → Nat → FWP_DIRECTION → TL_INSPECT_PENDED_PACKET → Bool)
    (a : ClassifyArgs) (connEntry : TL_INSPECT_PENDED_PACKET) : Bool :=
  IsMatchingConnectPacket a.flow a.flow.addressFamily a.packetDirection connEntry &&
    connEntry.authConnectDecision != 0

/-- The part the three callouts share word for word (inspect.c lines 455-535,
717-797 and 1236-1306): allocate the packet, take both locks, queue it to
`gPacketQueue` unless the driver is unloading, release the locks, signal the
worker, and free at `Exit` what was not handed over. `captureIpSec` is true
for the two ALE callouts, which record `IsSecureConnection` for inbound
packets between the allocation and the locks. -/
def queueRegularPacket (a : ClassifyArgs) (packetType : TL_INSPECT_PACKET_TYPE)
    (captureIpSec : Bool) (classifyOut : FWPS_CLASSIFY_OUT) (s : Globals) :
    FWPS_CLASSIFY_OUT × Globals :=
  match AllocateAndInitializePendedPacket a s packetType a.packetDirection with
  | (none, s) => (blockClassify classifyOut, s)
  | (some pendedPacket, s) =>
    let pendedPacket :=
      if captureIpSec && a.packetDirection == FWP_DIRECTION_INBOUND then
        { pendedPacket with ipSecProtected := a.isSecureConnection }
      else pendedPacket
    let s := KeAcquireInStackQueuedSpinLock Lock.gConnListLock s
    let s := KeAcquireInStackQueuedSpinLock Lock.gPacketQueueLock s
    if !s.gDriverUnloading then
      let signalWorkerThread := s.gPacketQueue.isEmpty && s.gConnList.isEmpty
      let s := insertTailPacketQueue pendedPacket s
      let s := KeReleaseInStackQueuedSpinLock Lock.gPacketQueueLock s
      let s := KeReleaseInStackQueuedSpinLock Lock.gConnListLock s
      let s := signalWorker signalWorkerThread s
      (blockAbsorbClassify classifyOut, s)
    else
      let s := KeReleaseInStackQueuedSpinLock Lock.gPacketQueueLock s
      let s := KeReleaseInStackQueuedSpinLock Lock.gConnListLock s
      (permitClassify a.filterFlags classifyOut, FreePendedPacket pendedPacket s)

/-- The initial-authorization branch shared by the connect and recv-accept
callouts (inspect.c lines 265-328 and 634-697), which differ only in the
direction given to the allocation. -/
def pendInitialConnection (a : ClassifyArgs) (direction : FWP_DIRECTION)
    (classifyOut : FWPS_CLASSIFY_OUT) (s : Globals) : FWPS_CLASSIFY_OUT × Globals :=
  match AllocateAndInitializePendedPacket a s TL_INSPECT_CONNECT_PACKET direction with
  | (none, s) => (blockClassify classifyOut, s)
  | (some pendedConnect, s) =>
    match a.pendResult with
    | none => (blockClassify classifyOut, FreePendedPacket pendedConnect s)
    | some completionContext =>
      let pendedConnect :=
        { pendedConnect with completionContext := some completionContext }
      let s := KeAcquireInStackQueuedSpinLock Lock.gConnListLock s
      let s := KeAcquireInStackQueuedSpinLock Lock.gPacketQueueLock s
      let signalWorkerThread := s.gConnList.isEmpty && s.gPacketQueue.isEmpty
      let s := insertTailConnList pendedConnect s
      let s := KeReleaseInStackQueuedSpinLock Lock.gPacketQueueLock s
      let s := KeReleaseInStackQueuedSpinLock Lock.gConnListLock s
      let s := signalWorker signalWorkerThread s
      (blockAbsorbClassify classifyOut, s)

/-- The body of the scan loop of the connect callout once an entry has been
found (inspect.c lines 383-434), followed by the release of the list lock and
the `Exit` label. -/
def completeReauthMatch (a : ClassifyArgs) (pendedConnect : TL_INSPECT_PENDED_PACKET)
    (test : TL_INSPECT_PENDED_PACKET → Bool)
    (classifyOut : FWPS_CLASSIFY_OUT) (s : Globals) : FWPS_CLASSIFY_OUT × Globals :=
  let classifyOut := { classifyOut with actionType := pendedConnect.authConnectDecision }
  let classifyOut :=
    if classifyOut.actionType = FWP_ACTION_BLOCK ∨
        a.filterFlags &&& FWPS_FILTER_FLAG_CLEAR_ACTION_RIGHT ≠ 0 then
      { classifyOut with rights := andNot32 classifyOut.rights FWPS_RIGHT_ACTION_WRITE }
    else classifyOut
  let s := { s with gConnList := s.gConnList.eraseP test }
  if !s.gDriverUnloading && pendedConnect.netBufferList.isSome &&
      pendedConnect.authConnectDecision == FWP_ACTION_PERMIT then
    let pendedConnect := { pendedConnect with type := TL_INSPECT_DATA_PACKET }
    let s := KeAcquireInStackQueuedSpinLock Lock.gPacketQueueLock s
    let signalWorkerThread := s.gPacketQueue.isEmpty && s.gConnList.isEmpty
    let s := insertTailPacketQueue pendedConnect s
    let s := KeReleaseInStackQueuedSpinLock Lock.gPacketQueueLock s
    let s := signalWorker signalWorkerThread s
    let s := KeReleaseInStackQueuedSpinLock Lock.gConnListLock s
    (classifyOut, s)
  else
    let s := KeReleaseInStackQueuedSpinLock Lock.gConnListLock s
    (classifyOut, FreePendedPacket pendedConnect s)

/-! ## The classify callouts -/

/-- TLInspectALEConnectClassify (inspect.c lines 166-537). -/
def TLInspectALEConnectClassify
    (IsMatchingConnectPacket :
      FlowIdentity → Nat → FWP_DIRECTION → TL_INSPECT_PENDED_PACKET → Bool)
    (a : ClassifyArgs) (classifyOut : FWPS_CLASSIFY_OUT) (s : Globals) :
    FWPS_CLASSIFY_OUT × Globals :=
  if classifyOut.rights &&& FWPS_RIGHT_ACTION_WRITE = 0 then (classifyOut, s)
  else if a.layerData.isSome && injectedBySelf a.packetState then
    (permitClassify a.filterFlags classifyOut, s)
  else if !a.isAleReauthorize then
    pendInitialConnection a FWP_DIRECTION_OUTBOUND classifyOut s
  else if a.packetDirection = FWP_DIRECTION_OUTBOUND then
    let s := KeAcquireInStackQueuedSpinLock Lock.gConnListLock s
    match s.gConnList.find? (reauthScanTest IsMatchingConnectPacket a) with
    | some pendedConnect =>
      completeReauthMatch a pendedConnect (reauthScanTest IsMatchingConnectPacket a)
        classifyOut s
    | none =>
      let s := KeReleaseInStackQueuedSpinLock Lock.gConnListLock s
      queueRegularPacket a TL_INSPECT_REAUTH_PACKET true classifyOut s
  else
    queueRegularPacket a TL_INSPECT_REAUTH_PACKET true classifyOut s

/-- TLInspectALERecvAcceptClassify (inspect.c lines 539-798). -/
def TLInspectALERecvAcceptClassify (a : ClassifyArgs) (classifyOut : FWPS_CLASSIFY_OUT)
    (s : Globals) : FWPS_CLASSIFY_OUT × Globals :=
  if classifyOut.rights &&& FWPS_RIGHT_ACTION_WRITE = 0 then (classifyOut, s)
  else if injectedBySelf a.packetState then
    (permitClassify a.filterFlags classifyOut, s)
  else if !a.isAleReauthorize then
    pendInitialConnection a FWP_DIRECTION_INBOUND classifyOut s
  else
    queueRegularPacket a TL_INSPECT_REAUTH_PACKET true classifyOut s

/-- TLInspectTransportClassify (inspect.c lines 1047-1307). The loop that
prints the protocol of each buffer before the rights test changes neither the
globals nor `classifyOut` and is left out. -/
def TLInspectTransportClassify (a : ClassifyArgs) (classifyOut : FWPS_CLASSIFY_OUT)
    (s : Globals) : FWPS_CLASSIFY_OUT × Globals :=
  if classifyOut.rights &&& FWPS_RIGHT_ACTION_WRITE = 0 then (classifyOut, s)
  else if injectedBySelf a.packetState then
    (permitClassify a.filterFlags classifyOut, s)
  else if a.packetDirection = FWP_DIRECTION_INBOUND ∧ a.isAleClassifyRequired then
    (permitClassify a.filterFlags classifyOut, s)
  else if a.packetDirection = FWP_DIRECTION_INBOUND ∧ a.isTunnelMode ∧ ¬ a.isDeTunneled then
    (permitClassify a.filterFlags classifyOut, s)
  else
    queueRegularPacket a TL_INSPECT_DATA_PACKET false classifyOut s

/-- The hook points whose classify callout takes decisions. -/
inductive HookPoint where
  | ALE_AUTH_CONNECT
  | ALE_AUTH_RECV_ACCEPT
  | TRANSPORT
  deriving DecidableEq, Repr

open HookPoint

/-- The classify callout registered at a hook point. -/
def classifyFn
    (IsMatchingConnectPacket :
      FlowIdentity → Nat → FWP_DIRECTION → TL_INSPECT_PENDED_PACKET → Bool) :
    HookPoint → ClassifyArgs → FWPS_CLASSIFY_OUT → Globals → FWPS_CLASSIFY_OUT × Globals
  | ALE_AUTH_CONNECT => TLInspectALEConnectClassify IsMatchingConnectPacket
  | ALE_AUTH_RECV_ACCEPT => TLInspectALERecvAcceptClassify
  | TRANSPORT => TLInspectTransportClassify

/-- TLInspectIpClassify (inspect.c lines 800-1045), the callout of the
network layer. After the loop that prints the protocol of each buffer the
whole classification (rights test, replay test, allocation, queueing) is
compiled out by `#if 0` ... `#endif`: the function reads its arguments and
returns, so `classifyOut` and the globals are left as they were. -/
def TLInspectIpClassify (_a : ClassifyArgs) (classifyOut : FWPS_CLASSIFY_OUT)
    (s : Globals) : FWPS_CLASSIFY_OUT × Globals :=
  (classifyOut, s)

/-! ## The worker thread -/

/-- The answers the policy source and the stack give during one iteration of
the worker loop. -/
structure WorkerOracle where
  -- the answer of `IsTrafficPermitted()`
  isTrafficPermitted : Bool
  -- whether `FwpsAllocateCloneNetBufferList` succeeds
  allocateCloneOk : Bool
  -- whether `FwpsConstructIpHeaderForTransportPacket` succeeds
  constructIpHeaderOk : Bool
  -- whether `FwpsInjectTransportSendAsync` / `FwpsInjectTransportReceiveAsync`
  -- succeeds
  injectOk : Bool
  deriving DecidableEq, Repr

/-- The globals together with the local `found` of `TLInspectWorker`, which
is set to FALSE once, at its declaration before the loop, and lives across
the iterations of the loop. -/
structure WorkerState where
  g : Globals
  found : Bool
  deriving DecidableEq, Repr

/-- KeClearEvent on `gWorkerEvent`. -/
def KeClearEvent (s : Globals) : Globals :=
  { s with gWorkerEvent := false, clearEventCalls := s.clearEventCalls + 1 }

/-- FwpsCompleteOperation, recorded with its two arguments. -/
def FwpsCompleteOperation (completionContext netBufferList : Option Nat) (s : Globals) :
    Globals :=
  { s with completeOps := s.completeOps ++ [(completionContext, netBufferList)] }

/-- TLInspectInjectComplete (inspect.c lines 1365-1378): the completion
function of an injection frees the clone and the pended packet. -/
def TLInspectInjectComplete (packet : TL_INSPECT_PENDED_PACKET) (s : Globals) : Globals :=
  FreePendedPacket packet s

/-- TLInspectCloneReinjectOutbound (inspect.c lines 1380-1445): returns
whether the status is a success. On success the packet belongs to the
completion function. -/
def TLInspectCloneReinjectOutbound (packet : TL_INSPECT_PENDED_PACKET) (o : WorkerOracle)
    (s : Globals) : Bool × Globals :=
  let s := { s with cloneSendCalls := s.cloneSendCalls ++ [packet] }
  if !o.allocateCloneOk then (false, s)
  else if !o.injectOk then (false, s)
  else (true, { s with injected := s.injected ++ [packet] })

/-- TLInspectCloneReinjectInbound (inspect.c lines 1447-1598): returns
whether the status is a success and the content of the packet record after
the call (its completion context is reset once the pended operation has been
completed with the clone). The clone is identified with the net buffer list
it was cloned from; the retreat and advance of the buffer offset around the
clone undo each other and are left out. -/
def TLInspectCloneReinjectInbound (packet : TL_INSPECT_PENDED_PACKET) (o : WorkerOracle)
    (s : Globals) : Bool × TL_INSPECT_PENDED_PACKET × Globals :=
  let s := { s with cloneRecvCalls := s.cloneRecvCalls ++ [packet] }
  if !o.allocateCloneOk then (false, packet, s)
  else if packet.ipSecProtected && !o.constructIpHeaderOk then (false, packet, s)
  else
    let s :=
      if packet.completionContext.isSome then
        FwpsCompleteOperation packet.completionContext packet.netBufferList s
      else s
    let packet :=
      if packet.completionContext.isSome then { packet with completionContext := none }
      else packet
    if !o.injectOk then (false, packet, s)
    else (true, packet, { s with injected := s.injected ++ [packet] })

/-- TlInspectCompletePendedConnection (inspect.c lines 1600-1652). Returns
the caller's pointer `*pendedConnect` after the call (`none` for NULL), the
content of the record after the call, and the globals. The inbound branch
tests the global `configPermitTraffic`, as the source does, not the argument
`permitTraffic`. -/
def TlInspectCompletePendedConnection (pendedConnectLocal : TL_INSPECT_PENDED_PACKET)
    (permitTraffic : Bool) (s : Globals) :
    Option TL_INSPECT_PENDED_PACKET × TL_INSPECT_PENDED_PACKET × Globals :=
  if pendedConnectLocal.direction = FWP_DIRECTION_OUTBOUND then
    let completionContext := pendedConnectLocal.completionContext
    let record :=
      { pendedConnectLocal with
        authConnectDecision := if permitTraffic then FWP_ACTION_PERMIT else FWP_ACTION_BLOCK
        completionContext := none }
    (none, record, FwpsCompleteOperation completionContext none s)
  else if !s.configPermitTraffic then
    (none, pendedConnectLocal, FreePendedPacket pendedConnectLocal s)
  else
    (some pendedConnectLocal, pendedConnectLocal, s)

/-- The scan loop of the worker (inspect.c lines 1714-1732): the first entry
whose `authConnectDecision` is 0, with the entries before and after it. -/
def firstUndecided :
    List TL_INSPECT_PENDED_PACKET →
      Option (List TL_INSPECT_PENDED_PACKET × TL_INSPECT_PENDED_PACKET ×
        List TL_INSPECT_PENDED_PACKET)
  | [] => none
  | p :: rest =>
    if p.authConnectDecision = 0 then some ([], p, rest)
    else
      match firstUndecided rest with
      | some (before, packet, after) => some (p :: before, packet, after)
      | none => none

/-- The selection of the worker under the connection list lock (inspect.c
lines 1707-1741): the new value of `found` and, when `listEntry` is not NULL
afterwards, the record `packet` points to with the entries before and after
it. When the list is empty nothing is selected. When the scan breaks on an
undecided entry, that entry is selected and `found` becomes TRUE. When the
scan runs to the end of the list, `packet` is left on the last entry and
`listEntry` on the list head: both are reset to NULL only when `found` is
FALSE, and `found` keeps the value earlier iterations gave it. -/
def workerSelect (found : Bool) (connList : List TL_INSPECT_PENDED_PACKET) :
    Bool × Option (List TL_INSPECT_PENDED_PACKET × TL_INSPECT_PENDED_PACKET ×
      List TL_INSPECT_PENDED_PACKET) :=
  match connList with
  | [] => (found, none)
  | first :: rest =>
    match firstUndecided (first :: rest) with
    | some selected => (true, some selected)
    | none =>
      if !found then (found, none)
      else (found, some ((first :: rest).dropLast, (first :: rest).getLast (by simp), []))

/-- The completion of a selected connection (inspect.c lines 1780-1785):
the pointer `packet` after the statement (`none` for NULL) and the globals.
`place` holds the entries before and after the record when the record is
still linked in `gConnList`, so that the list shows what
`TlInspectCompletePendedConnection` writes into the record. -/
def workerComplete (packet : TL_INSPECT_PENDED_PACKET)
    (place : Option (List TL_INSPECT_PENDED_PACKET × List TL_INSPECT_PENDED_PACKET))
    (s : Globals) : Option TL_INSPECT_PENDED_PACKET × Globals :=
  let completed :=
    if packet.type = TL_INSPECT_CONNECT_PACKET then
      TlInspectCompletePendedConnection packet s.configPermitTraffic s
    else (some packet, packet, s)
  match place with
  | some (before, after) =>
    (completed.1, { completed.2.2 with gConnList := before ++ completed.2.1 :: after })
  | none => (completed.1, completed.2.2)

/-- The clone and reinjection of the record (inspect.c lines 1787-1803): the
pointer `packet` after the statement and the globals. -/
def workerReinject (o : WorkerOracle) (packet : Option TL_INSPECT_PENDED_PACKET)
    (s : Globals) : Option TL_INSPECT_PENDED_PACKET × Globals :=
  match packet with
  | some packet =>
    if s.configPermitTraffic then
      if packet.direction = FWP_DIRECTION_OUTBOUND then
        let r := TLInspectCloneReinjectOutbound packet o s
        (if r.1 then none else some packet, r.2)
      else
        let r := TLInspectCloneReinjectInbound packet o s
        (if r.1 then none else some r.2.1, r.2.2)
    else (some packet, s)
  | none => (none, s)

/-- The statement `if (packet != NULL) FreePendedPacket(packet);` (inspect.c
lines 1805-1808). -/
def workerFree (packet : Option TL_INSPECT_PENDED_PACKET) (s : Globals) : Globals :=
  match packet with
  | some packet => FreePendedPacket packet s
  | none => s

/-- The processing of the selected record (inspect.c lines 1780-1808). -/
def workerHandle (o : WorkerOracle) (packet : TL_INSPECT_PENDED_PACKET)
    (place : Option (List TL_INSPECT_PENDED_PACKET × List TL_INSPECT_PENDED_PACKET))
    (s : Globals) : Globals :=
  let completed := workerComplete packet place s
  let reinjected := workerReinject o completed.1 completed.2
  workerFree reinjected.1 reinjected.2

/-- The end of an iteration (inspect.c lines 1810-1826): under both locks the
event is cleared when both queues are empty and the driver is not unloading. -/
def workerFinish (s : Globals) : Globals :=
  let s := KeAcquireInStackQueuedSpinLock Lock.gConnListLock s
  let s := KeAcquireInStackQueuedSpinLock Lock.gPacketQueueLock s
  let s :=
    if s.gConnList.isEmpty && s.gPacketQueue.isEmpty && !s.gDriverUnloading then
      KeClearEvent s
    else s
  let s := KeReleaseInStackQueuedSpinLock Lock.gPacketQueueLock s
  KeReleaseInStackQueuedSpinLock Lock.gConnListLock s

/-- The processing of the selected record followed by the end of the
iteration (inspect.c lines 1780-1826). -/
def workerProcess (o : WorkerOracle) (packet : TL_INSPECT_PENDED_PACKET)
    (place : Option (List TL_INSPECT_PENDED_PACKET × List TL_INSPECT_PENDED_PACKET))
    (s : Globals) : Globals :=
  workerFinish (workerHandle o packet place s)

/-- One iteration of the loop of TLInspectWorker (inspect.c lines 1698-1826),
entered once the wait on `gWorkerEvent` has returned and `gDriverUnloading`
was found clear. The result is `none` when `RemoveHeadList` is applied to an
empty `gPacketQueue`, which yields no packet record. -/
def TLInspectWorkerIteration (o : WorkerOracle) (w : WorkerState) : Option WorkerState :=
  let s :=
    { w.g with
      configPermitTraffic := o.isTrafficPermitted
      policyQueries := w.g.policyQueries + 1 }
  let s := KeAcquireInStackQueuedSpinLock Lock.gConnListLock s
  let selection := workerSelect w.found s.gConnList
  match selection.2 with
  | some (before, packet, after) =>
    if packet.direction = FWP_DIRECTION_INBOUND then
      let s := { s with gConnList := before ++ after }
      let s := KeReleaseInStackQueuedSpinLock Lock.gConnListLock s
      some { g := workerProcess o packet none s, found := selection.1 }
    else
      let s := KeReleaseInStackQueuedSpinLock Lock.gConnListLock s
      some { g := workerProcess o packet (some (before, after)) s, found := selection.1 }
  | none =>
    let s := KeReleaseInStackQueuedSpinLock Lock.gConnListLock s
    match s.gPacketQueue with
    | [] => none
    | packet :: rest =>
      let s := KeAcquireInStackQueuedSpinLock Lock.gPacketQueueLock s
      let s := { s with gPacketQueue := rest }
      let s := KeReleaseInStackQueuedSpinLock Lock.gPacketQueueLock s
      some { g := workerProcess o packet none s, found := selection.1 }

/-- One pass of the first loop of the shutdown phase (inspect.c lines
1831-1857), entered with `gConnList` not empty: the first entry is completed
with `permitTraffic = FALSE`. The entry is not unlinked, so the list shows
what the call writes into the record. -/
def shutdownConnPass (s : Globals) : Globals :=
  let s := KeAcquireInStackQueuedSpinLock Lock.gConnListLock s
  match s.gConnList with
  | [] => KeReleaseInStackQueuedSpinLock Lock.gConnListLock s
  | packet :: rest =>
    let s := KeReleaseInStackQueuedSpinLock Lock.gConnListLock s
    let completed := TlInspectCompletePendedConnection packet false s
    { completed.2.2 with gConnList := completed.2.1 :: rest }

/-- One pass of the second loop of the shutdown phase (inspect.c lines
1863-1889): the head of `gPacketQueue` is removed and freed. -/
def shutdownPacketPass (s : Globals) : Globals :=
  let s := KeAcquireInStackQueuedSpinLock Lock.gPacketQueueLock s
  match s.gPacketQueue with
  | [] => KeReleaseInStackQueuedSpinLock Lock.gPacketQueueLock s
  | packet :: rest =>
    let s := { s with gPacketQueue := rest }
    let s := KeReleaseInStackQueuedSpinLock Lock.gPacketQueueLock s
    FreePendedPacket packet s

/-- A classify call that the filter engine makes on another thread while the
worker runs. -/
structure ClassifyCall where
  hook : HookPoint
  a : ClassifyArgs
  classifyOut : FWPS_CLASSIFY_OUT

/-- The globals after a sequence of classify calls. -/
def runClassifyCalls
    (IsMatchingConnectPacket :
      FlowIdentity → Nat → FWP_DIRECTION → TL_INSPECT_PENDED_PACKET → Bool) :
    List ClassifyCall → Globals → Globals
  | [], s => s
  | call :: calls, s =>
    runClassifyCalls IsMatchingConnectPacket calls
      (classifyFn IsMatchingConnectPacket call.hook call.a call.classifyOut s).2

/-- The loop `while (!IsListEmpty(&gConnList))` of the shutdown phase, run
against the classify calls the filter engine makes meanwhile. The loop never
unlinks an entry itself: for a completed connect it relies on the
re-authorization that FwpsCompleteOperation triggers (inspect.c lines
1622-1627), which is a call of the connect callout. `schedule` gives, for
each pass of the loop, the classify calls made between that pass and the next
test of the loop; the result is `none` when the list is still not empty after
the passes of the schedule. -/
def drainConnList
    (IsMatchingConnectPacket :
      FlowIdentity → Nat → FWP_DIRECTION → TL_INSPECT_PENDED_PACKET → Bool) :
    List (List ClassifyCall) → Globals → Option Globals
  | [], s => if s.gConnList.isEmpty then some s else none
  | calls :: later, s =>
    if s.gConnList.isEmpty then some s
    else
      drainConnList IsMatchingConnectPacket later
        (runClassifyCalls IsMatchingConnectPacket calls (shutdownConnPass s))

/-- The loop `while (!IsListEmpty(&gPacketQueue))` of the shutdown phase, with
at most `fuel` passes: `none` when the queue is still not empty after them. -/
def drainPacketQueue : Nat → Globals → Option Globals
  | 0, s => if s.gPacketQueue.isEmpty then some s else none
  | fuel + 1, s =>
    if s.gPacketQueue.isEmpty then some s else drainPacketQueue fuel (shutdownPacketPass s)

/-- The shutdown phase of TLInspectWorker (inspect.c lines 1829-1891): the
connection list is drained against the classify calls of `schedule`, then the
packet queue is drained with at most `fuel` passes. -/
def TLInspectWorkerShutdown
    (IsMatchingConnectPacket :
      FlowIdentity → Nat → FWP_DIRECTION → TL_INSPECT_PENDED_PACKET → Bool)
    (schedule : List (List ClassifyCall)) (fuel : Nat) (s : Globals) : Option Globals :=
  (drainConnList IsMatchingConnectPacket schedule s).bind (drainPacketQueue fuel)

/-- Modelled from the spec: beginShutdown is implemented by the driver unload
code, which is not among the sources. It raises the one-way flag `unloading`
and wakes the worker. -/
def beginShutdown (s : Globals) : Globals :=
  { s with gDriverUnloading := true, gWorkerEvent := true }

/-- One step of the system: a classify call at one of the hooks, the
completion of an injection, one iteration of the worker loop (enabled when
the event is set and the driver is not unloading), the start of the shutdown,
or one pass of a shutdown loop (the packet loop runs once the connection list
is empty). -/
inductive Step
    (IsMatchingConnectPacket :
      FlowIdentity → Nat → FWP_DIRECTION → TL_INSPECT_PENDED_PACKET → Bool) :
    WorkerState → WorkerState → Prop where
  | classify (hook : HookPoint) (a : ClassifyArgs) (classifyOut : FWPS_CLASSIFY_OUT)
      (w : WorkerState) :
      Step IsMatchingConnectPacket w
        { w with g := (classifyFn IsMatchingConnectPacket hook a classifyOut w.g).2 }
  | ipClassify (a : ClassifyArgs) (classifyOut : FWPS_CLASSIFY_OUT) (w : WorkerState) :
      Step IsMatchingConnectPacket w
        { w with g := (TLInspectIpClassify a classifyOut w.g).2 }
  | injectComplete (packet : TL_INSPECT_PENDED_PACKET) (w : WorkerState) :
      packet ∈ w.g.injected →
      Step IsMatchingConnectPacket w { w with g := TLInspectInjectComplete packet w.g }
  | iteration (o : WorkerOracle) (w w' : WorkerState) :
      w.g.gWorkerEvent = true → w.g.gDriverUnloading = false →
      TLInspectWorkerIteration o w = some w' →
      Step IsMatchingConnectPacket w w'
  | shutdown (w : WorkerState) :
      Step IsMatchingConnectPacket w { w with g := beginShutdown w.g }
  | drainConn (w : WorkerState) :
      w.g.gDriverUnloading = true → w.g.gConnList ≠ [] →
      Step IsMatchingConnectPacket w { w with g := shutdownConnPass w.g }
  | drainPacket (w : WorkerState) :
      w.g.gDriverUnloading = true → w.g.gConnList = [] → w.g.gPacketQueue ≠ [] →
      Step IsMatchingConnectPacket w { w with g := shutdownPacketPass w.g }

/-! ## The protocol names and the print loops -/

/-- The address family AF_INET of the Windows headers. -/
def AF_INET : Nat := 2

/-- The function protocol_to_str (inspect.c lines 85-162). The parameter is a
UCHAR, so only `protocol % 256` is seen; the `switch` compares it, promoted
to `int`, with its case labels, which include 1000, 1256, 1257 and -1. -/
def protocol_to_str (protocol : Nat) : String :=
  let value : Int := ((protocol % 256 : Nat) : Int)
  if value = 3 then "Ggp"
  else if value = 1 then "Icmp"
  else if value = 58 then "IcmpV6"
  else if value = 22 then "Idp"
  else if value = 2 then "Igmp"
  else if value = 0 then "IP/IPv6HopByHopOptions/Unspecified"
  else if value = 51 then "IPSecAuthenticationHeader"
  else if value = 50 then "IPSecEncapsulatingSecurityPayload"
  else if value = 4 then "IPv4"
  else if value = 41 then "IPv6"
  else if value = 60 then "IPv6DestinationOptions"
  else if value = 44 then "IPv6FragmentHeader"
  else if value = 59 then "IPv6NoNextHeader"
  else if value = 43 then "IPv6RoutingHeader"
  else if value = 1000 then "Ipx"
  else if value = 77 then "ND"
  else if value = 12 then "Pup"
  else if value = 255 then "Raw"
  else if value = 1256 then "Spx"
  else if value = 1257 then "SpxII"
  else if value = 6 then "Tcp"
  else if value = 17 then "Udp"
  else if value = -1 then "Unknown"
  else "Error"

/-- NdisGetDataBuffer of NDIS, which is not code of this repository, as the
two callouts call it: with no storage (`Storage = NULL`), so that it returns a
pointer only to bytes that are contiguous in the buffer. A net buffer is
given by the bytes that are contiguous at its data offset; the result is the
region the call grants, the first `bytesNeeded` of them, or `none` (NULL)
when no byte is asked for or fewer bytes are there. -/
def NdisGetDataBuffer (netBuffer : List Nat) (bytesNeeded : Nat) : Option (List Nat) :=
  if 0 < bytesNeeded ∧ bytesNeeded ≤ netBuffer.length then some (netBuffer.take bytesNeeded)
  else none

/-- One pass of the loop that prints the protocol of a buffer in
TLInspectTransportClassify (inspect.c lines 1129-1149). `none`: the pass
prints nothing (`continue`). `some (some name)`: the byte `header[9]` lies in
the region NdisGetDataBuffer granted and `name` is printed. `some none`: the
byte `header[9]` is read outside the granted region. The header size is a
ULONG. -/
def transportPrintProtocol (addressFamily transportHeaderSize : Nat)
    (netBuffer : List Nat) : Option (Option String) :=
  match NdisGetDataBuffer netBuffer (transportHeaderSize % 2 ^ 32) with
  | none => none
  | some header =>
    if addressFamily ≠ AF_INET then none
    else some ((header.get? 9).map protocol_to_str)

/-- One pass of the loop that prints the protocol of a buffer in
TLInspectIpClassify (inspect.c lines 865-886): the bytes asked for are
`ipHeaderSize + transportHeaderSize`, the byte read is
`header[ipHeaderSize + 9]`; both sums are ULONG sums. The result reads as for
`transportPrintProtocol`. -/
def ipPrintProtocol (addressFamily ipHeaderSize transportHeaderSize : Nat)
    (netBuffer : List Nat) : Option (Option String) :=
  match NdisGetDataBuffer netBuffer ((ipHeaderSize + transportHeaderSize) % 2 ^ 32) with
  | none => none
  | some header =>
    if addressFamily ≠ AF_INET then none
    else some ((header.get? ((ipHeaderSize + 9) % 2 ^ 32)).map protocol_to_str)

/-! ## Vocabulary of the specification -/

/-- The event still carries the decision-right: `rights & FWPS_RIGHT_ACTION_WRITE`
is not zero. -/
def hasDecisionRight (classifyOut : FWPS_CLASSIFY_OUT) : Prop :=
  classifyOut.rights &&& FWPS_RIGHT_ACTION_WRITE ≠ 0

instance (classifyOut : FWPS_CLASSIFY_OUT) : Decidable (hasDecisionRight classifyOut) :=
  inferInstanceAs (Decidable (_ ≠ _))

/-- The absorb flag of the output is set. -/
def absorbSet (classifyOut : FWPS_CLASSIFY_OUT) : Prop :=
  classifyOut.flags &&& FWPS_CLASSIFY_OUT_FLAG_ABSORB ≠ 0

instance (classifyOut : FWPS_CLASSIFY_OUT) : Decidable (absorbSet classifyOut) :=
  inferInstanceAs (Decidable (_ ≠ _))

/-- The filter carries the clear-action-right flag. -/
def clearActionRight (a : ClassifyArgs) : Prop :=
  a.filterFlags &&& FWPS_FILTER_FLAG_CLEAR_ACTION_RIGHT ≠ 0

instance (a : ClassifyArgs) : Decidable (clearActionRight a) :=
  inferInstanceAs (Decidable (_ ≠ _))

/-- The event is a replay of a packet the driver injected itself: the event
has a buffer and the injection-state oracle answers INJECTED_BY_SELF or
PREVIOUSLY_INJECTED_BY_SELF for it. The connect callout may be called without
a buffer; the other two callouts always have one. -/
def isReplay (hook : HookPoint) (a : ClassifyArgs) : Bool :=
  match hook with
  | ALE_AUTH_CONNECT => a.layerData.isSome && injectedBySelf a.packetState
  | _ => injectedBySelf a.packetState

/-- The transport callout short-circuits an inbound packet that the ALE
layer will inspect, or that is tunnelled IPsec traffic not yet de-tunnelled. -/
def shortCircuited (a : ClassifyArgs) : Bool :=
  a.packetDirection == FWP_DIRECTION_INBOUND &&
    (a.isAleClassifyRequired || (a.isTunnelMode && !a.isDeTunneled))

/-- The event is the initial authorization of a connection at one of the two
ALE hooks. -/
def isInitialConnection (hook : HookPoint) (a : ClassifyArgs) : Bool :=
  hook != TRANSPORT && !a.isAleReauthorize

/-- The event reaches regular processing: a connect-hook re-authorization
that is inbound or finds no decided matching item, any accept-hook
re-authorization, or a transport packet that is not short-circuited. -/
def reachesRegularProcessing
    (IsMatchingConnectPacket :
      FlowIdentity → Nat → FWP_DIRECTION → TL_INSPECT_PENDED_PACKET → Bool)
    (hook : HookPoint) (a : ClassifyArgs) (s : Globals) : Bool :=
  match hook with
  | ALE_AUTH_CONNECT =>
    a.isAleReauthorize &&
      (a.packetDirection == FWP_DIRECTION_INBOUND ||
        s.gConnList.all (fun p => !reauthScanTest IsMatchingConnectPacket a p))
  | ALE_AUTH_RECV_ACCEPT => a.isAleReauthorize
  | TRANSPORT => !shortCircuited a

/-- The kind of item a hook gives to regular processing. -/
def regularPacketType : HookPoint → TL_INSPECT_PACKET_TYPE
  | TRANSPORT => TL_INSPECT_DATA_PACKET
  | _ => TL_INSPECT_REAUTH_PACKET

/-- The direction of a connection pended at an ALE hook. -/
def initialDirection : HookPoint → FWP_DIRECTION
  | ALE_AUTH_RECV_ACCEPT => FWP_DIRECTION_INBOUND
  | _ => FWP_DIRECTION_OUTBOUND

/-- The item regular processing builds for an event. -/
def regularItem (a : ClassifyArgs) (packetType : TL_INSPECT_PACKET_TYPE)
    (captureIpSec : Bool) (s : Globals) : TL_INSPECT_PENDED_PACKET :=
  { addr := s.allocCount, type := packetType, direction := a.packetDirection,
    authConnectDecision := 0, completionContext := none, flow := a.flow,
    netBufferList := a.layerData,
    ipSecProtected :=
      if captureIpSec && a.packetDirection == FWP_DIRECTION_INBOUND then
        a.isSecureConnection
      else false }

/-- Between the states `s` and `s'` of one call the worker event was set by
`KeSetEvent` exactly when `idle` holds: if `idle` holds the event is set and
one more `KeSetEvent` call is recorded, otherwise the event is as it was and
no call is recorded. -/
def setsEventIff (idle : Prop) (s s' : Globals) : Prop :=
  (idle → s'.gWorkerEvent = true ∧ s'.setEventCalls = s.setEventCalls + 1) ∧
  (¬ idle → s'.gWorkerEvent = s.gWorkerEvent ∧ s'.setEventCalls = s.setEventCalls)

/-- One move of a first-in first-out queue: nothing, one item appended at
the tail, or the head removed. -/
def fifoMove (q q' : List TL_INSPECT_PENDED_PACKET) : Prop :=
  q' = q ∨ (∃ x, q' = q ++ [x]) ∨ (∃ x, q = x :: q')

/-- A run of the system from the state `w`, with the items inserted into the
packet queue along the run, in insertion order, and the items removed from
it, in removal order. A step that leaves the packet queue as it was adds
nothing to either list, a step that appends `x` at the tail adds `x` to the
inserted items, a step that takes the head `x` adds `x` to the removed
items. -/
inductive QueueRun
    (IsMatchingConnectPacket :
      FlowIdentity → Nat → FWP_DIRECTION → TL_INSPECT_PENDED_PACKET → Bool)
    (w : WorkerState) :
    List TL_INSPECT_PENDED_PACKET → List TL_INSPECT_PENDED_PACKET → WorkerState → Prop where
  | start : QueueRun IsMatchingConnectPacket w [] [] w
  | idle (inserted removed : List TL_INSPECT_PENDED_PACKET) (u u' : WorkerState) :
      QueueRun IsMatchingConnectPacket w inserted removed u →
      Step IsMatchingConnectPacket u u' →
      u'.g.gPacketQueue = u.g.gPacketQueue →
      QueueRun IsMatchingConnectPacket w inserted removed u'
  | insert (inserted removed : List TL_INSPECT_PENDED_PACKET) (u u' : WorkerState)
      (x : TL_INSPECT_PENDED_PACKET) :
      QueueRun IsMatchingConnectPacket w inserted removed u →
      Step IsMatchingConnectPacket u u' →
      u'.g.gPacketQueue = u.g.gPacketQueue ++ [x] →
      QueueRun IsMatchingConnectPacket w (inserted ++ [x]) removed u'
  | remove (inserted removed : List TL_INSPECT_PENDED_PACKET) (u u' : WorkerState)
      (x : TL_INSPECT_PENDED_PACKET) :
      QueueRun IsMatchingConnectPacket w inserted removed u →
      Step IsMatchingConnectPacket u u' →
      u.g.gPacketQueue = x :: u'.g.gPacketQueue →
      QueueRun IsMatchingConnectPacket w inserted (removed ++ [x]) u'

/-- Whether the clone-and-reinject call for `packet` reports success: the
clone is allocated, the header is rebuilt when an inbound packet is IPsec
protected, and the injection is accepted. -/
def cloneReinjectSucceeds (o : WorkerOracle) (packet : TL_INSPECT_PENDED_PACKET) : Bool :=
  o.allocateCloneOk &&
    (packet.direction == FWP_DIRECTION_OUTBOUND || !packet.ipSecProtected ||
      o.constructIpHeaderOk) &&
    o.injectOk

/-- Replay of a sequence of lock operations from a state that tells whether
the connection list lock and the packet queue lock are held: the connection
list lock is never acquired while the packet queue lock is held, a lock is
never acquired twice, the connection list lock is released only after the
packet queue lock, and no lock is held at the end. -/
def lockOrderFrom : Bool → Bool → List LockOp → Bool
  | connHeld, packetHeld, [] => !connHeld && !packetHeld
  | connHeld, packetHeld, LockOp.acquire Lock.gConnListLock :: rest =>
    !connHeld && !packetHeld && lockOrderFrom true packetHeld rest
  | connHeld, packetHeld, LockOp.acquire Lock.gPacketQueueLock :: rest =>
    !packetHeld && lockOrderFrom connHeld true rest
  | connHeld, packetHeld, LockOp.release Lock.gPacketQueueLock :: rest =>
    packetHeld && lockOrderFrom connHeld false rest
  | connHeld, packetHeld, LockOp.release Lock.gConnListLock :: rest =>
    connHeld && !packetHeld && lockOrderFrom false packetHeld rest

/-- The lock discipline of the specification for the operations of one call,
started with no lock held. -/
def lockOrderOk (ops : List LockOp) : Bool :=
  lockOrderFrom false false ops

/-! ## Sample values -/

/-- A sample flow: TCP over IPv4. -/
def sampleFlow : FlowIdentity :=
  { addressFamily := 2, localAddr := 0x0A000001, remoteAddr := 0x0A000002,
    remoteScopeId := 0, protocol := 6, compartmentId := 1, interfaceIndex := 3,
    subInterfaceIndex := 0 }

/-- A sample matcher: same flow values, a connect packet of the same direction. -/
def sampleMatch : FlowIdentity → Nat → FWP_DIRECTION → TL_INSPECT_PENDED_PACKET → Bool :=
  fun inFixedValues addressFamily direction p =>
    p.type == TL_INSPECT_CONNECT_PACKET && p.direction == direction &&
      p.flow.addressFamily == addressFamily && p.flow == inFixedValues

/-- A sample event: a fresh initial outbound connection with a buffer. -/
def sampleArgs : ClassifyArgs :=
  { flow := sampleFlow, layerData := some 5, filterFlags := 0, isAleReauthorize := false,
    packetDirection := FWP_DIRECTION_OUTBOUND, isAleClassifyRequired := false,
    isTunnelMode := false, isDeTunneled := false, isSecureConnection := false,
    packetState := FWPS_PACKET_NOT_INJECTED, allocOk := true, pendResult := some 9 }

/-- A sample output on entry: no action yet, the decision-right present. -/
def sampleOut : FWPS_CLASSIFY_OUT :=
  { actionType := 0, rights := FWPS_RIGHT_ACTION_WRITE, flags := 0 }

/-- The state after driver start: empty queues, event clear. -/
def initialGlobals : Globals :=
  { gConnList := [], gPacketQueue := [], gWorkerEvent := false, gDriverUnloading := false,
    configPermitTraffic := false, allocCount := 0, freed := [], lockLog := [],
    setEventCalls := 0 }

/-- A sample pended outbound connection the worker has decided to permit. -/
def sampleDecided : TL_INSPECT_PENDED_PACKET :=
  { addr := 0, type := TL_INSPECT_CONNECT_PACKET, direction := FWP_DIRECTION_OUTBOUND,
    authConnectDecision := FWP_ACTION_PERMIT, completionContext := none,
    flow := sampleFlow, netBufferList := some 5, ipSecProtected := false }

/-- A sample re-authorization event for the sample flow. -/
def sampleReauthArgs : ClassifyArgs :=
  { sampleArgs with isAleReauthorize := true }

/-- A sample state: the decided sample connection waits in the connection list. -/
def decidedGlobals : Globals :=
  { initialGlobals with gConnList := [sampleDecided], gWorkerEvent := true, allocCount := 1 }

/-- A sample state during unload: empty queues, `gDriverUnloading` set. -/
def unloadingGlobals : Globals :=
  { initialGlobals with gDriverUnloading := true, gWorkerEvent := true }

/-- A sample replay: the stack reports the buffer as injected by the driver. -/
def sampleReplayArgs : ClassifyArgs :=
  { sampleArgs with packetState := FWPS_PACKET_INJECTED_BY_SELF }

/-- A sample output on entry whose decision-right is already withdrawn. -/
def sampleOutNoRight : FWPS_CLASSIFY_OUT :=
  { actionType := FWP_ACTION_PERMIT, rights := 0, flags := 0 }

/-- A sample answer of one worker iteration: traffic permitted, every stack
call succeeds. -/
def permitOracle : WorkerOracle :=
  { isTrafficPermitted := true, allocateCloneOk := true, constructIpHeaderOk := true,
    injectOk := true }

/-- A sample answer of one worker iteration: traffic not permitted. -/
def blockOracle : WorkerOracle :=
  { permitOracle with isTrafficPermitted := false }

/-- A sample pended outbound connection that waits for a decision. -/
def sampleUndecided : TL_INSPECT_PENDED_PACKET :=
  { sampleDecided with authConnectDecision := 0, completionContext := some 9 }

/-- A sample pended inbound connection that waits for a decision. -/
def sampleInbound : TL_INSPECT_PENDED_PACKET :=
  { sampleUndecided with direction := FWP_DIRECTION_INBOUND }

/-- A sample outbound data packet. -/
def samplePacket : TL_INSPECT_PENDED_PACKET :=
  { addr := 1, type := TL_INSPECT_DATA_PACKET, direction := FWP_DIRECTION_OUTBOUND,
    authConnectDecision := 0, completionContext := none, flow := sampleFlow,
    netBufferList := some 6, ipSecProtected := false }

/-- A second sample outbound data packet. -/
def samplePacket2 : TL_INSPECT_PENDED_PACKET :=
  { samplePacket with addr := 2, netBufferList := some 7 }

/-- The worker at start: the initial globals, `found` FALSE. -/
def initialWorker : WorkerState :=
  { g := initialGlobals, found := false }

/-- A sample state: two data packets wait in the packet queue, the event is
set. -/
def twoPacketsWorker : WorkerState :=
  { g := { initialGlobals with
      gPacketQueue := [samplePacket, samplePacket2], gWorkerEvent := true, allocCount := 3 }
    found := false }

/-- A sample state: the undecided outbound sample connection is pended, the
event is set. -/
def pendedWorker : WorkerState :=
  { g := { initialGlobals with
      gConnList := [sampleUndecided], gWorkerEvent := true, allocCount := 1 }
    found := false }

/-- A sample state during unload: the undecided outbound sample connection is
still in the connection list. -/
def unloadingPendedGlobals : Globals :=
  { unloadingGlobals with gConnList := [sampleUndecided], allocCount := 1 }

/-- A sample state during unload: only the packet queue holds items. -/
def unloadingPacketsGlobals : Globals :=
  { unloadingGlobals with gPacketQueue := [samplePacket, samplePacket2], allocCount := 3 }

/-- A sample run, first state: the connect callout has pended the sample
connection in the initial state. -/
def connectPendedWorker : WorkerState :=
  { initialWorker with
    g := (classifyFn sampleMatch ALE_AUTH_CONNECT sampleArgs sampleOut initialWorker.g).2 }

/-- A sample run, second state: a worker iteration with the answer Permit
has completed the pended connection, which stays in the connection list. -/
def connectDecidedWorker : WorkerState :=
  (TLInspectWorkerIteration permitOracle connectPendedWorker).getD connectPendedWorker

/-- A sample run, third state: the transport callout has queued a data packet
while the decided connection waits for its re-authorization. -/
def packetBehindDecidedWorker : WorkerState :=
  { connectDecidedWorker with
    g := (classifyFn sampleMatch TRANSPORT sampleArgs sampleOut connectDecidedWorker.g).2 }

/-- The sample event as the recv-accept hook sees it: inbound. -/
def sampleAcceptArgs : ClassifyArgs :=
  { sampleArgs with packetDirection := FWP_DIRECTION_INBOUND }

/-- A second sample run, first state: the transport callout has queued a data
packet in the initial state. -/
def transportQueuedWorker : WorkerState :=
  { initialWorker with
    g := (classifyFn sampleMatch TRANSPORT sampleArgs sampleOut initialWorker.g).2 }

/-- A second sample run, second state: a worker iteration with the answer
Block has freed the packet; `configPermitTraffic` is FALSE from here on. -/
def verdictBlockWorker : WorkerState :=
  (TLInspectWorkerIteration blockOracle transportQueuedWorker).getD transportQueuedWorker

/-- A second sample run, third state: the recv-accept callout has pended an
inbound connection. -/
def acceptPendedWorker : WorkerState :=
  { verdictBlockWorker with
    g := (classifyFn sampleMatch ALE_AUTH_RECV_ACCEPT sampleAcceptArgs sampleOut
      verdictBlockWorker.g).2 }

/-- A second sample run, fourth state: the driver starts to unload before
the worker has looked at the pended connection. -/
def shutdownStartedWorker : WorkerState :=
  { acceptPendedWorker with g := beginShutdown acceptPendedWorker.g }

/-- A second sample run, fifth state: the first shutdown loop has made one
pass. -/
def shutdownPassWorker : WorkerState :=
  { shutdownStartedWorker with g := shutdownConnPass shutdownStartedWorker.g }

/-- A third sample run, second state: a worker iteration with the answer
Block has completed the pended sample connection with the decision Block. -/
def connectBlockedWorker : WorkerState :=
  (TLInspectWorkerIteration blockOracle connectPendedWorker).getD connectPendedWorker

/-- A third sample run, third state: the re-authorization of the connection
has matched the blocked item, removed it from the connection list and freed
it. -/
def reauthFreedWorker : WorkerState :=
  { connectBlockedWorker with
    g := (classifyFn sampleMatch ALE_AUTH_CONNECT sampleReauthArgs sampleOut
      connectBlockedWorker.g).2 }

/-- A fourth sample run, second state: a worker iteration with the answer
Permit has reinjected the queued packet; `configPermitTraffic` is TRUE from
here on. -/
def verdictPermitWorker : WorkerState :=
  (TLInspectWorkerIteration permitOracle transportQueuedWorker).getD transportQueuedWorker

/-- A fourth sample run, third state: the recv-accept callout has pended an
inbound connection. -/
def acceptPendedPermitWorker : WorkerState :=
  { verdictPermitWorker with
    g := (classifyFn sampleMatch ALE_AUTH_RECV_ACCEPT sampleAcceptArgs sampleOut
      verdictPermitWorker.g).2 }

/-- A fourth sample run, fourth state: the driver starts to unload before
the worker has looked at the pended connection. -/
def shutdownPermitWorker : WorkerState :=
  { acceptPendedPermitWorker with g := beginShutdown acceptPendedPermitWorker.g }

/-- A sample state: the undecided inbound sample connection is pended between
two decided outbound connections, the event is set. -/
def inboundPendedWorker : WorkerState :=
  { g := { initialGlobals with
      gConnList := [sampleDecided, { sampleInbound with addr := 1 },
        { sampleDecided with addr := 2 }]
      gWorkerEvent := true, allocCount := 3 }
    found := true }

/-- The eight bytes of a UDP header (ports 53 and 1024, length 8, no
checksum) with no payload behind it. -/
def sampleUdpBuffer : List Nat := [0, 53, 4, 0, 0, 8, 0, 0]

/-- An IPv4 header of twenty bytes (protocol 17 at offset 9) followed by the
sample UDP header. -/
def sampleIpBuffer : List Nat :=
  [69, 0, 0, 28, 0, 1, 0, 0, 64, 17, 0, 0, 10, 0, 0, 1, 10, 0, 0, 2] ++ sampleUdpBuffer

/-- The re-authorization of the sample connection, as the filter engine
calls it after the pended operation has been completed. -/
def sampleReauthCall : ClassifyCall :=
  { hook := ALE_AUTH_CONNECT, a := sampleReauthArgs, classifyOut := sampleOut }

/-- A sample state during unload: the undecided outbound sample connection is
in the connection list and two data packets are in the packet queue. -/
def unloadingBusyGlobals : Globals :=
  { unloadingPendedGlobals with gPacketQueue := [samplePacket, samplePacket2], allocCount := 3 }

/-! ## Auxiliary facts -/

theorem andNot32_write_and (r : Nat) :
    andNot32 r FWPS_RIGHT_ACTION_WRITE &&& FWPS_RIGHT_ACTION_WRITE = 0 := by
  unfold andNot32 FWPS_RIGHT_ACTION_WRITE
  rw [Nat.and_assoc]
  simp

theorem or_absorb_and (f : Nat) :
    (f ||| FWPS_CLASSIFY_OUT_FLAG_ABSORB) &&& FWPS_CLASSIFY_OUT_FLAG_ABSORB ≠ 0 := by
  unfold FWPS_CLASSIFY_OUT_FLAG_ABSORB
  rw [Nat.and_one_is_mod]
  have h : (f ||| 1) % 2 = 1 := Nat.or_mod_two_eq_one.mpr (Or.inr rfl)
  omega

@[simp] theorem signalWorker_gConnList (b : Bool) (s : Globals) :
    (signalWorker b s).gConnList = s.gConnList := by
  cases b <;> rfl

@[simp] theorem signalWorker_gPacketQueue (b : Bool) (s : Globals) :
    (signalWorker b s).gPacketQueue = s.gPacketQueue := by
  cases b <;> rfl

@[simp] theorem signalWorker_gDriverUnloading (b : Bool) (s : Globals) :
    (signalWorker b s).gDriverUnloading = s.gDriverUnloading := by
  cases b <;> rfl

@[simp] theorem signalWorker_configPermitTraffic (b : Bool) (s : Globals) :
    (signalWorker b s).configPermitTraffic = s.configPermitTraffic := by
  cases b <;> rfl

@[simp] theorem signalWorker_allocCount (b : Bool) (s : Globals) :
    (signalWorker b s).allocCount = s.allocCount := by
  cases b <;> rfl

@[simp] theorem signalWorker_freed (b : Bool) (s : Globals) :
    (signalWorker b s).freed = s.freed := by
  cases b <;> rfl

@[simp] theorem signalWorker_lockLog (b : Bool) (s : Globals) :
    (signalWorker b s).lockLog = s.lockLog := by
  cases b <;> rfl

@[simp] theorem signalWorker_gWorkerEvent (b : Bool) (s : Globals) :
    (signalWorker b s).gWorkerEvent = (b || s.gWorkerEvent) := by
  cases b <;> rfl

@[simp] theorem signalWorker_setEventCalls (b : Bool) (s : Globals) :
    (signalWorker b s).setEventCalls = s.setEventCalls + (if b then 1 else 0) := by
  cases b <;> rfl

/-- The initial-authorization branch when allocation and pend both succeed. -/
theorem pendInitialConnection_ok (a : ClassifyArgs) (direction : FWP_DIRECTION)
    (classifyOut : FWPS_CLASSIFY_OUT) (s : Globals) (completionContext : Nat)
    (halloc : a.allocOk = true) (hpend : a.pendResult = some completionContext) :
    pendInitialConnection a direction classifyOut s =
      (blockAbsorbClassify classifyOut,
        signalWorker (s.gConnList.isEmpty && s.gPacketQueue.isEmpty)
          { s with
            gConnList := s.gConnList ++
              [{ addr := s.allocCount, type := TL_INSPECT_CONNECT_PACKET,
                 direction := direction, authConnectDecision := 0,
                 completionContext := some completionContext, flow := a.flow,
                 netBufferList := a.layerData, ipSecProtected := false }]
            allocCount := s.allocCount + 1
            lockLog := s.lockLog ++
              [LockOp.acquire Lock.gConnListLock, LockOp.acquire Lock.gPacketQueueLock,
               LockOp.release Lock.gPacketQueueLock, LockOp.release Lock.gConnListLock] }) := by
  simp [pendInitialConnection, AllocateAndInitializePendedPacket, halloc, hpend,
    KeAcquireInStackQueuedSpinLock, KeReleaseInStackQueuedSpinLock, insertTailConnList]

/-- The initial-authorization branch when the allocation fails. -/
theorem pendInitialConnection_allocFail (a : ClassifyArgs) (direction : FWP_DIRECTION)
    (classifyOut : FWPS_CLASSIFY_OUT) (s : Globals) (halloc : a.allocOk = false) :
    pendInitialConnection a direction classifyOut s = (blockClassify classifyOut, s) := by
  simp [pendInitialConnection, AllocateAndInitializePendedPacket, halloc]

/-- The initial-authorization branch when the pend is refused. -/
theorem pendInitialConnection_pendFail (a : ClassifyArgs) (direction : FWP_DIRECTION)
    (classifyOut : FWPS_CLASSIFY_OUT) (s : Globals)
    (halloc : a.allocOk = true) (hpend : a.pendResult = none) :
    pendInitialConnection a direction classifyOut s =
      (blockClassify classifyOut,
        { s with
          allocCount := s.allocCount + 1
          freed := s.freed ++
            [{ addr := s.allocCount, type := TL_INSPECT_CONNECT_PACKET,
               direction := direction, authConnectDecision := 0,
               completionContext := none, flow := a.flow,
               netBufferList := a.layerData, ipSecProtected := false }] }) := by
  simp [pendInitialConnection, AllocateAndInitializePendedPacket, halloc, hpend,
    FreePendedPacket]

/-- Regular processing when the allocation fails. -/
theorem queueRegularPacket_allocFail (a : ClassifyArgs)
    (packetType : TL_INSPECT_PACKET_TYPE) (captureIpSec : Bool)
    (classifyOut : FWPS_CLASSIFY_OUT) (s : Globals) (halloc : a.allocOk = false) :
    queueRegularPacket a packetType captureIpSec classifyOut s
      = (blockClassify classifyOut, s) := by
  simp [queueRegularPacket, AllocateAndInitializePendedPacket, halloc]

/-- Regular processing when the driver is not unloading. -/
theorem queueRegularPacket_queued (a : ClassifyArgs)
    (packetType : TL_INSPECT_PACKET_TYPE) (captureIpSec : Bool)
    (classifyOut : FWPS_CLASSIFY_OUT) (s : Globals)
    (halloc : a.allocOk = true) (hrun : s.gDriverUnloading = false) :
    queueRegularPacket a packetType captureIpSec classifyOut s =
      (blockAbsorbClassify classifyOut,
        signalWorker (s.gPacketQueue.isEmpty && s.gConnList.isEmpty)
          { s with
            gPacketQueue := s.gPacketQueue ++ [regularItem a packetType captureIpSec s]
            allocCount := s.allocCount + 1
            lockLog := s.lockLog ++
              [LockOp.acquire Lock.gConnListLock, LockOp.acquire Lock.gPacketQueueLock,
               LockOp.release Lock.gPacketQueueLock, LockOp.release Lock.gConnListLock] }) := by
  by_cases hc : captureIpSec = true ∧ a.packetDirection = FWP_DIRECTION_INBOUND <;>
    simp [queueRegularPacket, AllocateAndInitializePendedPacket, halloc,
      KeAcquireInStackQueuedSpinLock, KeReleaseInStackQueuedSpinLock, insertTailPacketQueue,
      regularItem, hrun, hc]

/-- Regular processing when the driver is unloading. -/
theorem queueRegularPacket_unloading (a : ClassifyArgs)
    (packetType : TL_INSPECT_PACKET_TYPE) (captureIpSec : Bool)
    (classifyOut : FWPS_CLASSIFY_OUT) (s : Globals)
    (halloc : a.allocOk = true) (hunload : s.gDriverUnloading = true) :
    queueRegularPacket a packetType captureIpSec classifyOut s =
      (permitClassify a.filterFlags classifyOut,
        { s with
          allocCount := s.allocCount + 1
          freed := s.freed ++ [regularItem a packetType captureIpSec s]
          lockLog := s.lockLog ++
            [LockOp.acquire Lock.gConnListLock, LockOp.acquire Lock.gPacketQueueLock,
             LockOp.release Lock.gPacketQueueLock, LockOp.release Lock.gConnListLock] }) := by
  by_cases hc : captureIpSec = true ∧ a.packetDirection = FWP_DIRECTION_INBOUND <;>
    simp [queueRegularPacket, AllocateAndInitializePendedPacket, halloc,
      KeAcquireInStackQueuedSpinLock, KeReleaseInStackQueuedSpinLock, FreePendedPacket,
      regularItem, hunload, hc]


/-- An initial connection at an ALE hook runs the initial-authorization branch. -/
theorem classifyFn_initial
    (IsMatchingConnectPacket :
      FlowIdentity → Nat → FWP_DIRECTION → TL_INSPECT_PENDED_PACKET → Bool)
    (hook : HookPoint) (a : ClassifyArgs) (classifyOut : FWPS_CLASSIFY_OUT) (s : Globals)
    (hright : hasDecisionRight classifyOut)
    (hfresh : isReplay hook a = false)
    (hinitial : isInitialConnection hook a = true) :
    classifyFn IsMatchingConnectPacket hook a classifyOut s
      = pendInitialConnection a (initialDirection hook) classifyOut s := by
  have hr : ¬ (classifyOut.rights &&& FWPS_RIGHT_ACTION_WRITE = 0) := hright
  cases hook
  · have hf : (a.layerData.isSome && injectedBySelf a.packetState) = false := hfresh
    have hi : a.isAleReauthorize = false := by simpa [isInitialConnection] using hinitial
    simp only [classifyFn, TLInspectALEConnectClassify, if_neg hr, hf, hi, initialDirection]
    simp
  · have hf : injectedBySelf a.packetState = false := hfresh
    have hi : a.isAleReauthorize = false := by simpa [isInitialConnection] using hinitial
    simp only [classifyFn, TLInspectALERecvAcceptClassify, if_neg hr, hf, hi,
      initialDirection]
    simp
  · simp [isInitialConnection] at hinitial

/-- An event that reaches regular processing runs the shared queueing part,
from a state that differs from the entry state at most by the lock
operations of an unsuccessful scan. -/
theorem classifyFn_regular
    (IsMatchingConnectPacket :
      FlowIdentity → Nat → FWP_DIRECTION → TL_INSPECT_PENDED_PACKET → Bool)
    (hook : HookPoint) (a : ClassifyArgs) (classifyOut : FWPS_CLASSIFY_OUT) (s : Globals)
    (hright : hasDecisionRight classifyOut)
    (hfresh : isReplay hook a = false)
    (hreg : reachesRegularProcessing IsMatchingConnectPacket hook a s = true) :
    ∃ log : List LockOp,
      classifyFn IsMatchingConnectPacket hook a classifyOut s
        = queueRegularPacket a (regularPacketType hook) (hook != TRANSPORT) classifyOut
            { s with lockLog := s.lockLog ++ log } := by
  have hr : ¬ (classifyOut.rights &&& FWPS_RIGHT_ACTION_WRITE = 0) := hright
  cases hook
  · have hf : (a.layerData.isSome && injectedBySelf a.packetState) = false := hfresh
    simp only [reachesRegularProcessing, Bool.and_eq_true, Bool.or_eq_true] at hreg
    obtain ⟨hre, hcase⟩ := hreg
    by_cases hdir : a.packetDirection = FWP_DIRECTION_OUTBOUND
    · have hall : s.gConnList.find? (reauthScanTest IsMatchingConnectPacket a) = none := by
        rcases hcase with h | h
        · simp [hdir] at h
        · rw [List.find?_eq_none]
          intro x hx
          have := (List.all_eq_true.mp h) x hx
          simpa using this
      refine ⟨[LockOp.acquire Lock.gConnListLock, LockOp.release Lock.gConnListLock], ?_⟩
      simp [classifyFn, TLInspectALEConnectClassify, hr, hf, hre, hdir,
        KeAcquireInStackQueuedSpinLock, KeReleaseInStackQueuedSpinLock, hall,
        regularPacketType]
      rfl
    · refine ⟨[], ?_⟩
      simp [classifyFn, TLInspectALEConnectClassify, hr, hf, hre, hdir, regularPacketType]
      rfl
  · have hf : injectedBySelf a.packetState = false := hfresh
    have hre : a.isAleReauthorize = true := hreg
    refine ⟨[], ?_⟩
    simp [classifyFn, TLInspectALERecvAcceptClassify, hr, hf, hre, regularPacketType]
    rfl
  · have hf : injectedBySelf a.packetState = false := hfresh
    simp only [reachesRegularProcessing, shortCircuited, Bool.not_eq_true',
      Bool.and_eq_false_iff, Bool.or_eq_false_iff, beq_eq_false_iff_ne, ne_eq,
      Bool.not_eq_false'] at hreg
    refine ⟨[], ?_⟩
    have h1 : ¬ (a.packetDirection = FWP_DIRECTION_INBOUND ∧ a.isAleClassifyRequired = true) := by
      rintro ⟨hd, hq⟩
      rcases hreg with h | h
      · exact h hd
      · rw [h.1] at hq; exact Bool.noConfusion hq
    have h2 : ¬ (a.packetDirection = FWP_DIRECTION_INBOUND ∧ a.isTunnelMode = true ∧
        ¬ a.isDeTunneled = true) := by
      rintro ⟨hd, ht, hn⟩
      rcases hreg with h | h
      · exact h hd
      · rcases h.2 with h3 | h3
        · rw [h3] at ht; exact Bool.noConfusion ht
        · exact hn h3
    simp only [classifyFn, TLInspectTransportClassify, if_neg hr, hf, if_neg h1, if_neg h2,
      regularPacketType]
    simp

/-! ## The dispatchers: pending an initial connection -/

/-- C1: an initial (non-re-authorization) event at the connect or accept hook
that has the decision-right, is not a replay, and whose allocation and pend
both succeed appends exactly one freshly allocated item of kind
TL_INSPECT_CONNECT_PACKET (outbound at connect, inbound at accept, no decision
recorded) at the tail of `gConnList`, leaves `gPacketQueue` as it was, and
returns action Block with the decision-right withdrawn and the absorb flag
set. -/
theorem initial_connection_is_pended
    (IsMatchingConnectPacket :
      FlowIdentity → Nat → FWP_DIRECTION → TL_INSPECT_PENDED_PACKET → Bool)
    (hook : HookPoint) (a : ClassifyArgs) (classifyOut : FWPS_CLASSIFY_OUT) (s : Globals)
    (completionContext : Nat)
    (hhook : hook = ALE_AUTH_CONNECT ∨ hook = ALE_AUTH_RECV_ACCEPT)
    (hright : hasDecisionRight classifyOut)
    (hinitial : a.isAleReauthorize = false)
    (hfresh : isReplay hook a = false)
    (halloc : a.allocOk = true)
    (hpend : a.pendResult = some completionContext) :
    (∃ item : TL_INSPECT_PENDED_PACKET,
      (classifyFn IsMatchingConnectPacket hook a classifyOut s).2.gConnList
          = s.gConnList ++ [item] ∧
        item.addr = s.allocCount ∧
        item.type = TL_INSPECT_CONNECT_PACKET ∧
        (hook = ALE_AUTH_CONNECT → item.direction = FWP_DIRECTION_OUTBOUND) ∧
        (hook = ALE_AUTH_RECV_ACCEPT → item.direction = FWP_DIRECTION_INBOUND) ∧
        item.authConnectDecision = 0 ∧
        item.completionContext = some completionContext) ∧
      (classifyFn IsMatchingConnectPacket hook a classifyOut s).2.allocCount
          = s.allocCount + 1 ∧
      (classifyFn IsMatchingConnectPacket hook a classifyOut s).2.gPacketQueue
          = s.gPacketQueue ∧
      (classifyFn IsMatchingConnectPacket hook a classifyOut s).1.actionType
          = FWP_ACTION_BLOCK ∧
      ¬ hasDecisionRight (classifyFn IsMatchingConnectPacket hook a classifyOut s).1 ∧
      absorbSet (classifyFn IsMatchingConnectPacket hook a classifyOut s).1 := by
  have hr : ¬ (classifyOut.rights &&& FWPS_RIGHT_ACTION_WRITE = 0) := hright
  rcases hhook with rfl | rfl
  · have hf : (a.layerData.isSome && injectedBySelf a.packetState) = false := hfresh
    simp only [classifyFn, TLInspectALEConnectClassify, if_neg hr, hf, hinitial,
      pendInitialConnection_ok a _ classifyOut s completionContext halloc hpend]
    simp [blockAbsorbClassify, hasDecisionRight, absorbSet, andNot32_write_and,
      or_absorb_and]
  · have hf : injectedBySelf a.packetState = false := hfresh
    simp only [classifyFn, TLInspectALERecvAcceptClassify, if_neg hr, hf, hinitial,
      pendInitialConnection_ok a _ classifyOut s completionContext halloc hpend]
    simp [blockAbsorbClassify, hasDecisionRight, absorbSet, andNot32_write_and,
      or_absorb_and]

/-- Witness for C1: a fresh outbound connect on the initial state. -/
theorem initial_connection_is_pended_witness :
    (∃ item : TL_INSPECT_PENDED_PACKET,
      (classifyFn sampleMatch ALE_AUTH_CONNECT sampleArgs sampleOut initialGlobals).2.gConnList
          = initialGlobals.gConnList ++ [item] ∧
        item.addr = initialGlobals.allocCount ∧
        item.type = TL_INSPECT_CONNECT_PACKET ∧
        (ALE_AUTH_CONNECT = ALE_AUTH_CONNECT → item.direction = FWP_DIRECTION_OUTBOUND) ∧
        (ALE_AUTH_CONNECT = ALE_AUTH_RECV_ACCEPT → item.direction = FWP_DIRECTION_INBOUND) ∧
        item.authConnectDecision = 0 ∧
        item.completionContext = some 9) ∧
      (classifyFn sampleMatch ALE_AUTH_CONNECT sampleArgs sampleOut initialGlobals).2.allocCount
          = initialGlobals.allocCount + 1 ∧
      (classifyFn sampleMatch ALE_AUTH_CONNECT sampleArgs sampleOut initialGlobals).2.gPacketQueue
          = initialGlobals.gPacketQueue ∧
      (classifyFn sampleMatch ALE_AUTH_CONNECT sampleArgs sampleOut initialGlobals).1.actionType
          = FWP_ACTION_BLOCK ∧
      ¬ hasDecisionRight
          (classifyFn sampleMatch ALE_AUTH_CONNECT sampleArgs sampleOut initialGlobals).1 ∧
      absorbSet
          (classifyFn sampleMatch ALE_AUTH_CONNECT sampleArgs sampleOut initialGlobals).1 :=
  initial_connection_is_pended sampleMatch ALE_AUTH_CONNECT sampleArgs sampleOut
    initialGlobals 9 (Or.inl rfl) (by decide) rfl (by decide) rfl rfl


/-! ## The dispatchers: failures -/

/-- C2: for an event with the decision-right that is not a replay, when the
allocation of the item fails (for an initial connection or in regular
processing) or, for an initial connection, the pend operation fails: the
action is Block, the decision-right is withdrawn, the flags (hence the absorb
flag) are left as received, neither queue changes, the event is not set, and
the item, when one was allocated, is freed. -/
theorem failed_allocation_or_pend_blocks
    (IsMatchingConnectPacket :
      FlowIdentity → Nat → FWP_DIRECTION → TL_INSPECT_PENDED_PACKET → Bool)
    (hook : HookPoint) (a : ClassifyArgs) (classifyOut : FWPS_CLASSIFY_OUT) (s : Globals)
    (hright : hasDecisionRight classifyOut)
    (hfresh : isReplay hook a = false)
    (hfail :
      (isInitialConnection hook a = true ∧ (a.allocOk = false ∨ a.pendResult = none)) ∨
      (reachesRegularProcessing IsMatchingConnectPacket hook a s = true ∧
        a.allocOk = false)) :
    (classifyFn IsMatchingConnectPacket hook a classifyOut s).1.actionType
        = FWP_ACTION_BLOCK ∧
      ¬ hasDecisionRight (classifyFn IsMatchingConnectPacket hook a classifyOut s).1 ∧
      (classifyFn IsMatchingConnectPacket hook a classifyOut s).1.flags
        = classifyOut.flags ∧
      (classifyFn IsMatchingConnectPacket hook a classifyOut s).2.gConnList
        = s.gConnList ∧
      (classifyFn IsMatchingConnectPacket hook a classifyOut s).2.gPacketQueue
        = s.gPacketQueue ∧
      (classifyFn IsMatchingConnectPacket hook a classifyOut s).2.gWorkerEvent
        = s.gWorkerEvent ∧
      (classifyFn IsMatchingConnectPacket hook a classifyOut s).2.setEventCalls
        = s.setEventCalls ∧
      (a.allocOk = false →
        (classifyFn IsMatchingConnectPacket hook a classifyOut s).2.allocCount
          = s.allocCount ∧
        (classifyFn IsMatchingConnectPacket hook a classifyOut s).2.freed = s.freed) ∧
      (a.allocOk = true →
        (classifyFn IsMatchingConnectPacket hook a classifyOut s).2.allocCount
          = s.allocCount + 1 ∧
        ∃ item : TL_INSPECT_PENDED_PACKET, item.addr = s.allocCount ∧
          (classifyFn IsMatchingConnectPacket hook a classifyOut s).2.freed
            = s.freed ++ [item]) := by
  rcases hfail with ⟨hinit, hf⟩ | ⟨hreg, hf⟩
  · rw [classifyFn_initial IsMatchingConnectPacket hook a classifyOut s hright hfresh hinit]
    cases halloc : a.allocOk
    · rw [pendInitialConnection_allocFail a _ classifyOut s halloc]
      simp [blockClassify, hasDecisionRight, andNot32_write_and]
    · have hpend : a.pendResult = none := by
        rcases hf with h | h
        · rw [halloc] at h; exact Bool.noConfusion h
        · exact h
      rw [pendInitialConnection_pendFail a _ classifyOut s halloc hpend]
      simp [blockClassify, hasDecisionRight, andNot32_write_and]
  · obtain ⟨log, h⟩ :=
      classifyFn_regular IsMatchingConnectPacket hook a classifyOut s hright hfresh hreg
    rw [h, queueRegularPacket_allocFail a _ _ classifyOut _ hf]
    simp [blockClassify, hasDecisionRight, andNot32_write_and, hf]

/-- Witness for C2: an initial outbound connect whose pend operation is refused. -/
theorem failed_allocation_or_pend_blocks_witness :
    (classifyFn sampleMatch ALE_AUTH_CONNECT { sampleArgs with pendResult := none }
        sampleOut initialGlobals).1.actionType = FWP_ACTION_BLOCK ∧
      (classifyFn sampleMatch ALE_AUTH_CONNECT { sampleArgs with pendResult := none }
        sampleOut initialGlobals).2.gConnList = [] ∧
      (classifyFn sampleMatch ALE_AUTH_CONNECT { sampleArgs with pendResult := none }
        sampleOut initialGlobals).2.freed.length = 1 := by
  have h := failed_allocation_or_pend_blocks sampleMatch ALE_AUTH_CONNECT
    { sampleArgs with pendResult := none } sampleOut initialGlobals (by decide) (by decide)
    (Or.inl ⟨by decide, Or.inr rfl⟩)
  refine ⟨h.1, h.2.2.2.1, ?_⟩
  obtain ⟨_, item, _, hfreed⟩ := h.2.2.2.2.2.2.2.2 rfl
  rw [hfreed]
  rfl


/-! ## The dispatchers: re-authorization match -/

/-- The entry a scan finds splits the list; erasing the first entry that
passes the test removes exactly that entry. -/
theorem find_eraseP_split {α : Type} (p : α → Bool) :
    ∀ (l : List α) (x : α), l.find? p = some x →
      ∃ l₁ l₂, l = l₁ ++ x :: l₂ ∧ (∀ b ∈ l₁, p b = false) ∧ p x = true ∧
        l.eraseP p = l₁ ++ l₂
  | [], x, h => by simp at h
  | y :: ys, x, h => by
    cases hy : p y
    · rw [List.find?_cons_of_neg _ (by simp [hy])] at h
      obtain ⟨l₁, l₂, hl, hpre, hx, he⟩ := find_eraseP_split p ys x h
      refine ⟨y :: l₁, l₂, by simp [hl], ?_, hx, ?_⟩
      · intro b hb
        rcases List.mem_cons.mp hb with rfl | hb
        · exact hy
        · exact hpre b hb
      · rw [List.eraseP_cons_of_neg (by simp [hy]), he]
        rfl
    · rw [List.find?_cons_of_pos _ hy] at h
      cases h
      exact ⟨[], ys, rfl, by simp, hy, by rw [List.eraseP_cons_of_pos hy]; rfl⟩

/-- Regular processing never touches the connection list. -/
theorem queueRegularPacket_gConnList (a : ClassifyArgs)
    (packetType : TL_INSPECT_PACKET_TYPE) (captureIpSec : Bool)
    (classifyOut : FWPS_CLASSIFY_OUT) (s : Globals) :
    (queueRegularPacket a packetType captureIpSec classifyOut s).2.gConnList
      = s.gConnList := by
  cases halloc : a.allocOk
  · rw [queueRegularPacket_allocFail a _ _ classifyOut s halloc]
  · cases hunload : s.gDriverUnloading
    · rw [queueRegularPacket_queued a _ _ classifyOut s halloc hunload]
      simp
    · rw [queueRegularPacket_unloading a _ _ classifyOut s halloc hunload]

/-- An outbound re-authorization at the connect hook whose scan finds an
entry runs the body of the match. -/
theorem connect_reauth_found
    (IsMatchingConnectPacket :
      FlowIdentity → Nat → FWP_DIRECTION → TL_INSPECT_PENDED_PACKET → Bool)
    (a : ClassifyArgs) (classifyOut : FWPS_CLASSIFY_OUT) (s : Globals)
    (item : TL_INSPECT_PENDED_PACKET)
    (hright : hasDecisionRight classifyOut)
    (hfresh : isReplay ALE_AUTH_CONNECT a = false)
    (hreauth : a.isAleReauthorize = true)
    (hout : a.packetDirection = FWP_DIRECTION_OUTBOUND)
    (hfind : s.gConnList.find? (reauthScanTest IsMatchingConnectPacket a) = some item) :
    TLInspectALEConnectClassify IsMatchingConnectPacket a classifyOut s
      = completeReauthMatch a item (reauthScanTest IsMatchingConnectPacket a) classifyOut
          (KeAcquireInStackQueuedSpinLock Lock.gConnListLock s) := by
  have hr : ¬ (classifyOut.rights &&& FWPS_RIGHT_ACTION_WRITE = 0) := hright
  have hf : (a.layerData.isSome && injectedBySelf a.packetState) = false := hfresh
  have hfind2 : (KeAcquireInStackQueuedSpinLock Lock.gConnListLock s).gConnList.find?
      (reauthScanTest IsMatchingConnectPacket a) = some item := hfind
  simp only [TLInspectALEConnectClassify, if_neg hr, hf, hreauth, hout, hfind2]
  simp

/-- An outbound re-authorization at the connect hook whose scan finds nothing
goes on to regular processing. -/
theorem connect_reauth_not_found
    (IsMatchingConnectPacket :
      FlowIdentity → Nat → FWP_DIRECTION → TL_INSPECT_PENDED_PACKET → Bool)
    (a : ClassifyArgs) (classifyOut : FWPS_CLASSIFY_OUT) (s : Globals)
    (hright : hasDecisionRight classifyOut)
    (hfresh : isReplay ALE_AUTH_CONNECT a = false)
    (hreauth : a.isAleReauthorize = true)
    (hout : a.packetDirection = FWP_DIRECTION_OUTBOUND)
    (hfind : s.gConnList.find? (reauthScanTest IsMatchingConnectPacket a) = none) :
    TLInspectALEConnectClassify IsMatchingConnectPacket a classifyOut s
      = queueRegularPacket a TL_INSPECT_REAUTH_PACKET true classifyOut
          (KeReleaseInStackQueuedSpinLock Lock.gConnListLock
            (KeAcquireInStackQueuedSpinLock Lock.gConnListLock s)) := by
  have hr : ¬ (classifyOut.rights &&& FWPS_RIGHT_ACTION_WRITE = 0) := hright
  have hf : (a.layerData.isSome && injectedBySelf a.packetState) = false := hfresh
  have hfind2 : (KeAcquireInStackQueuedSpinLock Lock.gConnListLock s).gConnList.find?
      (reauthScanTest IsMatchingConnectPacket a) = none := hfind
  simp only [TLInspectALEConnectClassify, if_neg hr, hf, hreauth, hout, hfind2]
  simp

/-- The connection list after the body of the match. -/
theorem completeReauthMatch_gConnList (a : ClassifyArgs) (item : TL_INSPECT_PENDED_PACKET)
    (test : TL_INSPECT_PENDED_PACKET → Bool) (classifyOut : FWPS_CLASSIFY_OUT)
    (s : Globals) :
    (completeReauthMatch a item test classifyOut s).2.gConnList = s.gConnList.eraseP test := by
  unfold completeReauthMatch
  simp only []
  split <;>
    simp [KeAcquireInStackQueuedSpinLock, KeReleaseInStackQueuedSpinLock,
      insertTailPacketQueue, FreePendedPacket]

/-- The action after the body of the match is the recorded decision. -/
theorem completeReauthMatch_actionType (a : ClassifyArgs) (item : TL_INSPECT_PENDED_PACKET)
    (test : TL_INSPECT_PENDED_PACKET → Bool) (classifyOut : FWPS_CLASSIFY_OUT)
    (s : Globals) :
    (completeReauthMatch a item test classifyOut s).1.actionType
      = item.authConnectDecision := by
  unfold completeReauthMatch
  simp only []
  split <;> split <;> rfl

/-- The rights after the body of the match. -/
theorem completeReauthMatch_rights (a : ClassifyArgs) (item : TL_INSPECT_PENDED_PACKET)
    (test : TL_INSPECT_PENDED_PACKET → Bool) (classifyOut : FWPS_CLASSIFY_OUT)
    (s : Globals) :
    (completeReauthMatch a item test classifyOut s).1.rights
      = if item.authConnectDecision = FWP_ACTION_BLOCK ∨ clearActionRight a then
          andNot32 classifyOut.rights FWPS_RIGHT_ACTION_WRITE
        else classifyOut.rights := by
  unfold completeReauthMatch clearActionRight
  simp only []
  split <;> split <;> rfl

/-- The state after the body of the match when the entry is morphed into a
data packet and queued for send injection. -/
theorem completeReauthMatch_requeue (a : ClassifyArgs) (item : TL_INSPECT_PENDED_PACKET)
    (test : TL_INSPECT_PENDED_PACKET → Bool) (classifyOut : FWPS_CLASSIFY_OUT)
    (s : Globals)
    (hrun : s.gDriverUnloading = false)
    (hbuf : item.netBufferList.isSome = true)
    (hpermit : item.authConnectDecision = FWP_ACTION_PERMIT) :
    (completeReauthMatch a item test classifyOut s).2 =
      KeReleaseInStackQueuedSpinLock Lock.gConnListLock
        (signalWorker (s.gPacketQueue.isEmpty && (s.gConnList.eraseP test).isEmpty)
          { s with
            gConnList := s.gConnList.eraseP test
            gPacketQueue := s.gPacketQueue ++ [{ item with type := TL_INSPECT_DATA_PACKET }]
            lockLog := s.lockLog ++
              [LockOp.acquire Lock.gPacketQueueLock, LockOp.release Lock.gPacketQueueLock] }) := by
  simp [completeReauthMatch, hrun, hbuf, hpermit, KeAcquireInStackQueuedSpinLock,
    KeReleaseInStackQueuedSpinLock, insertTailPacketQueue]

/-- The state after the body of the match when the entry is not queued again:
it is freed at `Exit`. -/
theorem completeReauthMatch_free (a : ClassifyArgs) (item : TL_INSPECT_PENDED_PACKET)
    (test : TL_INSPECT_PENDED_PACKET → Bool) (classifyOut : FWPS_CLASSIFY_OUT)
    (s : Globals)
    (hno : ¬ (s.gDriverUnloading = false ∧ item.netBufferList.isSome = true ∧
      item.authConnectDecision = FWP_ACTION_PERMIT)) :
    (completeReauthMatch a item test classifyOut s).2 =
      { s with
        gConnList := s.gConnList.eraseP test
        lockLog := s.lockLog ++ [LockOp.release Lock.gConnListLock]
        freed := s.freed ++ [item] } := by
  have hc : (!s.gDriverUnloading && item.netBufferList.isSome &&
      item.authConnectDecision == FWP_ACTION_PERMIT) = false := by
    rw [Bool.eq_false_iff]
    intro h
    apply hno
    simpa [Bool.and_eq_true, and_assoc] using h
  simp only [completeReauthMatch, hc]
  simp [KeReleaseInStackQueuedSpinLock, FreePendedPacket]

/-- C3: at the connect hook, for an outbound re-authorization with the
decision-right that is not a replay: when `gConnList` holds an entry that
matches the flow and has a decision recorded, the first such entry in list
order is removed, the other entries keep their order, the action returned is
the decision recorded in that entry, and the decision-right is withdrawn when
that decision is Block. Whether or not an entry is found, the entries without
a decision are exactly the same before and after the call. -/
theorem reauth_match_returns_recorded_decision
    (IsMatchingConnectPacket :
      FlowIdentity → Nat → FWP_DIRECTION → TL_INSPECT_PENDED_PACKET → Bool)
    (a : ClassifyArgs) (classifyOut : FWPS_CLASSIFY_OUT) (s : Globals)
    (hright : hasDecisionRight classifyOut)
    (hfresh : isReplay ALE_AUTH_CONNECT a = false)
    (hreauth : a.isAleReauthorize = true)
    (hout : a.packetDirection = FWP_DIRECTION_OUTBOUND) :
    ((∃ p ∈ s.gConnList,
        IsMatchingConnectPacket a.flow a.flow.addressFamily a.packetDirection p = true ∧
          p.authConnectDecision ≠ 0) →
      ∃ (before : List TL_INSPECT_PENDED_PACKET) (item : TL_INSPECT_PENDED_PACKET)
          (after : List TL_INSPECT_PENDED_PACKET),
        s.gConnList = before ++ item :: after ∧
        (∀ p ∈ before,
          ¬ (IsMatchingConnectPacket a.flow a.flow.addressFamily a.packetDirection p = true ∧
            p.authConnectDecision ≠ 0)) ∧
        IsMatchingConnectPacket a.flow a.flow.addressFamily a.packetDirection item = true ∧
        item.authConnectDecision ≠ 0 ∧
        (classifyFn IsMatchingConnectPacket ALE_AUTH_CONNECT a classifyOut s).2.gConnList
          = before ++ after ∧
        (classifyFn IsMatchingConnectPacket ALE_AUTH_CONNECT a classifyOut s).1.actionType
          = item.authConnectDecision ∧
        (item.authConnectDecision = FWP_ACTION_BLOCK →
          ¬ hasDecisionRight
            (classifyFn IsMatchingConnectPacket ALE_AUTH_CONNECT a classifyOut s).1)) ∧
      (classifyFn IsMatchingConnectPacket ALE_AUTH_CONNECT a classifyOut s).2.gConnList.filter
          (fun p => p.authConnectDecision == 0)
        = s.gConnList.filter (fun p => p.authConnectDecision == 0) := by
  have htest : ∀ p, reauthScanTest IsMatchingConnectPacket a p = true ↔
      (IsMatchingConnectPacket a.flow a.flow.addressFamily a.packetDirection p = true ∧
        p.authConnectDecision ≠ 0) := by
    intro p
    simp [reauthScanTest]
  cases hfind : s.gConnList.find? (reauthScanTest IsMatchingConnectPacket a) with
  | none =>
    have hnone := List.find?_eq_none.mp hfind
    refine ⟨?_, ?_⟩
    · rintro ⟨p, hp, hm⟩
      exact absurd ((htest p).mpr hm) (hnone p hp)
    · simp only [classifyFn]
      rw [connect_reauth_not_found IsMatchingConnectPacket a classifyOut s hright hfresh
        hreauth hout hfind, queueRegularPacket_gConnList]
      rfl
  | some item =>
    obtain ⟨before, after, hsplit, hbefore, hitem, herase⟩ :=
      find_eraseP_split (reauthScanTest IsMatchingConnectPacket a) s.gConnList item hfind
    have hres := connect_reauth_found IsMatchingConnectPacket a classifyOut s item hright
      hfresh hreauth hout hfind
    have hlist :
        (classifyFn IsMatchingConnectPacket ALE_AUTH_CONNECT a classifyOut s).2.gConnList
          = before ++ after := by
      simp only [classifyFn]
      rw [hres, completeReauthMatch_gConnList]
      exact herase
    have hdec := (htest item).mp hitem
    refine ⟨fun _ => ⟨before, item, after, hsplit, ?_, hdec.1, hdec.2, hlist, ?_, ?_⟩, ?_⟩
    · intro p hp hm
      have := hbefore p hp
      rw [(htest p).mpr hm] at this
      exact Bool.noConfusion this
    · simp only [classifyFn]
      rw [hres, completeReauthMatch_actionType]
    · intro hblock
      simp only [classifyFn, hasDecisionRight]
      rw [hres, completeReauthMatch_rights, if_pos (Or.inl hblock)]
      simp [andNot32_write_and]
    · rw [hlist, hsplit]
      have : (item.authConnectDecision == 0) = false := by simpa using hdec.2
      simp [List.filter_cons, this]


/-- Witness for C3: the re-authorization of the decided sample connection. -/
theorem reauth_match_returns_recorded_decision_witness :
    (∃ (before : List TL_INSPECT_PENDED_PACKET) (item : TL_INSPECT_PENDED_PACKET)
        (after : List TL_INSPECT_PENDED_PACKET),
      decidedGlobals.gConnList = before ++ item :: after ∧
        (classifyFn sampleMatch ALE_AUTH_CONNECT sampleReauthArgs sampleOut
          decidedGlobals).2.gConnList = before ++ after ∧
        (classifyFn sampleMatch ALE_AUTH_CONNECT sampleReauthArgs sampleOut
          decidedGlobals).1.actionType = item.authConnectDecision) ∧
      (classifyFn sampleMatch ALE_AUTH_CONNECT sampleReauthArgs sampleOut
          decidedGlobals).2.gConnList.filter (fun p => p.authConnectDecision == 0)
        = decidedGlobals.gConnList.filter (fun p => p.authConnectDecision == 0) := by
  have h := reauth_match_returns_recorded_decision sampleMatch sampleReauthArgs sampleOut
    decidedGlobals (by decide) (by decide) rfl rfl
  obtain ⟨before, item, after, h1, _, _, _, h5, h6, _⟩ :=
    h.1 ⟨sampleDecided, by decide, by decide, by decide⟩
  exact ⟨⟨before, item, after, h1, h5, h6⟩, h.2⟩

/-- C4: when an outbound re-authorization at the connect hook finds and
removes an entry while the driver is not unloading, the entry is appended at
the tail of `gPacketQueue` with its type changed to TL_INSPECT_DATA_PACKET
(and is not freed) when its recorded decision is Permit and it carries a net
buffer list; in every other case `gPacketQueue` is unchanged, the entry is
freed, and no entry with its address remains in either queue. -/
theorem reauth_match_requeues_or_frees
    (IsMatchingConnectPacket :
      FlowIdentity → Nat → FWP_DIRECTION → TL_INSPECT_PENDED_PACKET → Bool)
    (a : ClassifyArgs) (classifyOut : FWPS_CLASSIFY_OUT) (s : Globals)
    (item : TL_INSPECT_PENDED_PACKET)
    (hright : hasDecisionRight classifyOut)
    (hfresh : isReplay ALE_AUTH_CONNECT a = false)
    (hreauth : a.isAleReauthorize = true)
    (hout : a.packetDirection = FWP_DIRECTION_OUTBOUND)
    (hrun : s.gDriverUnloading = false)
    (hfind : s.gConnList.find? (reauthScanTest IsMatchingConnectPacket a) = some item)
    (hnodup : ((s.gConnList ++ s.gPacketQueue).map (fun p => p.addr)).Nodup) :
    (item.authConnectDecision = FWP_ACTION_PERMIT ∧ item.netBufferList.isSome = true →
        (classifyFn IsMatchingConnectPacket ALE_AUTH_CONNECT a classifyOut s).2.gPacketQueue
          = s.gPacketQueue ++ [{ item with type := TL_INSPECT_DATA_PACKET }] ∧
        (classifyFn IsMatchingConnectPacket ALE_AUTH_CONNECT a classifyOut s).2.freed
          = s.freed) ∧
      (¬ (item.authConnectDecision = FWP_ACTION_PERMIT ∧ item.netBufferList.isSome = true) →
        (classifyFn IsMatchingConnectPacket ALE_AUTH_CONNECT a classifyOut s).2.gPacketQueue
          = s.gPacketQueue ∧
        (classifyFn IsMatchingConnectPacket ALE_AUTH_CONNECT a classifyOut s).2.freed
          = s.freed ++ [item] ∧
        ∀ q ∈ (classifyFn IsMatchingConnectPacket ALE_AUTH_CONNECT a classifyOut s).2.gConnList
            ++ (classifyFn IsMatchingConnectPacket ALE_AUTH_CONNECT a classifyOut s).2.gPacketQueue,
          q.addr ≠ item.addr) := by
  have hres := connect_reauth_found IsMatchingConnectPacket a classifyOut s item hright
    hfresh hreauth hout hfind
  have hrun2 : (KeAcquireInStackQueuedSpinLock Lock.gConnListLock s).gDriverUnloading
      = false := hrun
  simp only [classifyFn]
  rw [hres]
  refine ⟨?_, ?_⟩
  · rintro ⟨hpermit, hbuf⟩
    rw [completeReauthMatch_requeue a item _ classifyOut _ hrun2 hbuf hpermit]
    simp [KeAcquireInStackQueuedSpinLock, KeReleaseInStackQueuedSpinLock]
  · intro hno
    have hno2 : ¬ ((KeAcquireInStackQueuedSpinLock Lock.gConnListLock s).gDriverUnloading
        = false ∧ item.netBufferList.isSome = true ∧
        item.authConnectDecision = FWP_ACTION_PERMIT) := by
      rintro ⟨_, hb, hp⟩
      exact hno ⟨hp, hb⟩
    rw [completeReauthMatch_free a item _ classifyOut _ hno2]
    obtain ⟨before, after, hsplit, _, _, herase⟩ :=
      find_eraseP_split (reauthScanTest IsMatchingConnectPacket a) s.gConnList item hfind
    refine ⟨rfl, rfl, ?_⟩
    have hlist : (KeAcquireInStackQueuedSpinLock Lock.gConnListLock s).gConnList.eraseP
        (reauthScanTest IsMatchingConnectPacket a) = before ++ after := herase
    simp only [hlist]
    have hmid : (item.addr :: ((before ++ after ++ s.gPacketQueue).map
        (fun p => p.addr))).Nodup := by
      have h2 : ((s.gConnList ++ s.gPacketQueue).map (fun p => p.addr))
          = before.map (fun p => p.addr) ++
              item.addr :: ((after ++ s.gPacketQueue).map (fun p => p.addr)) := by
        rw [hsplit]
        simp
      rw [h2] at hnodup
      have h3 := List.nodup_middle.mp hnodup
      simpa using h3
    intro q hq heq
    have hq2 : q ∈ before ++ after ++ s.gPacketQueue := hq
    have hnot := (List.nodup_cons.mp hmid).1
    apply hnot
    rw [← heq]
    exact List.mem_map_of_mem _ hq2

/-- Witness for C4: the decided sample connection carries a buffer and was
permitted, so its re-authorization moves it to the packet queue. -/
theorem reauth_match_requeues_or_frees_witness :
    (classifyFn sampleMatch ALE_AUTH_CONNECT sampleReauthArgs sampleOut
        decidedGlobals).2.gPacketQueue
      = decidedGlobals.gPacketQueue ++
          [{ sampleDecided with type := TL_INSPECT_DATA_PACKET }] ∧
    (classifyFn sampleMatch ALE_AUTH_CONNECT sampleReauthArgs sampleOut
        decidedGlobals).2.freed = decidedGlobals.freed :=
  (reauth_match_requeues_or_frees sampleMatch sampleReauthArgs sampleOut decidedGlobals
    sampleDecided (by decide) (by decide) rfl rfl rfl (by decide) (by decide)).1
    ⟨rfl, rfl⟩

/-! ## The dispatchers: regular processing -/

/-- C5: an event with the decision-right that is not a replay and reaches
regular processing (a connect-hook re-authorization that is inbound or finds
no decided matching entry, any accept-hook re-authorization, a transport
packet that is not short-circuited) while the driver is not unloading and
the allocation succeeds appends exactly one freshly allocated item at the
tail of `gPacketQueue`, of type TL_INSPECT_REAUTH_PACKET at the two ALE hooks
and TL_INSPECT_DATA_PACKET at the transport hook; `gConnList` is unchanged and
the output is action Block with the decision-right withdrawn and the absorb
flag set. -/
theorem regular_processing_enqueues
    (IsMatchingConnectPacket :
      FlowIdentity → Nat → FWP_DIRECTION → TL_INSPECT_PENDED_PACKET → Bool)
    (hook : HookPoint) (a : ClassifyArgs) (classifyOut : FWPS_CLASSIFY_OUT) (s : Globals)
    (hright : hasDecisionRight classifyOut)
    (hfresh : isReplay hook a = false)
    (hreg : reachesRegularProcessing IsMatchingConnectPacket hook a s = true)
    (hrun : s.gDriverUnloading = false)
    (halloc : a.allocOk = true) :
    (∃ item : TL_INSPECT_PENDED_PACKET,
      (classifyFn IsMatchingConnectPacket hook a classifyOut s).2.gPacketQueue
          = s.gPacketQueue ++ [item] ∧
        item.addr = s.allocCount ∧
        (hook = ALE_AUTH_CONNECT → item.type = TL_INSPECT_REAUTH_PACKET) ∧
        (hook = ALE_AUTH_RECV_ACCEPT → item.type = TL_INSPECT_REAUTH_PACKET) ∧
        (hook = TRANSPORT → item.type = TL_INSPECT_DATA_PACKET) ∧
        item.direction = a.packetDirection ∧
        item.netBufferList = a.layerData) ∧
      (classifyFn IsMatchingConnectPacket hook a classifyOut s).2.allocCount
          = s.allocCount + 1 ∧
      (classifyFn IsMatchingConnectPacket hook a classifyOut s).2.gConnList
          = s.gConnList ∧
      (classifyFn IsMatchingConnectPacket hook a classifyOut s).2.freed = s.freed ∧
      (classifyFn IsMatchingConnectPacket hook a classifyOut s).1.actionType
          = FWP_ACTION_BLOCK ∧
      ¬ hasDecisionRight (classifyFn IsMatchingConnectPacket hook a classifyOut s).1 ∧
      absorbSet (classifyFn IsMatchingConnectPacket hook a classifyOut s).1 := by
  obtain ⟨log, h⟩ :=
    classifyFn_regular IsMatchingConnectPacket hook a classifyOut s hright hfresh hreg
  have hrun2 : ({ s with lockLog := s.lockLog ++ log } : Globals).gDriverUnloading
      = false := hrun
  rw [h, queueRegularPacket_queued a _ _ classifyOut _ halloc hrun2]
  refine ⟨⟨regularItem a (regularPacketType hook) (hook != TRANSPORT) s, ?_⟩, ?_⟩
  · cases hook <;> simp [regularItem, regularPacketType]
  · simp [blockAbsorbClassify, hasDecisionRight, absorbSet, andNot32_write_and,
      or_absorb_and]

/-- Witness for C5: an outbound transport packet on the initial state. -/
theorem regular_processing_enqueues_witness :
    (∃ item : TL_INSPECT_PENDED_PACKET,
      (classifyFn sampleMatch TRANSPORT sampleArgs sampleOut initialGlobals).2.gPacketQueue
          = initialGlobals.gPacketQueue ++ [item] ∧
        item.addr = initialGlobals.allocCount ∧
        item.type = TL_INSPECT_DATA_PACKET) ∧
      (classifyFn sampleMatch TRANSPORT sampleArgs sampleOut initialGlobals).2.gConnList
          = initialGlobals.gConnList ∧
      (classifyFn sampleMatch TRANSPORT sampleArgs sampleOut initialGlobals).1.actionType
          = FWP_ACTION_BLOCK := by
  have h := regular_processing_enqueues sampleMatch TRANSPORT sampleArgs sampleOut
    initialGlobals (by decide) (by decide) (by decide) rfl rfl
  obtain ⟨⟨item, h1, h2, _, _, h5, _⟩, _, h7, _, h9, _⟩ := h
  exact ⟨⟨item, h1, h2, h5 rfl⟩, h7, h9⟩

/-- C6: an event with the decision-right that is not a replay and reaches
the enqueue decision of regular processing (a data packet at the transport
hook, a re-authorization packet at the connect or accept hook) with its item
allocated while the driver is unloading gets action Permit; the flags (hence
the absorb flag) are left as received, both queues are exactly as before, the
event is not set, and the allocated item is freed. -/
theorem regular_processing_permits_while_unloading
    (IsMatchingConnectPacket :
      FlowIdentity → Nat → FWP_DIRECTION → TL_INSPECT_PENDED_PACKET → Bool)
    (hook : HookPoint) (a : ClassifyArgs) (classifyOut : FWPS_CLASSIFY_OUT) (s : Globals)
    (hright : hasDecisionRight classifyOut)
    (hfresh : isReplay hook a = false)
    (hreg : reachesRegularProcessing IsMatchingConnectPacket hook a s = true)
    (hunload : s.gDriverUnloading = true)
    (halloc : a.allocOk = true) :
    (classifyFn IsMatchingConnectPacket hook a classifyOut s).1.actionType
        = FWP_ACTION_PERMIT ∧
      (classifyFn IsMatchingConnectPacket hook a classifyOut s).1.flags
        = classifyOut.flags ∧
      (classifyFn IsMatchingConnectPacket hook a classifyOut s).2.gConnList
        = s.gConnList ∧
      (classifyFn IsMatchingConnectPacket hook a classifyOut s).2.gPacketQueue
        = s.gPacketQueue ∧
      (classifyFn IsMatchingConnectPacket hook a classifyOut s).2.gWorkerEvent
        = s.gWorkerEvent ∧
      (classifyFn IsMatchingConnectPacket hook a classifyOut s).2.setEventCalls
        = s.setEventCalls ∧
      (classifyFn IsMatchingConnectPacket hook a classifyOut s).2.allocCount
        = s.allocCount + 1 ∧
      ∃ item : TL_INSPECT_PENDED_PACKET, item.addr = s.allocCount ∧
        (classifyFn IsMatchingConnectPacket hook a classifyOut s).2.freed
          = s.freed ++ [item] := by
  obtain ⟨log, h⟩ :=
    classifyFn_regular IsMatchingConnectPacket hook a classifyOut s hright hfresh hreg
  have hunload2 : ({ s with lockLog := s.lockLog ++ log } : Globals).gDriverUnloading
      = true := hunload
  rw [h, queueRegularPacket_unloading a _ _ classifyOut _ halloc hunload2]
  simp [permitClassify, regularItem]

/-- Witness for C6: an outbound transport packet while the driver unloads. -/
theorem regular_processing_permits_while_unloading_witness :
    (classifyFn sampleMatch TRANSPORT sampleArgs sampleOut unloadingGlobals).1.actionType
        = FWP_ACTION_PERMIT ∧
      (classifyFn sampleMatch TRANSPORT sampleArgs sampleOut unloadingGlobals).2.gPacketQueue
        = unloadingGlobals.gPacketQueue ∧
      (classifyFn sampleMatch TRANSPORT sampleArgs sampleOut unloadingGlobals).2.gWorkerEvent
        = unloadingGlobals.gWorkerEvent := by
  have h := regular_processing_permits_while_unloading sampleMatch TRANSPORT sampleArgs
    sampleOut unloadingGlobals (by decide) (by decide) (by decide) rfl rfl
  exact ⟨h.1, h.2.2.2.1, h.2.2.2.2.1⟩


/-! ## The dispatchers: immediate resolution -/

/-- A replay, or a transport packet that is short-circuited, is permitted in
place: the globals are not touched. -/
theorem classifyFn_bypass
    (IsMatchingConnectPacket :
      FlowIdentity → Nat → FWP_DIRECTION → TL_INSPECT_PENDED_PACKET → Bool)
    (hook : HookPoint) (a : ClassifyArgs) (classifyOut : FWPS_CLASSIFY_OUT) (s : Globals)
    (hright : hasDecisionRight classifyOut)
    (hby : isReplay hook a = true ∨ (hook = TRANSPORT ∧ shortCircuited a = true)) :
    classifyFn IsMatchingConnectPacket hook a classifyOut s
      = (permitClassify a.filterFlags classifyOut, s) := by
  have hr : ¬ (classifyOut.rights &&& FWPS_RIGHT_ACTION_WRITE = 0) := hright
  rcases hby with hrep | ⟨rfl, hsc⟩
  · cases hook
    · have hf : (a.layerData.isSome && injectedBySelf a.packetState) = true := hrep
      simp only [classifyFn, TLInspectALEConnectClassify, if_neg hr, hf]
      simp
    · have hf : injectedBySelf a.packetState = true := hrep
      simp only [classifyFn, TLInspectALERecvAcceptClassify, if_neg hr, hf]
      simp
    · have hf : injectedBySelf a.packetState = true := hrep
      simp only [classifyFn, TLInspectTransportClassify, if_neg hr, hf]
      simp
  · simp only [classifyFn, TLInspectTransportClassify, if_neg hr]
    simp only [shortCircuited, Bool.and_eq_true, Bool.or_eq_true, beq_iff_eq,
      Bool.not_eq_true'] at hsc
    obtain ⟨hd, hcase⟩ := hsc
    split
    · rfl
    · rcases hcase with h | ⟨ht, hn⟩
      · rw [if_pos ⟨hd, h⟩]
      · split
        · rfl
        · rw [if_pos ⟨hd, ht, by simp [hn]⟩]

/-- C8: an event with the decision-right whose buffer the injection-state
oracle reports as injected (or previously injected) by the driver itself gets
action Permit at each of the three hooks; the globals are left exactly as
they were (no item allocated or freed, both queues and the event unchanged),
the flags (hence the absorb flag) are as received, and the decision-right is
withdrawn exactly when the filter carries the clear-action-right flag. -/
theorem replay_is_permitted_in_place
    (IsMatchingConnectPacket :
      FlowIdentity → Nat → FWP_DIRECTION → TL_INSPECT_PENDED_PACKET → Bool)
    (hook : HookPoint) (a : ClassifyArgs) (classifyOut : FWPS_CLASSIFY_OUT) (s : Globals)
    (hright : hasDecisionRight classifyOut)
    (hreplay : isReplay hook a = true) :
    (classifyFn IsMatchingConnectPacket hook a classifyOut s).1.actionType
        = FWP_ACTION_PERMIT ∧
      (classifyFn IsMatchingConnectPacket hook a classifyOut s).2 = s ∧
      (classifyFn IsMatchingConnectPacket hook a classifyOut s).1.flags
        = classifyOut.flags ∧
      (¬ hasDecisionRight (classifyFn IsMatchingConnectPacket hook a classifyOut s).1 ↔
        clearActionRight a) := by
  rw [classifyFn_bypass IsMatchingConnectPacket hook a classifyOut s hright (Or.inl hreplay)]
  refine ⟨rfl, rfl, rfl, ?_⟩
  simp only [permitClassify, hasDecisionRight, clearActionRight]
  constructor
  · intro h
    by_cases hc : a.filterFlags &&& FWPS_FILTER_FLAG_CLEAR_ACTION_RIGHT ≠ 0
    · exact hc
    · rw [if_neg hc] at h
      exact absurd hright h
  · intro hc
    rw [if_pos hc]
    simp [andNot32_write_and]

/-- Witness for C8: a replayed buffer at the transport hook. -/
theorem replay_is_permitted_in_place_witness :
    (classifyFn sampleMatch TRANSPORT sampleReplayArgs sampleOut initialGlobals).1.actionType
        = FWP_ACTION_PERMIT ∧
      (classifyFn sampleMatch TRANSPORT sampleReplayArgs sampleOut initialGlobals).2
        = initialGlobals := by
  have h := replay_is_permitted_in_place sampleMatch TRANSPORT sampleReplayArgs sampleOut
    initialGlobals (by decide) (by decide)
  exact ⟨h.1, h.2.1⟩

/-- C9: when the decision-right is already withdrawn on entry, each of the
three callouts returns the output exactly as received and the globals exactly
as they were (no item allocated, both queues and the event unchanged). -/
theorem withdrawn_right_passes_through
    (IsMatchingConnectPacket :
      FlowIdentity → Nat → FWP_DIRECTION → TL_INSPECT_PENDED_PACKET → Bool)
    (hook : HookPoint) (a : ClassifyArgs) (classifyOut : FWPS_CLASSIFY_OUT) (s : Globals)
    (hnone : ¬ hasDecisionRight classifyOut) :
    classifyFn IsMatchingConnectPacket hook a classifyOut s = (classifyOut, s) := by
  have hr : classifyOut.rights &&& FWPS_RIGHT_ACTION_WRITE = 0 := by
    by_contra h
    exact hnone h
  cases hook
  · simp only [classifyFn, TLInspectALEConnectClassify, if_pos hr]
  · simp only [classifyFn, TLInspectALERecvAcceptClassify, if_pos hr]
  · simp only [classifyFn, TLInspectTransportClassify, if_pos hr]

/-- Witness for C9: the sample connect presented with the right withdrawn. -/
theorem withdrawn_right_passes_through_witness :
    classifyFn sampleMatch ALE_AUTH_CONNECT sampleArgs sampleOutNoRight initialGlobals
      = (sampleOutNoRight, initialGlobals) :=
  withdrawn_right_passes_through sampleMatch ALE_AUTH_CONNECT sampleArgs sampleOutNoRight
    initialGlobals (by decide)

/-! ## The dispatchers: waking the worker -/

/-- The worker event after `signalWorker`. -/
theorem setsEventIff_signalWorker (b : Bool) (idle : Prop) (s0 s : Globals)
    (hb : b = true ↔ idle) (he : s.gWorkerEvent = s0.gWorkerEvent)
    (hc : s.setEventCalls = s0.setEventCalls) :
    setsEventIff idle s0 (signalWorker b s) := by
  constructor
  · intro hi
    have : b = true := hb.mpr hi
    simp [this, hc]
  · intro hi
    have : b = false := by
      cases b
      · rfl
      · exact absurd (hb.mp rfl) hi
    simp [this, he, hc]

/-- C10: at each of the three places where a callout inserts an item into a
queue, the call sets the worker event exactly when both queues were empty
immediately before the insertion, and otherwise leaves the event as it was:
(1) an initial connection appended to `gConnList`; (2) a regular packet
appended to `gPacketQueue`; (3) a matched connection re-typed and appended to
`gPacketQueue`, where the connection list immediately before the insertion is
the list with the matched entry already unlinked. -/
theorem insertion_signals_iff_idle
    (IsMatchingConnectPacket :
      FlowIdentity → Nat → FWP_DIRECTION → TL_INSPECT_PENDED_PACKET → Bool)
    (hook : HookPoint) (a : ClassifyArgs) (classifyOut : FWPS_CLASSIFY_OUT) (s : Globals)
    (hright : hasDecisionRight classifyOut)
    (hfresh : isReplay hook a = false) :
    (isInitialConnection hook a = true → a.allocOk = true → a.pendResult.isSome = true →
        setsEventIff (s.gConnList = [] ∧ s.gPacketQueue = []) s
          (classifyFn IsMatchingConnectPacket hook a classifyOut s).2) ∧
      (reachesRegularProcessing IsMatchingConnectPacket hook a s = true →
        a.allocOk = true → s.gDriverUnloading = false →
        setsEventIff (s.gConnList = [] ∧ s.gPacketQueue = []) s
          (classifyFn IsMatchingConnectPacket hook a classifyOut s).2) ∧
      (∀ item : TL_INSPECT_PENDED_PACKET,
        hook = ALE_AUTH_CONNECT → a.isAleReauthorize = true →
        a.packetDirection = FWP_DIRECTION_OUTBOUND →
        s.gConnList.find? (reauthScanTest IsMatchingConnectPacket a) = some item →
        s.gDriverUnloading = false → item.netBufferList.isSome = true →
        item.authConnectDecision = FWP_ACTION_PERMIT →
        setsEventIff
          (s.gConnList.eraseP (reauthScanTest IsMatchingConnectPacket a) = [] ∧
            s.gPacketQueue = []) s
          (classifyFn IsMatchingConnectPacket hook a classifyOut s).2) := by
  refine ⟨?_, ?_, ?_⟩
  · intro hinit halloc hpend
    obtain ⟨ctx, hctx⟩ := Option.isSome_iff_exists.mp hpend
    rw [classifyFn_initial IsMatchingConnectPacket hook a classifyOut s hright hfresh hinit,
      pendInitialConnection_ok a _ classifyOut s ctx halloc hctx]
    apply setsEventIff_signalWorker
    · simp [List.isEmpty_iff]
    · rfl
    · rfl
  · intro hreg halloc hrun
    obtain ⟨log, h⟩ :=
      classifyFn_regular IsMatchingConnectPacket hook a classifyOut s hright hfresh hreg
    have hrun2 : ({ s with lockLog := s.lockLog ++ log } : Globals).gDriverUnloading
        = false := hrun
    rw [h, queueRegularPacket_queued a _ _ classifyOut _ halloc hrun2]
    apply setsEventIff_signalWorker
    · simp [List.isEmpty_iff, and_comm]
    · rfl
    · rfl
  · intro item hhook hre hout hfind hrun hbuf hpermit
    subst hhook
    have hres := connect_reauth_found IsMatchingConnectPacket a classifyOut s item hright
      hfresh hre hout hfind
    have hrun2 : (KeAcquireInStackQueuedSpinLock Lock.gConnListLock s).gDriverUnloading
        = false := hrun
    simp only [classifyFn]
    rw [hres, completeReauthMatch_requeue a item _ classifyOut _ hrun2 hbuf hpermit]
    have hsig := setsEventIff_signalWorker
      (s.gPacketQueue.isEmpty &&
        (s.gConnList.eraseP (reauthScanTest IsMatchingConnectPacket a)).isEmpty)
      (s.gConnList.eraseP (reauthScanTest IsMatchingConnectPacket a) = [] ∧
        s.gPacketQueue = []) s
      { s with
        gConnList := s.gConnList.eraseP (reauthScanTest IsMatchingConnectPacket a)
        gPacketQueue := s.gPacketQueue ++ [{ item with type := TL_INSPECT_DATA_PACKET }]
        lockLog := s.lockLog ++ [LockOp.acquire Lock.gConnListLock,
          LockOp.acquire Lock.gPacketQueueLock, LockOp.release Lock.gPacketQueueLock] }
      (by simp [List.isEmpty_iff, and_comm]) rfl rfl
    simpa [setsEventIff, KeReleaseInStackQueuedSpinLock, KeAcquireInStackQueuedSpinLock]
      using hsig

/-- Witness for C10: the first connect on the initial state finds both queues
empty and sets the worker event. -/
theorem insertion_signals_iff_idle_witness :
    (classifyFn sampleMatch ALE_AUTH_CONNECT sampleArgs sampleOut
        initialGlobals).2.gWorkerEvent = true ∧
      (classifyFn sampleMatch ALE_AUTH_CONNECT sampleArgs sampleOut
        initialGlobals).2.setEventCalls = initialGlobals.setEventCalls + 1 :=
  ((insertion_signals_iff_idle sampleMatch ALE_AUTH_CONNECT sampleArgs sampleOut
    initialGlobals (by decide) (by decide)).1 (by decide) rfl rfl).1 ⟨rfl, rfl⟩

/-! ## The worker: frame facts -/

/-- The end of an iteration touches only the lock log, the event and the
count of `KeClearEvent` calls. -/
theorem workerFinish_frame (s : Globals) :
    (workerFinish s).gConnList = s.gConnList ∧
    (workerFinish s).gPacketQueue = s.gPacketQueue ∧
    (workerFinish s).gDriverUnloading = s.gDriverUnloading ∧
    (workerFinish s).configPermitTraffic = s.configPermitTraffic ∧
    (workerFinish s).policyQueries = s.policyQueries ∧
    (workerFinish s).freed = s.freed ∧
    (workerFinish s).completeOps = s.completeOps ∧
    (workerFinish s).cloneSendCalls = s.cloneSendCalls ∧
    (workerFinish s).cloneRecvCalls = s.cloneRecvCalls ∧
    (workerFinish s).injected = s.injected ∧
    (workerFinish s).lockLog = s.lockLog ++
      [LockOp.acquire Lock.gConnListLock, LockOp.acquire Lock.gPacketQueueLock,
       LockOp.release Lock.gPacketQueueLock, LockOp.release Lock.gConnListLock] := by
  unfold workerFinish
  simp only [KeAcquireInStackQueuedSpinLock, KeReleaseInStackQueuedSpinLock, KeClearEvent]
  split <;> simp

/-- TlInspectCompletePendedConnection touches only the lists of completed
operations and of freed records. -/
theorem TlInspectCompletePendedConnection_frame (packet : TL_INSPECT_PENDED_PACKET)
    (permitTraffic : Bool) (s : Globals) :
    (TlInspectCompletePendedConnection packet permitTraffic s).2.2.gPacketQueue
      = s.gPacketQueue ∧
    (TlInspectCompletePendedConnection packet permitTraffic s).2.2.lockLog = s.lockLog ∧
    (TlInspectCompletePendedConnection packet permitTraffic s).2.2.gDriverUnloading
      = s.gDriverUnloading ∧
    (TlInspectCompletePendedConnection packet permitTraffic s).2.2.configPermitTraffic
      = s.configPermitTraffic ∧
    (TlInspectCompletePendedConnection packet permitTraffic s).2.2.policyQueries
      = s.policyQueries ∧
    (TlInspectCompletePendedConnection packet permitTraffic s).2.2.gConnList = s.gConnList ∧
    (TlInspectCompletePendedConnection packet permitTraffic s).2.2.cloneSendCalls
      = s.cloneSendCalls ∧
    (TlInspectCompletePendedConnection packet permitTraffic s).2.2.cloneRecvCalls
      = s.cloneRecvCalls ∧
    (TlInspectCompletePendedConnection packet permitTraffic s).2.2.injected = s.injected := by
  unfold TlInspectCompletePendedConnection
  by_cases hd : packet.direction = FWP_DIRECTION_OUTBOUND
  · simp [hd, FwpsCompleteOperation]
  · cases hp : s.configPermitTraffic <;> simp [hd, hp, FreePendedPacket]

/-- TLInspectCloneReinjectOutbound touches only the list of its calls and the
list of injected packets. -/
theorem TLInspectCloneReinjectOutbound_frame (packet : TL_INSPECT_PENDED_PACKET)
    (o : WorkerOracle) (s : Globals) :
    (TLInspectCloneReinjectOutbound packet o s).2.gPacketQueue = s.gPacketQueue ∧
    (TLInspectCloneReinjectOutbound packet o s).2.lockLog = s.lockLog ∧
    (TLInspectCloneReinjectOutbound packet o s).2.gDriverUnloading = s.gDriverUnloading ∧
    (TLInspectCloneReinjectOutbound packet o s).2.configPermitTraffic
      = s.configPermitTraffic ∧
    (TLInspectCloneReinjectOutbound packet o s).2.policyQueries = s.policyQueries ∧
    (TLInspectCloneReinjectOutbound packet o s).2.gConnList = s.gConnList ∧
    (TLInspectCloneReinjectOutbound packet o s).2.freed = s.freed := by
  unfold TLInspectCloneReinjectOutbound
  cases o.allocateCloneOk <;> cases o.injectOk <;> simp

/-- TLInspectCloneReinjectInbound touches only the list of its calls, the
list of completed operations and the list of injected packets. -/
theorem TLInspectCloneReinjectInbound_frame (packet : TL_INSPECT_PENDED_PACKET)
    (o : WorkerOracle) (s : Globals) :
    (TLInspectCloneReinjectInbound packet o s).2.2.gPacketQueue = s.gPacketQueue ∧
    (TLInspectCloneReinjectInbound packet o s).2.2.lockLog = s.lockLog ∧
    (TLInspectCloneReinjectInbound packet o s).2.2.gDriverUnloading = s.gDriverUnloading ∧
    (TLInspectCloneReinjectInbound packet o s).2.2.configPermitTraffic
      = s.configPermitTraffic ∧
    (TLInspectCloneReinjectInbound packet o s).2.2.policyQueries = s.policyQueries ∧
    (TLInspectCloneReinjectInbound packet o s).2.2.gConnList = s.gConnList ∧
    (TLInspectCloneReinjectInbound packet o s).2.2.freed = s.freed := by
  unfold TLInspectCloneReinjectInbound
  cases o.allocateCloneOk <;> cases o.injectOk <;> cases o.constructIpHeaderOk <;>
    cases packet.ipSecProtected <;> cases packet.completionContext <;>
    simp [FwpsCompleteOperation]

/-- The completion of a connection touches neither the packet queue, the lock
log, the flags nor the count of policy queries. -/
theorem workerComplete_frame (packet : TL_INSPECT_PENDED_PACKET)
    (place : Option (List TL_INSPECT_PENDED_PACKET × List TL_INSPECT_PENDED_PACKET))
    (s : Globals) :
    (workerComplete packet place s).2.gPacketQueue = s.gPacketQueue ∧
    (workerComplete packet place s).2.lockLog = s.lockLog ∧
    (workerComplete packet place s).2.gDriverUnloading = s.gDriverUnloading ∧
    (workerComplete packet place s).2.configPermitTraffic = s.configPermitTraffic ∧
    (workerComplete packet place s).2.policyQueries = s.policyQueries := by
  obtain ⟨h1, h2, h3, h4, h5, _⟩ :=
    TlInspectCompletePendedConnection_frame packet s.configPermitTraffic s
  unfold workerComplete
  by_cases ht : packet.type = TL_INSPECT_CONNECT_PACKET
  · cases place <;> simp [ht, h1, h2, h3, h4, h5]
  · cases place <;> simp [ht]

/-- The clone and reinjection touches neither the two queues, the lock log,
the flags, the count of policy queries nor the list of freed records. -/
theorem workerReinject_frame (o : WorkerOracle) (packet : Option TL_INSPECT_PENDED_PACKET)
    (s : Globals) :
    (workerReinject o packet s).2.gPacketQueue = s.gPacketQueue ∧
    (workerReinject o packet s).2.lockLog = s.lockLog ∧
    (workerReinject o packet s).2.gDriverUnloading = s.gDriverUnloading ∧
    (workerReinject o packet s).2.configPermitTraffic = s.configPermitTraffic ∧
    (workerReinject o packet s).2.policyQueries = s.policyQueries ∧
    (workerReinject o packet s).2.gConnList = s.gConnList ∧
    (workerReinject o packet s).2.freed = s.freed := by
  cases packet with
  | none => simp [workerReinject]
  | some p =>
    unfold workerReinject
    cases hp : s.configPermitTraffic
    · simp [hp]
    · by_cases hd : p.direction = FWP_DIRECTION_OUTBOUND
      · simpa [hp, hd] using TLInspectCloneReinjectOutbound_frame p o s
      · simpa [hp, hd] using TLInspectCloneReinjectInbound_frame p o s

/-- The release of the record touches only the list of freed records. -/
theorem workerFree_frame (packet : Option TL_INSPECT_PENDED_PACKET) (s : Globals) :
    (workerFree packet s).gPacketQueue = s.gPacketQueue ∧
    (workerFree packet s).lockLog = s.lockLog ∧
    (workerFree packet s).gDriverUnloading = s.gDriverUnloading ∧
    (workerFree packet s).configPermitTraffic = s.configPermitTraffic ∧
    (workerFree packet s).policyQueries = s.policyQueries ∧
    (workerFree packet s).gConnList = s.gConnList ∧
    (workerFree packet s).completeOps = s.completeOps ∧
    (workerFree packet s).cloneSendCalls = s.cloneSendCalls ∧
    (workerFree packet s).cloneRecvCalls = s.cloneRecvCalls ∧
    (workerFree packet s).injected = s.injected := by
  cases packet <;> simp [workerFree, FreePendedPacket]

/-- The processing of the selected record touches neither the packet queue,
the lock log, the flags nor the count of policy queries. -/
theorem workerHandle_frame (o : WorkerOracle) (packet : TL_INSPECT_PENDED_PACKET)
    (place : Option (List TL_INSPECT_PENDED_PACKET × List TL_INSPECT_PENDED_PACKET))
    (s : Globals) :
    (workerHandle o packet place s).gPacketQueue = s.gPacketQueue ∧
    (workerHandle o packet place s).lockLog = s.lockLog ∧
    (workerHandle o packet place s).gDriverUnloading = s.gDriverUnloading ∧
    (workerHandle o packet place s).configPermitTraffic = s.configPermitTraffic ∧
    (workerHandle o packet place s).policyQueries = s.policyQueries := by
  unfold workerHandle
  obtain ⟨c1, c2, c3, c4, c5⟩ := workerComplete_frame packet place s
  obtain ⟨r1, r2, r3, r4, r5, _, _⟩ :=
    workerReinject_frame o (workerComplete packet place s).1 (workerComplete packet place s).2
  obtain ⟨f1, f2, f3, f4, f5, _⟩ :=
    workerFree_frame
      (workerReinject o (workerComplete packet place s).1 (workerComplete packet place s).2).1
      (workerReinject o (workerComplete packet place s).1 (workerComplete packet place s).2).2
  exact ⟨f1.trans (r1.trans c1), f2.trans (r2.trans c2), f3.trans (r3.trans c3),
    f4.trans (r4.trans c4), f5.trans (r5.trans c5)⟩

/-- The processing of the selected record and the end of the iteration leave
the packet queue, the flags and the count of policy queries as they were and
append to the lock log the four operations of the end of the iteration. -/
theorem workerProcess_frame (o : WorkerOracle) (packet : TL_INSPECT_PENDED_PACKET)
    (place : Option (List TL_INSPECT_PENDED_PACKET × List TL_INSPECT_PENDED_PACKET))
    (s : Globals) :
    (workerProcess o packet place s).gPacketQueue = s.gPacketQueue ∧
    (workerProcess o packet place s).lockLog = s.lockLog ++
      [LockOp.acquire Lock.gConnListLock, LockOp.acquire Lock.gPacketQueueLock,
       LockOp.release Lock.gPacketQueueLock, LockOp.release Lock.gConnListLock] ∧
    (workerProcess o packet place s).gDriverUnloading = s.gDriverUnloading ∧
    (workerProcess o packet place s).configPermitTraffic = s.configPermitTraffic ∧
    (workerProcess o packet place s).policyQueries = s.policyQueries := by
  unfold workerProcess
  obtain ⟨h1, h2, h3, h4, h5⟩ := workerHandle_frame o packet place s
  obtain ⟨_, f2, f3, f4, f5, _, _, _, _, _, f11⟩ :=
    workerFinish_frame (workerHandle o packet place s)
  exact ⟨f2.trans h1, by rw [f11, h2], f3.trans h3, f4.trans h4, f5.trans h5⟩

/-! ## The network-layer callout -/

/-- C18, counterexample: for the sample data-packet event (decision-right
held, not a replay, allocation succeeding) in the initial state, where the
driver is not unloading, the transport callout appends one data packet to the
packet queue and sets the output to Block with the right withdrawn and the
absorb flag set, while the network-layer callout queues nothing and leaves the
output as it was: action untouched, right still held, absorb flag clear. -/
theorem ip_classify_queues_nothing :
    hasDecisionRight sampleOut ∧
    isReplay TRANSPORT sampleArgs = false ∧
    initialGlobals.gDriverUnloading = false ∧
    sampleArgs.allocOk = true ∧
    (TLInspectTransportClassify sampleArgs sampleOut initialGlobals).2.gPacketQueue
      = initialGlobals.gPacketQueue ++
          [regularItem sampleArgs TL_INSPECT_DATA_PACKET false initialGlobals] ∧
    (TLInspectTransportClassify sampleArgs sampleOut initialGlobals).1.actionType
      = FWP_ACTION_BLOCK ∧
    ¬ hasDecisionRight (TLInspectTransportClassify sampleArgs sampleOut initialGlobals).1 ∧
    absorbSet (TLInspectTransportClassify sampleArgs sampleOut initialGlobals).1 ∧
    (TLInspectIpClassify sampleArgs sampleOut initialGlobals).2.gPacketQueue
      = initialGlobals.gPacketQueue ∧
    (TLInspectIpClassify sampleArgs sampleOut initialGlobals).1.actionType
      ≠ FWP_ACTION_BLOCK ∧
    hasDecisionRight (TLInspectIpClassify sampleArgs sampleOut initialGlobals).1 ∧
    ¬ absorbSet (TLInspectIpClassify sampleArgs sampleOut initialGlobals).1 := by
  decide

/-- C18, amended: the network-layer callout takes no decision. For every
event, in every state, it leaves the output of the event as it was (action,
rights and flags), leaves both queues as they were, allocates no item,
frees none, takes no lock and does not signal the worker. -/
theorem ip_classify_leaves_output_and_queues (a : ClassifyArgs)
    (classifyOut : FWPS_CLASSIFY_OUT) (s : Globals) :
    (TLInspectIpClassify a classifyOut s).1.actionType = classifyOut.actionType ∧
    (TLInspectIpClassify a classifyOut s).1.rights = classifyOut.rights ∧
    (TLInspectIpClassify a classifyOut s).1.flags = classifyOut.flags ∧
    (TLInspectIpClassify a classifyOut s).2.gPacketQueue = s.gPacketQueue ∧
    (TLInspectIpClassify a classifyOut s).2.gConnList = s.gConnList ∧
    (TLInspectIpClassify a classifyOut s).2.allocCount = s.allocCount ∧
    (TLInspectIpClassify a classifyOut s).2.freed = s.freed ∧
    (TLInspectIpClassify a classifyOut s).2.lockLog = s.lockLog ∧
    (TLInspectIpClassify a classifyOut s).2.gWorkerEvent = s.gWorkerEvent ∧
    (TLInspectIpClassify a classifyOut s).2.setEventCalls = s.setEventCalls :=
  ⟨rfl, rfl, rfl, rfl, rfl, rfl, rfl, rfl, rfl, rfl⟩

/-! ## The worker: selection and completion of a pended connection -/

/-- The scan stops at the first entry whose decision is still 0. -/
theorem firstUndecided_split (item : TL_INSPECT_PENDED_PACKET)
    (after : List TL_INSPECT_PENDED_PACKET) (hund : item.authConnectDecision = 0) :
    ∀ before : List TL_INSPECT_PENDED_PACKET,
      (∀ p ∈ before, p.authConnectDecision ≠ 0) →
      firstUndecided (before ++ item :: after) = some (before, item, after)
  | [], _ => by simp [firstUndecided, hund]
  | p :: before, h => by
    have hp : p.authConnectDecision ≠ 0 := h p (List.mem_cons_self _ _)
    have ih := firstUndecided_split item after hund before
      (fun q hq => h q (List.mem_cons_of_mem _ hq))
    simp [firstUndecided, hp, ih]

/-- The scan finds nothing when every entry is decided. -/
theorem firstUndecided_none :
    ∀ l : List TL_INSPECT_PENDED_PACKET,
      (∀ p ∈ l, p.authConnectDecision ≠ 0) → firstUndecided l = none
  | [], _ => rfl
  | p :: l, h => by
    have hp : p.authConnectDecision ≠ 0 := h p (List.mem_cons_self _ _)
    have ih := firstUndecided_none l (fun q hq => h q (List.mem_cons_of_mem _ hq))
    simp [firstUndecided, hp, ih]

/-- The selection takes the first undecided entry and sets `found`. -/
theorem workerSelect_undecided (found : Bool) (before after : List TL_INSPECT_PENDED_PACKET)
    (item : TL_INSPECT_PENDED_PACKET)
    (hbefore : ∀ p ∈ before, p.authConnectDecision ≠ 0)
    (hund : item.authConnectDecision = 0) :
    workerSelect found (before ++ item :: after) = (true, some (before, item, after)) := by
  have h := firstUndecided_split item after hund before hbefore
  cases before with
  | nil =>
    simp only [List.nil_append] at h ⊢
    simp only [workerSelect, h]
  | cons p bs =>
    simp only [List.cons_append] at h ⊢
    simp only [workerSelect, h]

/-- The processing of an outbound connection that is still linked in the
connection list: the decision is written into the record, the pended
operation is completed, and the pointer is NULL afterwards, so that there is
nothing to clone and nothing to free. -/
theorem workerHandle_outbound_connect (o : WorkerOracle) (packet : TL_INSPECT_PENDED_PACKET)
    (before after : List TL_INSPECT_PENDED_PACKET) (s : Globals)
    (htype : packet.type = TL_INSPECT_CONNECT_PACKET)
    (hdir : packet.direction = FWP_DIRECTION_OUTBOUND) :
    workerHandle o packet (some (before, after)) s =
      { FwpsCompleteOperation packet.completionContext none s with
        gConnList := before ++
          { packet with
            authConnectDecision :=
              if s.configPermitTraffic then FWP_ACTION_PERMIT else FWP_ACTION_BLOCK
            completionContext := none } :: after } := by
  simp [workerHandle, workerComplete, TlInspectCompletePendedConnection, workerReinject,
    workerFree, htype, hdir]

/-- C20: a worker iteration whose scan stops at an undecided outbound
connection item (every entry before it in the connection list is decided)
returns, and with the verdict `v` its policy query gave: the decision of the
item becomes Permit if `v` is true and Block otherwise, the pended operation
is completed once, with the completion context of the item and no net buffer
list, the completion context of the item is cleared, the item stays in the
connection list at the same position, the packet queue is left as it was, and
the worker frees nothing and calls neither clone function. -/
theorem undecided_outbound_connection_is_completed (o : WorkerOracle) (w : WorkerState)
    (before after : List TL_INSPECT_PENDED_PACKET) (item : TL_INSPECT_PENDED_PACKET)
    (hlist : w.g.gConnList = before ++ item :: after)
    (hbefore : ∀ p ∈ before, p.authConnectDecision ≠ 0)
    (hund : item.authConnectDecision = 0)
    (htype : item.type = TL_INSPECT_CONNECT_PACKET)
    (hdir : item.direction = FWP_DIRECTION_OUTBOUND) :
    ∃ w', TLInspectWorkerIteration o w = some w' ∧
      w'.g.gConnList = before ++
        { item with
          authConnectDecision :=
            if o.isTrafficPermitted then FWP_ACTION_PERMIT else FWP_ACTION_BLOCK
          completionContext := none } :: after ∧
      w'.g.completeOps = w.g.completeOps ++ [(item.completionContext, none)] ∧
      w'.g.gPacketQueue = w.g.gPacketQueue ∧
      w'.g.freed = w.g.freed ∧
      w'.g.cloneSendCalls = w.g.cloneSendCalls ∧
      w'.g.cloneRecvCalls = w.g.cloneRecvCalls ∧
      w'.g.injected = w.g.injected := by
  have hsel := workerSelect_undecided w.found before after item hbefore hund
  have hne : ¬ item.direction = FWP_DIRECTION_INBOUND := by rw [hdir]; decide
  have hiter : TLInspectWorkerIteration o w = some
      { g := workerProcess o item (some (before, after))
          (KeReleaseInStackQueuedSpinLock Lock.gConnListLock
            { w.g with
              configPermitTraffic := o.isTrafficPermitted
              policyQueries := w.g.policyQueries + 1
              lockLog := w.g.lockLog ++ [LockOp.acquire Lock.gConnListLock] })
        found := true } := by
    simp only [TLInspectWorkerIteration, KeAcquireInStackQueuedSpinLock, hlist, hsel,
      if_neg hne]
  refine ⟨_, hiter, ?_⟩
  · simp only [workerProcess]
    obtain ⟨f1, f2, _, _, _, f6, f7, f8, f9, f10, _⟩ :=
      workerFinish_frame (workerHandle o item (some (before, after))
        (KeReleaseInStackQueuedSpinLock Lock.gConnListLock
          { w.g with
            configPermitTraffic := o.isTrafficPermitted
            policyQueries := w.g.policyQueries + 1
            lockLog := w.g.lockLog ++ [LockOp.acquire Lock.gConnListLock] }))
    rw [f1, f2, f6, f7, f8, f9, f10, workerHandle_outbound_connect o item before after _ htype hdir]
    simp [FwpsCompleteOperation, KeReleaseInStackQueuedSpinLock]

/-- C20, witness: the iteration on the sample state whose connection list
holds the undecided outbound sample connection. -/
theorem undecided_outbound_connection_is_completed_witness :
    ∃ w', TLInspectWorkerIteration permitOracle pendedWorker = some w' ∧
      w'.g.gConnList = [] ++
        { sampleUndecided with
          authConnectDecision :=
            if permitOracle.isTrafficPermitted then FWP_ACTION_PERMIT else FWP_ACTION_BLOCK
          completionContext := none } :: [] ∧
      w'.g.completeOps = pendedWorker.g.completeOps ++ [(sampleUndecided.completionContext, none)] ∧
      w'.g.gPacketQueue = pendedWorker.g.gPacketQueue ∧
      w'.g.freed = pendedWorker.g.freed ∧
      w'.g.cloneSendCalls = pendedWorker.g.cloneSendCalls ∧
      w'.g.cloneRecvCalls = pendedWorker.g.cloneRecvCalls ∧
      w'.g.injected = pendedWorker.g.injected :=
  undecided_outbound_connection_is_completed permitOracle pendedWorker [] []
    sampleUndecided rfl (by simp) rfl rfl rfl

/-! ## The worker: a packet taken from the packet queue -/

/-- The status TLInspectCloneReinjectOutbound reports, and its ghost record:
the call is logged, and the packet is handed to the stack exactly on success. -/
theorem TLInspectCloneReinjectOutbound_status (packet : TL_INSPECT_PENDED_PACKET)
    (o : WorkerOracle) (s : Globals)
    (hdir : packet.direction = FWP_DIRECTION_OUTBOUND) :
    (TLInspectCloneReinjectOutbound packet o s).1 = cloneReinjectSucceeds o packet ∧
    (TLInspectCloneReinjectOutbound packet o s).2.cloneSendCalls
      = s.cloneSendCalls ++ [packet] ∧
    (TLInspectCloneReinjectOutbound packet o s).2.cloneRecvCalls = s.cloneRecvCalls ∧
    (TLInspectCloneReinjectOutbound packet o s).2.injected.map (fun p => p.addr)
      = if cloneReinjectSucceeds o packet then
          s.injected.map (fun p => p.addr) ++ [packet.addr]
        else s.injected.map (fun p => p.addr) := by
  unfold TLInspectCloneReinjectOutbound cloneReinjectSucceeds
  cases o.allocateCloneOk <;> cases o.injectOk <;> simp [hdir]

/-- The status TLInspectCloneReinjectInbound reports, and its ghost record:
the call is logged, the packet is handed to the stack exactly on success, and
the record keeps its address. -/
theorem TLInspectCloneReinjectInbound_status (packet : TL_INSPECT_PENDED_PACKET)
    (o : WorkerOracle) (s : Globals)
    (hdir : packet.direction ≠ FWP_DIRECTION_OUTBOUND) :
    (TLInspectCloneReinjectInbound packet o s).1 = cloneReinjectSucceeds o packet ∧
    (TLInspectCloneReinjectInbound packet o s).2.1.addr = packet.addr ∧
    (TLInspectCloneReinjectInbound packet o s).2.2.cloneRecvCalls
      = s.cloneRecvCalls ++ [packet] ∧
    (TLInspectCloneReinjectInbound packet o s).2.2.cloneSendCalls = s.cloneSendCalls ∧
    (TLInspectCloneReinjectInbound packet o s).2.2.injected.map (fun p => p.addr)
      = if cloneReinjectSucceeds o packet then
          s.injected.map (fun p => p.addr) ++ [packet.addr]
        else s.injected.map (fun p => p.addr) := by
  have hd : (packet.direction == FWP_DIRECTION_OUTBOUND) = false := by
    simpa using hdir
  unfold TLInspectCloneReinjectInbound cloneReinjectSucceeds
  cases o.allocateCloneOk <;> cases o.injectOk <;> cases o.constructIpHeaderOk <;>
    cases packet.ipSecProtected <;> cases packet.completionContext <;>
    simp [hd, FwpsCompleteOperation]

/-- The processing of a record that is not a pended connection and is linked
in no list: it is cloned and reinjected when traffic is permitted, and freed
unless the reinjection succeeded. -/
theorem workerHandle_packet (o : WorkerOracle) (packet : TL_INSPECT_PENDED_PACKET)
    (s : Globals) (htype : packet.type ≠ TL_INSPECT_CONNECT_PACKET) :
    ((s.configPermitTraffic = true ∧ cloneReinjectSucceeds o packet = true) →
      (workerHandle o packet none s).injected.map (fun p => p.addr)
        = s.injected.map (fun p => p.addr) ++ [packet.addr] ∧
      (workerHandle o packet none s).freed = s.freed) ∧
    (¬ (s.configPermitTraffic = true ∧ cloneReinjectSucceeds o packet = true) →
      (workerHandle o packet none s).freed.map (fun p => p.addr)
        = s.freed.map (fun p => p.addr) ++ [packet.addr] ∧
      (workerHandle o packet none s).injected.map (fun p => p.addr)
        = s.injected.map (fun p => p.addr)) ∧
    (s.configPermitTraffic = false →
      (workerHandle o packet none s).cloneSendCalls = s.cloneSendCalls ∧
      (workerHandle o packet none s).cloneRecvCalls = s.cloneRecvCalls) ∧
    (s.configPermitTraffic = true → packet.direction = FWP_DIRECTION_OUTBOUND →
      (workerHandle o packet none s).cloneSendCalls = s.cloneSendCalls ++ [packet] ∧
      (workerHandle o packet none s).cloneRecvCalls = s.cloneRecvCalls) ∧
    (s.configPermitTraffic = true → packet.direction = FWP_DIRECTION_INBOUND →
      (workerHandle o packet none s).cloneRecvCalls = s.cloneRecvCalls ++ [packet] ∧
      (workerHandle o packet none s).cloneSendCalls = s.cloneSendCalls) := by
  have hstep : workerHandle o packet none s
      = workerFree (workerReinject o (some packet) s).1 (workerReinject o (some packet) s).2 := by
    simp [workerHandle, workerComplete, htype]
  rw [hstep]
  cases hp : s.configPermitTraffic
  · simp [workerReinject, workerFree, FreePendedPacket, hp]
  · by_cases hd : packet.direction = FWP_DIRECTION_OUTBOUND
    · obtain ⟨h1, h2, h3, h4⟩ := TLInspectCloneReinjectOutbound_status packet o s hd
      obtain ⟨_, _, _, _, _, _, h5⟩ := TLInspectCloneReinjectOutbound_frame packet o s
      have hin : ¬ FWP_DIRECTION_OUTBOUND = FWP_DIRECTION_INBOUND := by decide
      cases hc : cloneReinjectSucceeds o packet <;>
        simp [workerReinject, workerFree, FreePendedPacket, hp, hd, h1, h2, h3, h4, h5, hc,
          hin]
    · obtain ⟨h1, h0, h2, h3, h4⟩ := TLInspectCloneReinjectInbound_status packet o s hd
      obtain ⟨_, _, _, _, _, _, h5⟩ := TLInspectCloneReinjectInbound_frame packet o s
      cases hc : cloneReinjectSucceeds o packet <;>
        simp [workerReinject, workerFree, FreePendedPacket, hp, hd, h0, h1, h2, h3, h4, h5,
          hc]

/-- An iteration whose selection leaves `listEntry` NULL removes the head of
the packet queue and processes it. -/
theorem TLInspectWorkerIteration_pop (o : WorkerOracle) (w : WorkerState)
    (packet : TL_INSPECT_PENDED_PACKET) (rest : List TL_INSPECT_PENDED_PACKET)
    (hsel : (workerSelect w.found w.g.gConnList).2 = none)
    (hq : w.g.gPacketQueue = packet :: rest) :
    TLInspectWorkerIteration o w = some
      { g := workerProcess o packet none
          { w.g with
            configPermitTraffic := o.isTrafficPermitted
            policyQueries := w.g.policyQueries + 1
            gPacketQueue := rest
            lockLog := w.g.lockLog ++
              [LockOp.acquire Lock.gConnListLock, LockOp.release Lock.gConnListLock,
               LockOp.acquire Lock.gPacketQueueLock, LockOp.release Lock.gPacketQueueLock] }
        found := (workerSelect w.found w.g.gConnList).1 } := by
  simp [TLInspectWorkerIteration, KeAcquireInStackQueuedSpinLock,
    KeReleaseInStackQueuedSpinLock, hsel, hq]

/-- C13: a worker iteration that takes its item from the packet queue (the
selection in the connection list leaves `listEntry` NULL) and finds a data
packet or a re-authorization packet at the head returns, removes that head,
and does exactly one of two things with it. When the verdict of the policy
query is Permit and the clone-and-reinject call reports success, the item is
handed to the stack (it joins the injected packets, which the completion
function frees later) and the worker does not free it. Otherwise the worker
frees it and it is not handed to the stack. With verdict Block neither clone
function is called; with verdict Permit the send clone function is called for
an outbound item and the receive clone function for an inbound item.
`cloneReinjectSucceeds` is the status the clone function of the direction of
the item reports. -/
theorem packet_item_is_handed_over_or_freed (o : WorkerOracle) (w : WorkerState)
    (packet : TL_INSPECT_PENDED_PACKET) (rest : List TL_INSPECT_PENDED_PACKET)
    (hsel : (workerSelect w.found w.g.gConnList).2 = none)
    (hq : w.g.gPacketQueue = packet :: rest)
    (htype : packet.type = TL_INSPECT_DATA_PACKET ∨ packet.type = TL_INSPECT_REAUTH_PACKET) :
    ∃ w', TLInspectWorkerIteration o w = some w' ∧
      w'.g.gPacketQueue = rest ∧
      ((o.isTrafficPermitted = true ∧ cloneReinjectSucceeds o packet = true) →
        w'.g.injected.map (fun p => p.addr)
          = w.g.injected.map (fun p => p.addr) ++ [packet.addr] ∧
        w'.g.freed = w.g.freed) ∧
      (¬ (o.isTrafficPermitted = true ∧ cloneReinjectSucceeds o packet = true) →
        w'.g.freed.map (fun p => p.addr)
          = w.g.freed.map (fun p => p.addr) ++ [packet.addr] ∧
        w'.g.injected.map (fun p => p.addr) = w.g.injected.map (fun p => p.addr)) ∧
      (o.isTrafficPermitted = false →
        w'.g.cloneSendCalls = w.g.cloneSendCalls ∧
        w'.g.cloneRecvCalls = w.g.cloneRecvCalls) ∧
      (o.isTrafficPermitted = true → packet.direction = FWP_DIRECTION_OUTBOUND →
        w'.g.cloneSendCalls = w.g.cloneSendCalls ++ [packet] ∧
        w'.g.cloneRecvCalls = w.g.cloneRecvCalls) ∧
      (o.isTrafficPermitted = true → packet.direction = FWP_DIRECTION_INBOUND →
        w'.g.cloneRecvCalls = w.g.cloneRecvCalls ++ [packet] ∧
        w'.g.cloneSendCalls = w.g.cloneSendCalls) ∧
      (packet.direction = FWP_DIRECTION_OUTBOUND → ∀ s,
        (TLInspectCloneReinjectOutbound packet o s).1 = cloneReinjectSucceeds o packet) ∧
      (packet.direction = FWP_DIRECTION_INBOUND → ∀ s,
        (TLInspectCloneReinjectInbound packet o s).1 = cloneReinjectSucceeds o packet) := by
  have hty : packet.type ≠ TL_INSPECT_CONNECT_PACKET := by
    rcases htype with h | h <;> rw [h] <;> decide
  refine ⟨_, TLInspectWorkerIteration_pop o w packet rest hsel hq, ?_⟩
  simp only [workerProcess]
  generalize hs : ({ w.g with
      configPermitTraffic := o.isTrafficPermitted
      policyQueries := w.g.policyQueries + 1
      gPacketQueue := rest
      lockLog := w.g.lockLog ++
        [LockOp.acquire Lock.gConnListLock, LockOp.release Lock.gConnListLock,
         LockOp.acquire Lock.gPacketQueueLock, LockOp.release Lock.gPacketQueueLock] }
      : Globals) = s
  have e1 : s.configPermitTraffic = o.isTrafficPermitted := by rw [← hs]
  have e2 : s.gPacketQueue = rest := by rw [← hs]
  have e3 : s.injected = w.g.injected := by rw [← hs]
  have e4 : s.freed = w.g.freed := by rw [← hs]
  have e5 : s.cloneSendCalls = w.g.cloneSendCalls := by rw [← hs]
  have e6 : s.cloneRecvCalls = w.g.cloneRecvCalls := by rw [← hs]
  obtain ⟨_, f2, _, _, _, f6, _, f8, f9, f10, _⟩ :=
    workerFinish_frame (workerHandle o packet none s)
  obtain ⟨g1, _, _, _, _⟩ := workerHandle_frame o packet none s
  obtain ⟨k1, k2, k3, k4, k5⟩ := workerHandle_packet o packet s hty
  rw [f2, f6, f8, f9, f10, g1, e2]
  rw [e1, e3, e4] at k1 k2
  rw [e1, e5, e6] at k3 k4 k5
  refine ⟨rfl, k1, k2, k3, k4, k5, ?_, ?_⟩
  · intro hd s
    exact (TLInspectCloneReinjectOutbound_status packet o s hd).1
  · intro hd s
    exact (TLInspectCloneReinjectInbound_status packet o s (by rw [hd]; decide)).1

/-- C13, witness: the iteration on the sample state whose packet queue holds
two data packets and whose connection list is empty. -/
theorem packet_item_is_handed_over_or_freed_witness :
    ∃ w', TLInspectWorkerIteration permitOracle twoPacketsWorker = some w' ∧
      w'.g.gPacketQueue = [samplePacket2] ∧
      w'.g.injected.map (fun p => p.addr) = [samplePacket.addr] ∧
      w'.g.freed = [] := by
  obtain ⟨w', h1, h2, h3, _⟩ :=
    packet_item_is_handed_over_or_freed permitOracle twoPacketsWorker samplePacket
      [samplePacket2] rfl rfl (Or.inl rfl)
  exact ⟨w', h1, h2, (h3 ⟨rfl, rfl⟩).1, (h3 ⟨rfl, rfl⟩).2⟩

/-! ## The worker: the policy query -/

/-- The processing of a record that is linked in no list leaves the
connection list and the event as they were. -/
theorem workerHandle_unlinked (o : WorkerOracle) (packet : TL_INSPECT_PENDED_PACKET)
    (s : Globals) :
    (workerHandle o packet none s).gConnList = s.gConnList ∧
    (workerHandle o packet none s).gWorkerEvent = s.gWorkerEvent := by
  have hc : (workerComplete packet none s).2.gConnList = s.gConnList ∧
      (workerComplete packet none s).2.gWorkerEvent = s.gWorkerEvent := by
    unfold workerComplete TlInspectCompletePendedConnection
    by_cases ht : packet.type = TL_INSPECT_CONNECT_PACKET
    · by_cases hd : packet.direction = FWP_DIRECTION_OUTBOUND
      · simp [ht, hd, FwpsCompleteOperation]
      · cases hp : s.configPermitTraffic <;> simp [ht, hd, hp, FreePendedPacket]
    · simp [ht]
  have hr : ∀ (p : Option TL_INSPECT_PENDED_PACKET) (t : Globals),
      (workerReinject o p t).2.gConnList = t.gConnList ∧
      (workerReinject o p t).2.gWorkerEvent = t.gWorkerEvent := by
    intro p t
    cases p with
    | none => simp [workerReinject]
    | some p =>
      simp only [workerReinject]
      unfold TLInspectCloneReinjectOutbound TLInspectCloneReinjectInbound
      cases t.configPermitTraffic <;> cases o.allocateCloneOk <;> cases o.injectOk <;>
        cases o.constructIpHeaderOk <;> cases p.ipSecProtected <;>
        cases p.completionContext <;>
        by_cases hd : p.direction = FWP_DIRECTION_OUTBOUND <;>
        simp [hd, FwpsCompleteOperation]
  have hf : ∀ (p : Option TL_INSPECT_PENDED_PACKET) (t : Globals),
      (workerFree p t).gConnList = t.gConnList ∧
      (workerFree p t).gWorkerEvent = t.gWorkerEvent := by
    intro p t
    cases p <;> simp [workerFree, FreePendedPacket]
  unfold workerHandle
  exact ⟨((hf _ _).1.trans (hr _ _).1).trans hc.1, ((hf _ _).2.trans (hr _ _).2).trans hc.2⟩

/-- The first shutdown loop is skipped when the connection list is empty. -/
theorem drainConnList_nil
    (IsMatchingConnectPacket :
      FlowIdentity → Nat → FWP_DIRECTION → TL_INSPECT_PENDED_PACKET → Bool)
    (schedule : List (List ClassifyCall)) (s : Globals) (h : s.gConnList = []) :
    drainConnList IsMatchingConnectPacket schedule s = some s := by
  cases schedule <;> simp [drainConnList, h]

/-- The second shutdown loop finishes within as many passes as the packet
queue has items: it frees every item, head first, and touches nothing else
but the lock log. -/
theorem drainPacketQueue_total :
    ∀ (fuel : Nat) (s : Globals), s.gPacketQueue.length ≤ fuel →
      ∃ s', drainPacketQueue fuel s = some s' ∧
        s'.gPacketQueue = [] ∧ s'.gConnList = s.gConnList ∧
        s'.freed = s.freed ++ s.gPacketQueue ∧
        s'.cloneSendCalls = s.cloneSendCalls ∧ s'.cloneRecvCalls = s.cloneRecvCalls ∧
        s'.injected = s.injected ∧ s'.completeOps = s.completeOps
  | 0, s, h => by
    have hq : s.gPacketQueue = [] := List.length_eq_zero.mp (Nat.le_zero.mp h)
    exact ⟨s, by simp [drainPacketQueue, hq], hq, rfl, by simp [hq], rfl, rfl, rfl, rfl⟩
  | fuel + 1, s, h => by
    cases hq : s.gPacketQueue with
    | nil => exact ⟨s, by simp [drainPacketQueue, hq], hq, rfl, by simp, rfl, rfl, rfl, rfl⟩
    | cons packet rest =>
      have hpass : shutdownPacketPass s =
          { s with
            gPacketQueue := rest
            freed := s.freed ++ [packet]
            lockLog := s.lockLog ++
              [LockOp.acquire Lock.gPacketQueueLock, LockOp.release Lock.gPacketQueueLock] } := by
        simp [shutdownPacketPass, KeAcquireInStackQueuedSpinLock,
          KeReleaseInStackQueuedSpinLock, FreePendedPacket, hq]
      have hlen : (shutdownPacketPass s).gPacketQueue.length ≤ fuel := by
        rw [hpass]
        rw [hq] at h
        simpa using h
      obtain ⟨s', r1, r2, r3, r4, r5, r6, r7, r8⟩ :=
        drainPacketQueue_total fuel (shutdownPacketPass s) hlen
      refine ⟨s', by simp [drainPacketQueue, hq, r1], r2, ?_, ?_, ?_, ?_, ?_, ?_⟩
      · rw [r3, hpass]
      · rw [r4, hpass]; simp
      · rw [r5, hpass]
      · rw [r6, hpass]
      · rw [r7, hpass]
      · rw [r8, hpass]

/-- A pass of the first shutdown loop on an outbound head: the decision
Block is written into the record, the pended operation is completed with the
completion context of the record and no net buffer list, the context is
cleared, nothing is freed, and the record stays linked at the head, where the
re-authorization that the completion triggers will find it. -/
theorem shutdownConnPass_outbound (s : Globals) (head : TL_INSPECT_PENDED_PACKET)
    (rest : List TL_INSPECT_PENDED_PACKET)
    (hlist : s.gConnList = head :: rest)
    (hdir : head.direction = FWP_DIRECTION_OUTBOUND) :
    shutdownConnPass s =
      { s with
        gConnList :=
          { head with authConnectDecision := FWP_ACTION_BLOCK, completionContext := none }
            :: rest
        completeOps := s.completeOps ++ [(head.completionContext, none)]
        lockLog := s.lockLog ++
          [LockOp.acquire Lock.gConnListLock, LockOp.release Lock.gConnListLock] } := by
  simp [shutdownConnPass, KeAcquireInStackQueuedSpinLock, KeReleaseInStackQueuedSpinLock,
    TlInspectCompletePendedConnection, FwpsCompleteOperation, hlist, hdir]

/-- A pass of the first shutdown loop on an inbound head: no decision is
written, no pended operation is completed, the record is freed when the
global `configPermitTraffic` is FALSE and left alone otherwise, and in both
cases it stays linked at the head. -/
theorem shutdownConnPass_inbound (s : Globals) (head : TL_INSPECT_PENDED_PACKET)
    (rest : List TL_INSPECT_PENDED_PACKET)
    (hlist : s.gConnList = head :: rest)
    (hdir : head.direction = FWP_DIRECTION_INBOUND) :
    (shutdownConnPass s).gConnList = head :: rest ∧
    (shutdownConnPass s).completeOps = s.completeOps ∧
    (shutdownConnPass s).freed
      = (if s.configPermitTraffic then s.freed else s.freed ++ [head]) := by
  have hd : ¬ head.direction = FWP_DIRECTION_OUTBOUND := by rw [hdir]; decide
  cases hp : s.configPermitTraffic <;>
    simp [shutdownConnPass, KeAcquireInStackQueuedSpinLock, KeReleaseInStackQueuedSpinLock,
      TlInspectCompletePendedConnection, FreePendedPacket, hlist, hd, hp]

/-- The initial-authorization branch leaves the connection list as it was or
appends one item at its tail. -/
theorem pendInitialConnection_gConnList (a : ClassifyArgs) (direction : FWP_DIRECTION)
    (classifyOut : FWPS_CLASSIFY_OUT) (s : Globals) :
    (pendInitialConnection a direction classifyOut s).2.gConnList = s.gConnList ∨
    ∃ x, (pendInitialConnection a direction classifyOut s).2.gConnList
        = s.gConnList ++ [x] := by
  cases halloc : a.allocOk
  · rw [pendInitialConnection_allocFail a direction classifyOut s halloc]
    exact Or.inl rfl
  · cases hpend : a.pendResult with
    | none =>
      rw [pendInitialConnection_pendFail a direction classifyOut s halloc hpend]
      exact Or.inl rfl
    | some completionContext =>
      rw [pendInitialConnection_ok a direction classifyOut s completionContext halloc hpend]
      exact Or.inr ⟨_, by simp; rfl⟩

/-- No classify call unlinks an undecided entry at the head of the connection
list: the scan of a re-authorization takes only entries whose decision is not
0, and every other path leaves the list as it was or appends at its tail. -/
theorem classifyFn_keeps_undecided_head
    (IsMatchingConnectPacket :
      FlowIdentity → Nat → FWP_DIRECTION → TL_INSPECT_PENDED_PACKET → Bool)
    (hook : HookPoint) (a : ClassifyArgs) (classifyOut : FWPS_CLASSIFY_OUT) (s : Globals)
    (head : TL_INSPECT_PENDED_PACKET) (rest : List TL_INSPECT_PENDED_PACKET)
    (hlist : s.gConnList = head :: rest)
    (hund : head.authConnectDecision = 0) :
    ∃ rest', (classifyFn IsMatchingConnectPacket hook a classifyOut s).2.gConnList
        = head :: rest' := by
  have hpend : ∀ direction : FWP_DIRECTION,
      ∃ rest', (pendInitialConnection a direction classifyOut s).2.gConnList
        = head :: rest' := by
    intro direction
    rcases pendInitialConnection_gConnList a direction classifyOut s with h | ⟨x, h⟩
    · exact ⟨rest, h.trans hlist⟩
    · exact ⟨rest ++ [x], by rw [h, hlist]; rfl⟩
  have hreg : ∀ (packetType : TL_INSPECT_PACKET_TYPE) (c : Bool) (t : Globals),
      t.gConnList = s.gConnList →
      ∃ rest', (queueRegularPacket a packetType c classifyOut t).2.gConnList
        = head :: rest' := by
    intro packetType c t ht
    exact ⟨rest, by rw [queueRegularPacket_gConnList, ht, hlist]⟩
  cases hook with
  | ALE_AUTH_CONNECT =>
    simp only [classifyFn, TLInspectALEConnectClassify]
    split_ifs
    · exact ⟨rest, hlist⟩
    · exact ⟨rest, hlist⟩
    · exact hpend _
    · split
      · refine ⟨rest.eraseP (reauthScanTest IsMatchingConnectPacket a), ?_⟩
        rw [completeReauthMatch_gConnList]
        show s.gConnList.eraseP _ = _
        rw [hlist, List.eraseP_cons_of_neg (by simp [reauthScanTest, hund])]
      · exact hreg _ _ _ rfl
    · exact hreg _ _ _ rfl
  | ALE_AUTH_RECV_ACCEPT =>
    simp only [classifyFn, TLInspectALERecvAcceptClassify]
    split_ifs
    · exact ⟨rest, hlist⟩
    · exact ⟨rest, hlist⟩
    · exact hpend _
    · exact hreg _ _ _ rfl
  | TRANSPORT =>
    simp only [classifyFn, TLInspectTransportClassify]
    split_ifs
    · exact ⟨rest, hlist⟩
    · exact ⟨rest, hlist⟩
    · exact ⟨rest, hlist⟩
    · exact ⟨rest, hlist⟩
    · exact hreg _ _ _ rfl

/-- No sequence of classify calls unlinks an undecided entry at the head of
the connection list. -/
theorem runClassifyCalls_keeps_undecided_head
    (IsMatchingConnectPacket :
      FlowIdentity → Nat → FWP_DIRECTION → TL_INSPECT_PENDED_PACKET → Bool)
    (head : TL_INSPECT_PENDED_PACKET) (hund : head.authConnectDecision = 0) :
    ∀ (calls : List ClassifyCall) (s : Globals) (rest : List TL_INSPECT_PENDED_PACKET),
      s.gConnList = head :: rest →
      ∃ rest', (runClassifyCalls IsMatchingConnectPacket calls s).gConnList = head :: rest'
  | [], s, rest, h => ⟨rest, h⟩
  | call :: calls, s, rest, h => by
    obtain ⟨rest1, h1⟩ := classifyFn_keeps_undecided_head IsMatchingConnectPacket call.hook
      call.a call.classifyOut s head rest h hund
    exact runClassifyCalls_keeps_undecided_head IsMatchingConnectPacket head hund calls _
      rest1 h1

/-- The first shutdown loop does not finish while an inbound connection is at
the head of the connection list, whatever classify calls the filter engine
makes between the passes: a pass leaves the entry linked and undecided, and
no classify call unlinks an undecided entry. -/
theorem drainConnList_inbound_head
    (IsMatchingConnectPacket :
      FlowIdentity → Nat → FWP_DIRECTION → TL_INSPECT_PENDED_PACKET → Bool)
    (head : TL_INSPECT_PENDED_PACKET)
    (hdir : head.direction = FWP_DIRECTION_INBOUND)
    (hund : head.authConnectDecision = 0) :
    ∀ (schedule : List (List ClassifyCall)) (s : Globals)
      (rest : List TL_INSPECT_PENDED_PACKET),
      s.gConnList = head :: rest →
      drainConnList IsMatchingConnectPacket schedule s = none
  | [], s, rest, h => by simp [drainConnList, h]
  | calls :: later, s, rest, h => by
    obtain ⟨rest1, h1⟩ := runClassifyCalls_keeps_undecided_head IsMatchingConnectPacket head
      hund calls (shutdownConnPass s) rest (shutdownConnPass_inbound s head rest h hdir).1
    have ih := drainConnList_inbound_head IsMatchingConnectPacket head hdir hund later _
      rest1 h1
    simp [drainConnList, h, ih]

/-- C14, failing runs: the shutdown phase with an inbound connection in the
connection list. From the initial state, a data packet is queued and
processed by a worker iteration (with the answer Block in the first run, with
the answer Permit in the second), the recv-accept callout pends an inbound
connection, and the driver starts to unload. In both states reached the
first shutdown loop makes its pass on the inbound item without resolving it
as Block through the completion path (no decision is written, no pended
operation is completed) and without unlinking it, and no classify call
unlinks an undecided item: whatever the matching function, whatever classify
calls the filter engine makes between the passes and however many passes are
made, the shutdown phase does not finish. Control runs: with an outbound
connection and two packets queued, and the re-authorization that the
completion triggers delivered after the pass, the phase finishes with both
queues empty, the connection resolved as Block through the completion path
and the packets freed without a clone call; and from every state whose
connection list is empty the phase finishes and frees every queued packet. -/
theorem shutdown_never_unlinks_inbound_connection :
    Relation.ReflTransGen (Step sampleMatch) initialWorker shutdownStartedWorker ∧
    shutdownStartedWorker.g.gDriverUnloading = true ∧
    shutdownStartedWorker.g.configPermitTraffic = false ∧
    shutdownStartedWorker.g.gConnList = [{ sampleInbound with addr := 1 }] ∧
    (shutdownConnPass shutdownStartedWorker.g).gConnList = [{ sampleInbound with addr := 1 }] ∧
    (shutdownConnPass shutdownStartedWorker.g).completeOps
      = shutdownStartedWorker.g.completeOps ∧
    (∀ (IsMatchingConnectPacket :
          FlowIdentity → Nat → FWP_DIRECTION → TL_INSPECT_PENDED_PACKET → Bool)
        (schedule : List (List ClassifyCall)) (fuel : Nat),
      TLInspectWorkerShutdown IsMatchingConnectPacket schedule fuel shutdownStartedWorker.g
        = none) ∧
    Relation.ReflTransGen (Step sampleMatch) initialWorker shutdownPermitWorker ∧
    shutdownPermitWorker.g.gDriverUnloading = true ∧
    shutdownPermitWorker.g.configPermitTraffic = true ∧
    shutdownPermitWorker.g.gConnList = [{ sampleInbound with addr := 1 }] ∧
    (∀ (IsMatchingConnectPacket :
          FlowIdentity → Nat → FWP_DIRECTION → TL_INSPECT_PENDED_PACKET → Bool)
        (schedule : List (List ClassifyCall)) (fuel : Nat),
      TLInspectWorkerShutdown IsMatchingConnectPacket schedule fuel shutdownPermitWorker.g
        = none) ∧
    (∃ s', TLInspectWorkerShutdown sampleMatch [[sampleReauthCall]] 2 unloadingBusyGlobals
        = some s' ∧
      s'.gConnList = [] ∧ s'.gPacketQueue = [] ∧
      s'.completeOps = [(sampleUndecided.completionContext, none)] ∧
      s'.freed =
        [{ sampleUndecided with
            authConnectDecision := FWP_ACTION_BLOCK, completionContext := none },
          samplePacket, samplePacket2] ∧
      s'.cloneSendCalls = [] ∧ s'.cloneRecvCalls = [] ∧ s'.injected = []) ∧
    (∀ (IsMatchingConnectPacket :
          FlowIdentity → Nat → FWP_DIRECTION → TL_INSPECT_PENDED_PACKET → Bool)
        (schedule : List (List ClassifyCall)) (fuel : Nat) (s : Globals),
      s.gConnList = [] → s.gPacketQueue.length ≤ fuel →
      ∃ s', TLInspectWorkerShutdown IsMatchingConnectPacket schedule fuel s = some s' ∧
        s'.gPacketQueue = [] ∧ s'.gConnList = [] ∧
        s'.freed = s.freed ++ s.gPacketQueue ∧
        s'.cloneSendCalls = s.cloneSendCalls ∧ s'.cloneRecvCalls = s.cloneRecvCalls ∧
        s'.injected = s.injected ∧ s'.completeOps = s.completeOps) := by
  have hstuck : ∀ (IsMatchingConnectPacket :
        FlowIdentity → Nat → FWP_DIRECTION → TL_INSPECT_PENDED_PACKET → Bool)
      (schedule : List (List ClassifyCall)) (fuel : Nat) (s : Globals),
      s.gConnList = [{ sampleInbound with addr := 1 }] →
      TLInspectWorkerShutdown IsMatchingConnectPacket schedule fuel s = none := by
    intro isM schedule fuel s hs
    have hn := drainConnList_inbound_head isM { sampleInbound with addr := 1 } rfl rfl
      schedule s [] hs
    simp [TLInspectWorkerShutdown, hn]
  refine ⟨?_, by decide, by decide, by decide, by decide, by decide, ?_, ?_, by decide,
    by decide, by decide, ?_, ?_, ?_⟩
  · exact Relation.ReflTransGen.tail
      (Relation.ReflTransGen.tail
        (Relation.ReflTransGen.tail
          (Relation.ReflTransGen.single
            (Step.classify TRANSPORT sampleArgs sampleOut initialWorker))
          (Step.iteration blockOracle transportQueuedWorker verdictBlockWorker
            (by decide) (by decide) (by decide)))
        (Step.classify ALE_AUTH_RECV_ACCEPT sampleAcceptArgs sampleOut verdictBlockWorker))
      (Step.shutdown acceptPendedWorker)
  · intro isM schedule fuel
    exact hstuck isM schedule fuel _ (by decide)
  · exact Relation.ReflTransGen.tail
      (Relation.ReflTransGen.tail
        (Relation.ReflTransGen.tail
          (Relation.ReflTransGen.single
            (Step.classify TRANSPORT sampleArgs sampleOut initialWorker))
          (Step.iteration permitOracle transportQueuedWorker verdictPermitWorker
            (by decide) (by decide) (by decide)))
        (Step.classify ALE_AUTH_RECV_ACCEPT sampleAcceptArgs sampleOut verdictPermitWorker))
      (Step.shutdown acceptPendedPermitWorker)
  · intro isM schedule fuel
    exact hstuck isM schedule fuel _ (by decide)
  · refine ⟨_, rfl, ?_⟩
    decide
  · intro isM schedule fuel s hconn hfuel
    obtain ⟨s', r1, r2, r3, r4, r5, r6, r7, r8⟩ := drainPacketQueue_total fuel s hfuel
    refine ⟨s', ?_, r2, r3.trans hconn, r4, r5, r6, r7, r8⟩
    simp [TLInspectWorkerShutdown, drainConnList_nil isM schedule s hconn, r1]

/-! ## The dispatchers: a second re-authorization -/

/-- A scan over a list split at the first entry that passes the test finds
that entry, and erasing the first entry that passes removes it. -/
theorem find_eraseP_of_split {α : Type} (p : α → Bool) (x : α) (l₂ : List α)
    (hx : p x = true) :
    ∀ l₁ : List α, (∀ b ∈ l₁, p b = false) →
      (l₁ ++ x :: l₂).find? p = some x ∧ (l₁ ++ x :: l₂).eraseP p = l₁ ++ l₂
  | [], _ => by
    simp [List.find?_cons_of_pos _ hx, List.eraseP_cons_of_pos hx]
  | y :: l₁, h => by
    have hy : p y = false := h y (List.mem_cons_self _ _)
    obtain ⟨i1, i2⟩ := find_eraseP_of_split p x l₂ hx l₁
      (fun b hb => h b (List.mem_cons_of_mem _ hb))
    constructor
    · rw [List.cons_append, List.find?_cons_of_neg _ (by simp [hy]), i1]
    · rw [List.cons_append, List.eraseP_cons_of_neg (by simp [hy]), i2]
      rfl

/-- C15: when the connection list holds exactly one item that matches the
flow of an outbound re-authorization at the connect hook, and the decision of
that item is Permit or Block, a first re-authorization for the flow returns
the decision of the item and removes the item from the connection list; a
second re-authorization with the same flow identity and direction, called on
the state the first one left, finds no match in the connection list and goes
on to regular processing. -/
theorem reauth_match_is_idempotent
    (IsMatchingConnectPacket :
      FlowIdentity → Nat → FWP_DIRECTION → TL_INSPECT_PENDED_PACKET → Bool)
    (a a2 : ClassifyArgs) (classifyOut classifyOut2 : FWPS_CLASSIFY_OUT) (s : Globals)
    (before after : List TL_INSPECT_PENDED_PACKET) (item : TL_INSPECT_PENDED_PACKET)
    (hright : hasDecisionRight classifyOut)
    (hfresh : isReplay ALE_AUTH_CONNECT a = false)
    (hreauth : a.isAleReauthorize = true)
    (hout : a.packetDirection = FWP_DIRECTION_OUTBOUND)
    (hright2 : hasDecisionRight classifyOut2)
    (hfresh2 : isReplay ALE_AUTH_CONNECT a2 = false)
    (hreauth2 : a2.isAleReauthorize = true)
    (hflow : a2.flow = a.flow)
    (hdir : a2.packetDirection = a.packetDirection)
    (hlist : s.gConnList = before ++ item :: after)
    (hitem : IsMatchingConnectPacket a.flow a.flow.addressFamily a.packetDirection item = true)
    (hdecided : item.authConnectDecision = FWP_ACTION_PERMIT ∨
      item.authConnectDecision = FWP_ACTION_BLOCK)
    (hothers : ∀ p ∈ before ++ after,
      IsMatchingConnectPacket a.flow a.flow.addressFamily a.packetDirection p = false) :
    (classifyFn IsMatchingConnectPacket ALE_AUTH_CONNECT a classifyOut s).1.actionType
      = item.authConnectDecision ∧
    (classifyFn IsMatchingConnectPacket ALE_AUTH_CONNECT a classifyOut s).2.gConnList
      = before ++ after ∧
    (classifyFn IsMatchingConnectPacket ALE_AUTH_CONNECT a classifyOut s).2.gConnList.find?
      (reauthScanTest IsMatchingConnectPacket a2) = none ∧
    reachesRegularProcessing IsMatchingConnectPacket ALE_AUTH_CONNECT a2
      (classifyFn IsMatchingConnectPacket ALE_AUTH_CONNECT a classifyOut s).2 = true ∧
    classifyFn IsMatchingConnectPacket ALE_AUTH_CONNECT a2 classifyOut2
        (classifyFn IsMatchingConnectPacket ALE_AUTH_CONNECT a classifyOut s).2
      = queueRegularPacket a2 TL_INSPECT_REAUTH_PACKET true classifyOut2
          (KeReleaseInStackQueuedSpinLock Lock.gConnListLock
            (KeAcquireInStackQueuedSpinLock Lock.gConnListLock
              (classifyFn IsMatchingConnectPacket ALE_AUTH_CONNECT a classifyOut s).2)) := by
  have hne : item.authConnectDecision ≠ 0 := by
    rcases hdecided with h | h <;> rw [h] <;> decide
  have htest : reauthScanTest IsMatchingConnectPacket a item = true := by
    simp [reauthScanTest, hitem, hne]
  have hbefore : ∀ b ∈ before, reauthScanTest IsMatchingConnectPacket a b = false := by
    intro b hb
    simp [reauthScanTest, hothers b (List.mem_append_left _ hb)]
  obtain ⟨hfind, herase⟩ :=
    find_eraseP_of_split (reauthScanTest IsMatchingConnectPacket a) item after htest
      before hbefore
  have hfirst := connect_reauth_found IsMatchingConnectPacket a classifyOut s item hright
    hfresh hreauth hout (by rw [hlist]; exact hfind)
  have hconn : (classifyFn IsMatchingConnectPacket ALE_AUTH_CONNECT a classifyOut s).2.gConnList
      = before ++ after := by
    show (TLInspectALEConnectClassify IsMatchingConnectPacket a classifyOut s).2.gConnList = _
    rw [hfirst, completeReauthMatch_gConnList]
    show s.gConnList.eraseP _ = _
    rw [hlist, herase]
  have hnone : (classifyFn IsMatchingConnectPacket ALE_AUTH_CONNECT a classifyOut s).2.gConnList.find?
      (reauthScanTest IsMatchingConnectPacket a2) = none := by
    rw [hconn, List.find?_eq_none]
    intro p hp
    simp [reauthScanTest, hflow, hdir, hothers p hp]
  refine ⟨?_, hconn, hnone, ?_, ?_⟩
  · show (TLInspectALEConnectClassify IsMatchingConnectPacket a classifyOut s).1.actionType = _
    rw [hfirst, completeReauthMatch_actionType]
  · simp only [reachesRegularProcessing, hreauth2, Bool.true_and, Bool.or_eq_true]
    right
    rw [List.all_eq_true]
    intro p hp
    rw [hconn] at hp
    simp [reauthScanTest, hflow, hdir, hothers p hp]
  · exact connect_reauth_not_found IsMatchingConnectPacket a2 classifyOut2 _ hright2 hfresh2
      hreauth2 (hdir.trans hout) hnone

/-- C15, witness: two re-authorizations for the sample flow on the sample
state whose connection list holds the decided sample connection. -/
theorem reauth_match_is_idempotent_witness :
    (classifyFn sampleMatch ALE_AUTH_CONNECT sampleReauthArgs sampleOut
        decidedGlobals).2.gConnList = [] ++ [] ∧
    reachesRegularProcessing sampleMatch ALE_AUTH_CONNECT sampleReauthArgs
      (classifyFn sampleMatch ALE_AUTH_CONNECT sampleReauthArgs sampleOut decidedGlobals).2
        = true :=
  ⟨(reauth_match_is_idempotent sampleMatch sampleReauthArgs sampleReauthArgs sampleOut
      sampleOut decidedGlobals [] [] sampleDecided (by decide) rfl rfl rfl (by decide) rfl rfl
      rfl rfl rfl (by decide) (Or.inl rfl) (by simp)).2.1,
   (reauth_match_is_idempotent sampleMatch sampleReauthArgs sampleReauthArgs sampleOut
      sampleOut decidedGlobals [] [] sampleDecided (by decide) rfl rfl rfl (by decide) rfl rfl
      rfl rfl rfl (by decide) (Or.inl rfl) (by simp)).2.2.2.1⟩

/-! ## The packet queue is first-in first-out -/

/-- Regular processing leaves the packet queue as it was or appends one item
at its tail. -/
theorem queueRegularPacket_gPacketQueue (a : ClassifyArgs)
    (packetType : TL_INSPECT_PACKET_TYPE) (captureIpSec : Bool)
    (classifyOut : FWPS_CLASSIFY_OUT) (s : Globals) :
    (queueRegularPacket a packetType captureIpSec classifyOut s).2.gPacketQueue
        = s.gPacketQueue ∨
    ∃ x, (queueRegularPacket a packetType captureIpSec classifyOut s).2.gPacketQueue
        = s.gPacketQueue ++ [x] := by
  cases halloc : a.allocOk
  · rw [queueRegularPacket_allocFail a _ _ classifyOut s halloc]
    exact Or.inl rfl
  · cases hunload : s.gDriverUnloading
    · rw [queueRegularPacket_queued a _ _ classifyOut s halloc hunload]
      exact Or.inr ⟨regularItem a packetType captureIpSec s, by simp⟩
    · rw [queueRegularPacket_unloading a _ _ classifyOut s halloc hunload]
      exact Or.inl rfl

/-- The initial-authorization branch leaves the packet queue as it was. -/
theorem pendInitialConnection_gPacketQueue (a : ClassifyArgs) (direction : FWP_DIRECTION)
    (classifyOut : FWPS_CLASSIFY_OUT) (s : Globals) :
    (pendInitialConnection a direction classifyOut s).2.gPacketQueue = s.gPacketQueue := by
  unfold pendInitialConnection AllocateAndInitializePendedPacket
  cases a.allocOk <;> cases a.pendResult <;>
    simp [FreePendedPacket, KeAcquireInStackQueuedSpinLock, KeReleaseInStackQueuedSpinLock,
      insertTailConnList]

/-- The body of the re-authorization match leaves the packet queue as it was
or appends the morphed item at its tail. -/
theorem completeReauthMatch_gPacketQueue (a : ClassifyArgs)
    (item : TL_INSPECT_PENDED_PACKET) (test : TL_INSPECT_PENDED_PACKET → Bool)
    (classifyOut : FWPS_CLASSIFY_OUT) (s : Globals) :
    (completeReauthMatch a item test classifyOut s).2.gPacketQueue = s.gPacketQueue ∨
    ∃ x, (completeReauthMatch a item test classifyOut s).2.gPacketQueue
        = s.gPacketQueue ++ [x] := by
  by_cases h : s.gDriverUnloading = false ∧ item.netBufferList.isSome = true ∧
      item.authConnectDecision = FWP_ACTION_PERMIT
  · rw [completeReauthMatch_requeue a item test classifyOut s h.1 h.2.1 h.2.2]
    exact Or.inr ⟨{ item with type := TL_INSPECT_DATA_PACKET },
      by simp [KeReleaseInStackQueuedSpinLock]⟩
  · rw [completeReauthMatch_free a item test classifyOut s h]
    exact Or.inl rfl

/-- A classify call leaves the packet queue as it was or appends one item at
its tail. -/
theorem classifyFn_gPacketQueue
    (IsMatchingConnectPacket :
      FlowIdentity → Nat → FWP_DIRECTION → TL_INSPECT_PENDED_PACKET → Bool)
    (hook : HookPoint) (a : ClassifyArgs) (classifyOut : FWPS_CLASSIFY_OUT) (s : Globals) :
    (classifyFn IsMatchingConnectPacket hook a classifyOut s).2.gPacketQueue
        = s.gPacketQueue ∨
    ∃ x, (classifyFn IsMatchingConnectPacket hook a classifyOut s).2.gPacketQueue
        = s.gPacketQueue ++ [x] := by
  cases hook with
  | ALE_AUTH_CONNECT =>
    simp only [classifyFn, TLInspectALEConnectClassify]
    split_ifs
    · exact Or.inl rfl
    · exact Or.inl rfl
    · exact Or.inl (pendInitialConnection_gPacketQueue _ _ _ _)
    · split
      · exact completeReauthMatch_gPacketQueue _ _ _ _ _
      · exact queueRegularPacket_gPacketQueue _ _ _ _ _
    · exact queueRegularPacket_gPacketQueue _ _ _ _ _
  | ALE_AUTH_RECV_ACCEPT =>
    simp only [classifyFn, TLInspectALERecvAcceptClassify]
    split_ifs
    · exact Or.inl rfl
    · exact Or.inl rfl
    · exact Or.inl (pendInitialConnection_gPacketQueue _ _ _ _)
    · exact queueRegularPacket_gPacketQueue _ _ _ _ _
  | TRANSPORT =>
    simp only [classifyFn, TLInspectTransportClassify]
    split_ifs
    · exact Or.inl rfl
    · exact Or.inl rfl
    · exact Or.inl rfl
    · exact Or.inl rfl
    · exact queueRegularPacket_gPacketQueue _ _ _ _ _

/-- A worker iteration that returns leaves the packet queue as it was or
removes its head. -/
theorem TLInspectWorkerIteration_gPacketQueue (o : WorkerOracle) (w w' : WorkerState)
    (h : TLInspectWorkerIteration o w = some w') :
    w'.g.gPacketQueue = w.g.gPacketQueue ∨ ∃ x, w.g.gPacketQueue = x :: w'.g.gPacketQueue := by
  unfold TLInspectWorkerIteration at h
  simp only [KeAcquireInStackQueuedSpinLock, KeReleaseInStackQueuedSpinLock] at h
  split at h
  · next before packet after _ =>
    split at h
    · cases h
      exact Or.inl (workerProcess_frame o packet none _).1
    · cases h
      exact Or.inl (workerProcess_frame o packet (some (before, after)) _).1
  · split at h
    · cases h
    · next packet rest hq =>
      cases h
      refine Or.inr ⟨packet, ?_⟩
      rw [(workerProcess_frame o packet none _).1]
      exact hq

/-- A pass of the first shutdown loop leaves the packet queue as it was. -/
theorem shutdownConnPass_gPacketQueue (s : Globals) :
    (shutdownConnPass s).gPacketQueue = s.gPacketQueue := by
  unfold shutdownConnPass
  simp only [KeAcquireInStackQueuedSpinLock, KeReleaseInStackQueuedSpinLock]
  split
  · rfl
  · next packet rest _ =>
    exact (TlInspectCompletePendedConnection_frame packet false _).1

/-- A pass of the second shutdown loop leaves the packet queue as it was
(when it is empty) or removes its head. -/
theorem shutdownPacketPass_gPacketQueue (s : Globals) :
    (shutdownPacketPass s).gPacketQueue = s.gPacketQueue ∨
    ∃ x, s.gPacketQueue = x :: (shutdownPacketPass s).gPacketQueue := by
  cases hq : s.gPacketQueue with
  | nil =>
    left
    simp [shutdownPacketPass, KeAcquireInStackQueuedSpinLock, KeReleaseInStackQueuedSpinLock,
      hq]
  | cons packet rest =>
    right
    exact ⟨packet, by
      simp [shutdownPacketPass, KeAcquireInStackQueuedSpinLock,
        KeReleaseInStackQueuedSpinLock, FreePendedPacket, hq]⟩

/-- Every step of the system is one move of a first-in first-out queue on
the packet queue. -/
theorem step_fifoMove
    (IsMatchingConnectPacket :
      FlowIdentity → Nat → FWP_DIRECTION → TL_INSPECT_PENDED_PACKET → Bool)
    (w w' : WorkerState) (h : Step IsMatchingConnectPacket w w') :
    fifoMove w.g.gPacketQueue w'.g.gPacketQueue := by
  cases h with
  | classify hook a classifyOut =>
    rcases classifyFn_gPacketQueue IsMatchingConnectPacket hook a classifyOut w.g with h | h
    · exact Or.inl h
    · exact Or.inr (Or.inl h)
  | ipClassify a classifyOut => exact Or.inl rfl
  | injectComplete packet _ => exact Or.inl rfl
  | iteration o _ _ _ _ hit =>
    rcases TLInspectWorkerIteration_gPacketQueue o w w' hit with h | h
    · exact Or.inl h
    · exact Or.inr (Or.inr h)
  | shutdown => exact Or.inl rfl
  | drainConn _ _ => exact Or.inl (shutdownConnPass_gPacketQueue w.g)
  | drainPacket _ _ _ =>
    rcases shutdownPacketPass_gPacketQueue w.g with h | h
    · exact Or.inl h
    · exact Or.inr (Or.inr h)

/-- Moves of a first-in first-out queue compose: after any number of them the
queue is what is left of the old queue after some removals at the head,
followed by what is left of the items appended since. -/
theorem fifoMove_compose (q q1 q2 : List TL_INSPECT_PENDED_PACKET)
    (h1 : ∃ k added, q1 = q.drop k ++ added) (h2 : fifoMove q1 q2) :
    ∃ k added, q2 = q.drop k ++ added := by
  obtain ⟨k, added, hq1⟩ := h1
  rcases h2 with h | ⟨x, h⟩ | ⟨x, h⟩
  · exact ⟨k, added, h.trans hq1⟩
  · exact ⟨k, added ++ [x], by rw [h, hq1, List.append_assoc]⟩
  · cases hd : q.drop k with
    | nil =>
      rw [hq1, hd, List.nil_append] at h
      cases added with
      | nil => cases h
      | cons y ys =>
        injection h with _ hys
        exact ⟨k, ys, by rw [hd, List.nil_append, hys]⟩
    | cons y ys =>
      rw [hq1, hd, List.cons_append] at h
      injection h with _ hys
      refine ⟨k + 1, added, ?_⟩
      have : q.drop (k + 1) = ys := by
        rw [← List.drop_drop 1 k q, hd]
        rfl
      rw [this, hys]

/-- Along a run, the old packet queue followed by the inserted items is the
removed items followed by the new packet queue. -/
theorem QueueRun_law
    (IsMatchingConnectPacket :
      FlowIdentity → Nat → FWP_DIRECTION → TL_INSPECT_PENDED_PACKET → Bool)
    (w w' : WorkerState) (inserted removed : List TL_INSPECT_PENDED_PACKET)
    (h : QueueRun IsMatchingConnectPacket w inserted removed w') :
    w.g.gPacketQueue ++ inserted = removed ++ w'.g.gPacketQueue := by
  induction h with
  | start => simp
  | idle inserted removed u u' _ _ hq ih => rw [hq]; exact ih
  | insert inserted removed u u' x _ _ hq ih =>
    rw [hq, ← List.append_assoc, ih, List.append_assoc]
  | remove inserted removed u u' x _ _ hq ih =>
    rw [ih, hq, List.append_assoc]
    rfl

/-- C11: the packet queue is first-in first-out. Every step of the system
(a classify call at any hook, the completion of an injection, a worker
iteration, the start of the shutdown, a pass of a shutdown loop) leaves the
packet queue as it was, appends one item at its tail, or removes its head;
so along every run the old queue followed by the items inserted, in insertion
order, is the items removed, in removal order, followed by the new queue:
items leave the queue in the order in which they entered it. -/
theorem packet_queue_is_fifo
    (IsMatchingConnectPacket :
      FlowIdentity → Nat → FWP_DIRECTION → TL_INSPECT_PENDED_PACKET → Bool)
    (w w' : WorkerState)
    (h : Relation.ReflTransGen (Step IsMatchingConnectPacket) w w') :
    (∃ inserted removed, QueueRun IsMatchingConnectPacket w inserted removed w' ∧
      w.g.gPacketQueue ++ inserted = removed ++ w'.g.gPacketQueue) ∧
    (∀ u u', Step IsMatchingConnectPacket u u' →
      fifoMove u.g.gPacketQueue u'.g.gPacketQueue) := by
  refine ⟨?_, fun u u' hs => step_fifoMove IsMatchingConnectPacket u u' hs⟩
  have hrun : ∃ inserted removed, QueueRun IsMatchingConnectPacket w inserted removed w' := by
    induction h with
    | refl => exact ⟨[], [], QueueRun.start⟩
    | tail _ hstep ih =>
      obtain ⟨inserted, removed, hr⟩ := ih
      rcases step_fifoMove IsMatchingConnectPacket _ _ hstep with hq | ⟨x, hq⟩ | ⟨x, hq⟩
      · exact ⟨inserted, removed, QueueRun.idle inserted removed _ _ hr hstep hq⟩
      · exact ⟨inserted ++ [x], removed, QueueRun.insert inserted removed _ _ x hr hstep hq⟩
      · exact ⟨inserted, removed ++ [x], QueueRun.remove inserted removed _ _ x hr hstep hq⟩
  obtain ⟨inserted, removed, hr⟩ := hrun
  exact ⟨inserted, removed, hr, QueueRun_law IsMatchingConnectPacket w w' inserted removed hr⟩

/-- C11, witness: the run of one step in which the transport callout queues
the sample packet in the initial state. -/
theorem packet_queue_is_fifo_witness :
    ∃ inserted removed,
      QueueRun sampleMatch initialWorker inserted removed
        { initialWorker with
          g := (classifyFn sampleMatch TRANSPORT sampleArgs sampleOut initialWorker.g).2 } ∧
      initialWorker.g.gPacketQueue ++ inserted = removed ++
        (classifyFn sampleMatch TRANSPORT sampleArgs sampleOut initialWorker.g).2.gPacketQueue :=
  (packet_queue_is_fifo sampleMatch initialWorker _
    (Relation.ReflTransGen.single
      (Step.classify TRANSPORT sampleArgs sampleOut initialWorker))).1

/-! ## The lock order -/

/-- The lock operations of regular processing: both locks, the connection
list lock first, released in reverse order, once the packet is allocated. -/
theorem queueRegularPacket_lockLog (a : ClassifyArgs)
    (packetType : TL_INSPECT_PACKET_TYPE) (captureIpSec : Bool)
    (classifyOut : FWPS_CLASSIFY_OUT) (s : Globals) :
    (queueRegularPacket a packetType captureIpSec classifyOut s).2.lockLog
      = s.lockLog ++
        (if a.allocOk then
          [LockOp.acquire Lock.gConnListLock, LockOp.acquire Lock.gPacketQueueLock,
           LockOp.release Lock.gPacketQueueLock, LockOp.release Lock.gConnListLock]
        else []) := by
  cases halloc : a.allocOk
  · rw [queueRegularPacket_allocFail a _ _ classifyOut s halloc]
    simp
  · cases hunload : s.gDriverUnloading
    · rw [queueRegularPacket_queued a _ _ classifyOut s halloc hunload]
      simp
    · rw [queueRegularPacket_unloading a _ _ classifyOut s halloc hunload]
      simp

/-- The lock operations of the initial-authorization branch. -/
theorem pendInitialConnection_lockLog (a : ClassifyArgs) (direction : FWP_DIRECTION)
    (classifyOut : FWPS_CLASSIFY_OUT) (s : Globals) :
    (pendInitialConnection a direction classifyOut s).2.lockLog
      = s.lockLog ++
        (if a.allocOk ∧ a.pendResult.isSome then
          [LockOp.acquire Lock.gConnListLock, LockOp.acquire Lock.gPacketQueueLock,
           LockOp.release Lock.gPacketQueueLock, LockOp.release Lock.gConnListLock]
        else []) := by
  unfold pendInitialConnection AllocateAndInitializePendedPacket
  cases a.allocOk <;> cases a.pendResult <;>
    simp [FreePendedPacket, KeAcquireInStackQueuedSpinLock, KeReleaseInStackQueuedSpinLock,
      insertTailConnList]

/-- The lock operations of the body of the re-authorization match, which is
entered with the connection list lock held. -/
theorem completeReauthMatch_lockLog (a : ClassifyArgs)
    (item : TL_INSPECT_PENDED_PACKET) (test : TL_INSPECT_PENDED_PACKET → Bool)
    (classifyOut : FWPS_CLASSIFY_OUT) (s : Globals) :
    (completeReauthMatch a item test classifyOut s).2.lockLog
      = s.lockLog ++
        (if s.gDriverUnloading = false ∧ item.netBufferList.isSome = true ∧
            item.authConnectDecision = FWP_ACTION_PERMIT then
          [LockOp.acquire Lock.gPacketQueueLock, LockOp.release Lock.gPacketQueueLock,
           LockOp.release Lock.gConnListLock]
        else [LockOp.release Lock.gConnListLock]) := by
  by_cases h : s.gDriverUnloading = false ∧ item.netBufferList.isSome = true ∧
      item.authConnectDecision = FWP_ACTION_PERMIT
  · rw [completeReauthMatch_requeue a item test classifyOut s h.1 h.2.1 h.2.2, if_pos h]
    simp [KeReleaseInStackQueuedSpinLock]
  · rw [completeReauthMatch_free a item test classifyOut s h, if_neg h]

/-- The lock operations of a classify call respect the lock order. -/
theorem classifyFn_lockLog
    (IsMatchingConnectPacket :
      FlowIdentity → Nat → FWP_DIRECTION → TL_INSPECT_PENDED_PACKET → Bool)
    (hook : HookPoint) (a : ClassifyArgs) (classifyOut : FWPS_CLASSIFY_OUT) (s : Globals) :
    ∃ ops, (classifyFn IsMatchingConnectPacket hook a classifyOut s).2.lockLog
        = s.lockLog ++ ops ∧ lockOrderOk ops = true := by
  have hreg : ∀ (packetType : TL_INSPECT_PACKET_TYPE) (c : Bool),
      ∃ ops, (queueRegularPacket a packetType c classifyOut s).2.lockLog = s.lockLog ++ ops ∧
        lockOrderOk ops = true := by
    intro packetType c
    refine ⟨_, queueRegularPacket_lockLog a packetType c classifyOut s, ?_⟩
    cases a.allocOk <;> decide
  have hpend : ∀ direction : FWP_DIRECTION,
      ∃ ops, (pendInitialConnection a direction classifyOut s).2.lockLog = s.lockLog ++ ops ∧
        lockOrderOk ops = true := by
    intro direction
    refine ⟨_, pendInitialConnection_lockLog a direction classifyOut s, ?_⟩
    split <;> decide
  cases hook with
  | ALE_AUTH_CONNECT =>
    simp only [classifyFn, TLInspectALEConnectClassify]
    split_ifs
    · exact ⟨[], by simp, by decide⟩
    · exact ⟨[], by simp [permitClassify], by decide⟩
    · exact hpend _
    · split
      · next item _ =>
        refine ⟨LockOp.acquire Lock.gConnListLock ::
          (if s.gDriverUnloading = false ∧ item.netBufferList.isSome = true ∧
              item.authConnectDecision = FWP_ACTION_PERMIT then
            [LockOp.acquire Lock.gPacketQueueLock, LockOp.release Lock.gPacketQueueLock,
             LockOp.release Lock.gConnListLock]
          else [LockOp.release Lock.gConnListLock]), ?_, ?_⟩
        · rw [completeReauthMatch_lockLog]
          simp only [KeAcquireInStackQueuedSpinLock, List.append_assoc, List.singleton_append]
        · split <;> decide
      · refine ⟨[LockOp.acquire Lock.gConnListLock, LockOp.release Lock.gConnListLock] ++
          (if a.allocOk then
            [LockOp.acquire Lock.gConnListLock, LockOp.acquire Lock.gPacketQueueLock,
             LockOp.release Lock.gPacketQueueLock, LockOp.release Lock.gConnListLock]
          else []), ?_, ?_⟩
        · rw [queueRegularPacket_lockLog]
          simp only [KeAcquireInStackQueuedSpinLock, KeReleaseInStackQueuedSpinLock,
            List.append_assoc, List.singleton_append, List.cons_append, List.nil_append]
        · cases a.allocOk <;> decide
    · exact hreg _ _
  | ALE_AUTH_RECV_ACCEPT =>
    simp only [classifyFn, TLInspectALERecvAcceptClassify]
    split_ifs
    · exact ⟨[], by simp, by decide⟩
    · exact ⟨[], by simp [permitClassify], by decide⟩
    · exact hpend _
    · exact hreg _ _
  | TRANSPORT =>
    simp only [classifyFn, TLInspectTransportClassify]
    split_ifs
    · exact ⟨[], by simp, by decide⟩
    · exact ⟨[], by simp [permitClassify], by decide⟩
    · exact ⟨[], by simp [permitClassify], by decide⟩
    · exact ⟨[], by simp [permitClassify], by decide⟩
    · exact hreg _ _

/-- The lock operations of a worker iteration respect the lock order. -/
theorem TLInspectWorkerIteration_lockLog (o : WorkerOracle) (w w' : WorkerState)
    (h : TLInspectWorkerIteration o w = some w') :
    ∃ ops, w'.g.lockLog = w.g.lockLog ++ ops ∧ lockOrderOk ops = true := by
  unfold TLInspectWorkerIteration at h
  simp only [KeAcquireInStackQueuedSpinLock, KeReleaseInStackQueuedSpinLock] at h
  split at h
  · next before packet after _ =>
    split at h
    · cases h
      refine ⟨[LockOp.acquire Lock.gConnListLock, LockOp.release Lock.gConnListLock,
        LockOp.acquire Lock.gConnListLock, LockOp.acquire Lock.gPacketQueueLock,
        LockOp.release Lock.gPacketQueueLock, LockOp.release Lock.gConnListLock], ?_, ?_⟩
      · rw [(workerProcess_frame o packet none _).2.1]
        simp
      · decide
    · cases h
      refine ⟨[LockOp.acquire Lock.gConnListLock, LockOp.release Lock.gConnListLock,
        LockOp.acquire Lock.gConnListLock, LockOp.acquire Lock.gPacketQueueLock,
        LockOp.release Lock.gPacketQueueLock, LockOp.release Lock.gConnListLock], ?_, ?_⟩
      · rw [(workerProcess_frame o packet (some (before, after)) _).2.1]
        simp
      · decide
  · split at h
    · cases h
    · next packet rest hq =>
      cases h
      refine ⟨[LockOp.acquire Lock.gConnListLock, LockOp.release Lock.gConnListLock,
        LockOp.acquire Lock.gPacketQueueLock, LockOp.release Lock.gPacketQueueLock,
        LockOp.acquire Lock.gConnListLock, LockOp.acquire Lock.gPacketQueueLock,
        LockOp.release Lock.gPacketQueueLock, LockOp.release Lock.gConnListLock], ?_, ?_⟩
      · rw [(workerProcess_frame o packet none _).2.1]
        simp
      · decide

/-- C17: in every dispatcher call (the three classify callouts and the
network-layer callout) and in every worker iteration that returns, the lock
operations the call adds to the lock log respect the lock order: the
connection list lock is never acquired while the packet queue lock is held,
so that whenever both are held the connection list lock was acquired first,
the packet queue lock is released first, and no lock is held when the call
returns. -/
theorem lock_order_is_respected
    (IsMatchingConnectPacket :
      FlowIdentity → Nat → FWP_DIRECTION → TL_INSPECT_PENDED_PACKET → Bool)
    (hook : HookPoint) (a : ClassifyArgs) (classifyOut : FWPS_CLASSIFY_OUT) (s : Globals)
    (o : WorkerOracle) (w w' : WorkerState)
    (hiter : TLInspectWorkerIteration o w = some w') :
    (∃ ops, (classifyFn IsMatchingConnectPacket hook a classifyOut s).2.lockLog
        = s.lockLog ++ ops ∧ lockOrderOk ops = true) ∧
    (∃ ops, (TLInspectIpClassify a classifyOut s).2.lockLog = s.lockLog ++ ops ∧
      lockOrderOk ops = true) ∧
    (∃ ops, w'.g.lockLog = w.g.lockLog ++ ops ∧ lockOrderOk ops = true) :=
  ⟨classifyFn_lockLog IsMatchingConnectPacket hook a classifyOut s,
   ⟨[], by simp [TLInspectIpClassify], by decide⟩,
   TLInspectWorkerIteration_lockLog o w w' hiter⟩

/-- C17, witness: a re-authorization at the connect hook that matches the
decided sample connection, and the worker iteration that completes the
pended sample connection. -/
theorem lock_order_is_respected_witness :
    (∃ ops, (classifyFn sampleMatch ALE_AUTH_CONNECT sampleReauthArgs sampleOut
        decidedGlobals).2.lockLog = decidedGlobals.lockLog ++ ops ∧ lockOrderOk ops = true) ∧
    (∃ ops, connectDecidedWorker.g.lockLog = connectPendedWorker.g.lockLog ++ ops ∧
      lockOrderOk ops = true) :=
  ⟨(lock_order_is_respected sampleMatch ALE_AUTH_CONNECT sampleReauthArgs sampleOut
      decidedGlobals permitOracle connectPendedWorker connectDecidedWorker (by decide)).1,
   (lock_order_is_respected sampleMatch ALE_AUTH_CONNECT sampleReauthArgs sampleOut
      decidedGlobals permitOracle connectPendedWorker connectDecidedWorker (by decide)).2.2⟩

/-! ## The worker: the selection after a connection has been completed -/

/-- C12, failing run: from the initial state, the connect callout pends the
sample connection, a worker iteration with the answer Permit completes it
(`found` becomes TRUE and is never reset), and the transport callout queues
a data packet. In the state reached the connection list holds no undecided
item and the packet queue holds one item, yet the next worker iteration does
not take the head of the packet queue: it processes the decided connection
again, overwrites its decision with the new verdict Block and completes the
pended operation a second time, with a NULL completion context. -/
theorem decided_connection_is_processed_again :
    Relation.ReflTransGen (Step sampleMatch) initialWorker packetBehindDecidedWorker ∧
    packetBehindDecidedWorker.g.gWorkerEvent = true ∧
    packetBehindDecidedWorker.g.gDriverUnloading = false ∧
    packetBehindDecidedWorker.found = true ∧
    packetBehindDecidedWorker.g.gConnList = [sampleDecided] ∧
    (∀ p ∈ packetBehindDecidedWorker.g.gConnList, p.authConnectDecision ≠ 0) ∧
    packetBehindDecidedWorker.g.gPacketQueue
      = [regularItem sampleArgs TL_INSPECT_DATA_PACKET false connectDecidedWorker.g] ∧
    packetBehindDecidedWorker.g.completeOps = [(some 9, none)] ∧
    ∃ w', TLInspectWorkerIteration blockOracle packetBehindDecidedWorker = some w' ∧
      w'.g.gPacketQueue = packetBehindDecidedWorker.g.gPacketQueue ∧
      w'.g.gConnList = [{ sampleDecided with authConnectDecision := FWP_ACTION_BLOCK }] ∧
      w'.g.completeOps = [(some 9, none), (none, none)] ∧
      w'.g.freed = [] ∧ w'.g.injected = [] := by
  refine ⟨?_, by decide, by decide, by decide, by decide, by decide, by decide, by decide,
    _, rfl, ?_⟩
  · exact Relation.ReflTransGen.tail
      (Relation.ReflTransGen.tail
        (Relation.ReflTransGen.single
          (Step.classify ALE_AUTH_CONNECT sampleArgs sampleOut initialWorker))
        (Step.iteration permitOracle connectPendedWorker connectDecidedWorker
          (by decide) (by decide) (by decide)))
      (Step.classify TRANSPORT sampleArgs sampleOut connectDecidedWorker)
  · decide

/-! ## Freed items and the queues -/

/-- C16, failing run: from the initial state, the transport callout queues a
data packet, a worker iteration with the answer Block frees it, the
recv-accept callout pends an inbound connection, the driver starts to unload,
and the first shutdown loop makes one pass. In the state reached the pended
inbound connection has been freed and is still linked in the connection
list; the next pass of the loop frees the same record again. -/
theorem inbound_connection_is_freed_while_linked :
    Relation.ReflTransGen (Step sampleMatch) initialWorker shutdownPassWorker ∧
    (∃ item, item.direction = FWP_DIRECTION_INBOUND ∧
      shutdownStartedWorker.g.gConnList = [item] ∧
      item ∉ shutdownStartedWorker.g.freed ∧
      shutdownPassWorker.g.gConnList = [item] ∧
      item ∈ shutdownPassWorker.g.freed ∧
      (shutdownConnPass shutdownPassWorker.g).gConnList = [item] ∧
      (shutdownConnPass shutdownPassWorker.g).freed.count item = 2) := by
  refine ⟨?_, _, ?_, rfl, ?_⟩
  · exact Relation.ReflTransGen.tail
      (Relation.ReflTransGen.tail
        (Relation.ReflTransGen.tail
          (Relation.ReflTransGen.tail
            (Relation.ReflTransGen.single
              (Step.classify TRANSPORT sampleArgs sampleOut initialWorker))
            (Step.iteration blockOracle transportQueuedWorker verdictBlockWorker
              (by decide) (by decide) (by decide)))
          (Step.classify ALE_AUTH_RECV_ACCEPT sampleAcceptArgs sampleOut verdictBlockWorker))
        (Step.shutdown acceptPendedWorker))
      (Step.drainConn shutdownStartedWorker (by decide) (by decide))
  · decide
  · decide

/-! ## The protocol names -/

/-- C26: for every 8-bit protocol number `p`, protocol_to_str returns the
name its `switch` lists for `p` when `p` is one of 0, 1, 2, 3, 4, 6, 12, 17,
22, 41, 43, 44, 50, 51, 58, 59, 60, 77 and 255, and "Error" for every other
value; the names "Ipx", "Spx", "SpxII" and "Unknown" are returned for no
8-bit input. -/
theorem protocol_to_str_table (p : Nat) (hp : p < 256) :
    protocol_to_str p =
      (match p with
        | 0 => "IP/IPv6HopByHopOptions/Unspecified"
        | 1 => "Icmp"
        | 2 => "Igmp"
        | 3 => "Ggp"
        | 4 => "IPv4"
        | 6 => "Tcp"
        | 12 => "Pup"
        | 17 => "Udp"
        | 22 => "Idp"
        | 41 => "IPv6"
        | 43 => "IPv6RoutingHeader"
        | 44 => "IPv6FragmentHeader"
        | 50 => "IPSecEncapsulatingSecurityPayload"
        | 51 => "IPSecAuthenticationHeader"
        | 58 => "IcmpV6"
        | 59 => "IPv6NoNextHeader"
        | 60 => "IPv6DestinationOptions"
        | 77 => "ND"
        | 255 => "Raw"
        | _ => "Error") ∧
    protocol_to_str p ≠ "Ipx" ∧ protocol_to_str p ≠ "Spx" ∧
    protocol_to_str p ≠ "SpxII" ∧ protocol_to_str p ≠ "Unknown" := by
  interval_cases p <;> exact ⟨rfl, by decide, by decide, by decide, by decide⟩

/-- C26, witness: the protocol number 6. -/
theorem protocol_to_str_table_witness :
    protocol_to_str 6 = "Tcp" ∧ protocol_to_str 6 ≠ "Ipx" :=
  ⟨(protocol_to_str_table 6 (by decide)).1, (protocol_to_str_table 6 (by decide)).2.1⟩

/-! ## The print loops of the transport and network callouts -/

/-- The pass of the transport print loop reads its byte inside the region it
asked for exactly when the lookup succeeds, the family is AF_INET and the
transport header is longer than nine bytes. -/
theorem transportPrintProtocol_inside (addressFamily transportHeaderSize : Nat)
    (netBuffer : List Nat) :
    (∃ name, transportPrintProtocol addressFamily transportHeaderSize netBuffer
        = some (some name)) ↔
      (transportHeaderSize % 2 ^ 32 ≤ netBuffer.length ∧ addressFamily = AF_INET ∧
        9 < transportHeaderSize % 2 ^ 32) := by
  unfold transportPrintProtocol NdisGetDataBuffer
  generalize transportHeaderSize % 2 ^ 32 = n
  by_cases h1 : 0 < n ∧ n ≤ netBuffer.length
  · by_cases h2 : addressFamily = AF_INET
    · by_cases h3 : 9 < n
      · have hlen : 9 < (List.take n netBuffer).length := by
          rw [List.length_take]; omega
        simp only [if_pos h1, h2, ne_eq, not_true_eq_false, if_false]
        rw [List.get?_eq_get hlen]
        simp [h1.2, h3]
      · have hlen : (List.take n netBuffer).length ≤ 9 := by
          rw [List.length_take]; omega
        simp only [if_pos h1, h2, ne_eq, not_true_eq_false, if_false]
        rw [List.get?_eq_none.mpr hlen]
        constructor
        · rintro ⟨name, h⟩
          simp at h
        · rintro ⟨_, _, h5⟩
          exact absurd h5 h3
    · simp only [if_pos h1, ne_eq, h2, not_false_eq_true, if_true]
      constructor
      · rintro ⟨name, h⟩
        cases h
      · rintro ⟨_, h4, _⟩
        exact h4.elim
  · simp only [if_neg h1]
    constructor
    · rintro ⟨name, h⟩
      cases h
    · rintro ⟨h4, _, h5⟩
      exact absurd ⟨by omega, h4⟩ h1

/-- The pass of the network print loop reads its byte inside the region it
asked for exactly when the lookup succeeds, the family is AF_INET and the
index `ipHeaderSize + 9` is below the length `ipHeaderSize +
transportHeaderSize` asked for. -/
theorem ipPrintProtocol_inside (addressFamily ipHeaderSize transportHeaderSize : Nat)
    (netBuffer : List Nat) :
    (∃ name, ipPrintProtocol addressFamily ipHeaderSize transportHeaderSize netBuffer
        = some (some name)) ↔
      ((ipHeaderSize + transportHeaderSize) % 2 ^ 32 ≤ netBuffer.length ∧
        addressFamily = AF_INET ∧
        (ipHeaderSize + 9) % 2 ^ 32 < (ipHeaderSize + transportHeaderSize) % 2 ^ 32) := by
  unfold ipPrintProtocol NdisGetDataBuffer
  generalize (ipHeaderSize + transportHeaderSize) % 2 ^ 32 = n
  generalize (ipHeaderSize + 9) % 2 ^ 32 = i
  by_cases h1 : 0 < n ∧ n ≤ netBuffer.length
  · by_cases h2 : addressFamily = AF_INET
    · by_cases h3 : i < n
      · have hlen : i < (List.take n netBuffer).length := by
          rw [List.length_take]; omega
        simp only [if_pos h1, h2, ne_eq, not_true_eq_false, if_false]
        rw [List.get?_eq_get hlen]
        simp [h1.2, h3]
      · have hlen : (List.take n netBuffer).length ≤ i := by
          rw [List.length_take]; omega
        simp only [if_pos h1, h2, ne_eq, not_true_eq_false, if_false]
        rw [List.get?_eq_none.mpr hlen]
        constructor
        · rintro ⟨name, h⟩
          simp at h
        · rintro ⟨_, _, h5⟩
          exact absurd h5 h3
    · simp only [if_pos h1, ne_eq, h2, not_false_eq_true, if_true]
      constructor
      · rintro ⟨name, h⟩
        cases h
      · rintro ⟨_, h4, _⟩
        exact h4.elim
  · simp only [if_neg h1]
    constructor
    · rintro ⟨name, h⟩
      cases h
    · rintro ⟨h4, _, h5⟩
      exact absurd ⟨by omega, h4⟩ h1

/-- C25, failing input: a UDP datagram. At the transport layer its header
size is 8: the lookup of 8 contiguous bytes succeeds and the byte at index 9
is read, outside the region asked for. At the network layer, with an IP
header of 20 bytes, the lookup of 28 contiguous bytes succeeds and the byte
at index 29 is read, outside the region asked for. -/
theorem protocol_byte_is_read_outside_requested_region :
    (NdisGetDataBuffer sampleUdpBuffer 8).map List.length = some 8 ∧
    transportPrintProtocol AF_INET 8 sampleUdpBuffer = some none ∧
    (NdisGetDataBuffer sampleIpBuffer (20 + 8)).map List.length = some 28 ∧
    ipPrintProtocol AF_INET 20 8 sampleIpBuffer = some none := by
  decide

/-! ## The worker: an inbound connection is unlinked when selected -/

/-- The entry the scan stops at splits the list. -/
theorem firstUndecided_some :
    ∀ (l before after : List TL_INSPECT_PENDED_PACKET) (item : TL_INSPECT_PENDED_PACKET),
      firstUndecided l = some (before, item, after) → l = before ++ item :: after
  | [], _, _, _, h => by simp [firstUndecided] at h
  | p :: l, before, after, item, h => by
    unfold firstUndecided at h
    by_cases hp : p.authConnectDecision = 0
    · rw [if_pos hp] at h
      injection h with h
      injection h with h1 h2
      injection h2 with h2 h3
      subst h1 h2 h3
      rfl
    · rw [if_neg hp] at h
      cases hrec : firstUndecided l with
      | none => rw [hrec] at h; cases h
      | some r =>
        obtain ⟨b, x, a⟩ := r
        rw [hrec] at h
        injection h with h
        injection h with h1 h2
        injection h2 with h2 h3
        subst h1 h2 h3
        rw [firstUndecided_some l b a x hrec]
        rfl

/-- The record the selection leaves `packet` on splits the connection list. -/
theorem workerSelect_some (found : Bool)
    (l before after : List TL_INSPECT_PENDED_PACKET) (item : TL_INSPECT_PENDED_PACKET)
    (h : (workerSelect found l).2 = some (before, item, after)) :
    l = before ++ item :: after := by
  cases l with
  | nil => simp [workerSelect] at h
  | cons first rest =>
    simp only [workerSelect] at h
    cases hscan : firstUndecided (first :: rest) with
    | some r =>
      rw [hscan] at h
      simp only [Option.some.injEq] at h
      rw [h] at hscan
      exact firstUndecided_some _ _ _ _ hscan
    | none =>
      rw [hscan] at h
      cases found
      · simp at h
      · simp only [Bool.not_true, Bool.false_eq_true, if_false, Option.some.injEq,
          Prod.mk.injEq] at h
        obtain ⟨h1, h2, h3⟩ := h
        rw [← h1, ← h2, ← h3]
        exact (List.dropLast_append_getLast _).symm

/-- C21: when a worker iteration selects an inbound connection item, the
iteration returns, the item is removed from the connection list in that
iteration and the other items of the connection list keep their order, and
the packet queue is left as it was. When the items of the two queues have
distinct addresses, the item is in neither queue after the iteration, so the
scan of a later re-authorization cannot find it. -/
theorem selected_inbound_connection_is_unlinked (o : WorkerOracle) (w : WorkerState)
    (before after : List TL_INSPECT_PENDED_PACKET) (item : TL_INSPECT_PENDED_PACKET)
    (hsel : (workerSelect w.found w.g.gConnList).2 = some (before, item, after))
    (hdir : item.direction = FWP_DIRECTION_INBOUND)
    (hdistinct : ((w.g.gConnList ++ w.g.gPacketQueue).map (fun p => p.addr)).Nodup) :
    w.g.gConnList = before ++ item :: after ∧
    ∃ w', TLInspectWorkerIteration o w = some w' ∧
      w'.g.gConnList = before ++ after ∧
      w'.g.gPacketQueue = w.g.gPacketQueue ∧
      (∀ p ∈ w'.g.gConnList ++ w'.g.gPacketQueue, p.addr ≠ item.addr) ∧
      (∀ (IsMatchingConnectPacket :
            FlowIdentity → Nat → FWP_DIRECTION → TL_INSPECT_PENDED_PACKET → Bool)
          (a : ClassifyArgs) (p : TL_INSPECT_PENDED_PACKET),
        w'.g.gConnList.find? (reauthScanTest IsMatchingConnectPacket a) = some p →
          p.addr ≠ item.addr) := by
  have hlist := workerSelect_some w.found w.g.gConnList before after item hsel
  have hiter : TLInspectWorkerIteration o w = some
      { g := workerProcess o item none
          (KeReleaseInStackQueuedSpinLock Lock.gConnListLock
            { w.g with
              configPermitTraffic := o.isTrafficPermitted
              policyQueries := w.g.policyQueries + 1
              lockLog := w.g.lockLog ++ [LockOp.acquire Lock.gConnListLock]
              gConnList := before ++ after })
        found := (workerSelect w.found w.g.gConnList).1 } := by
    simp only [TLInspectWorkerIteration, KeAcquireInStackQueuedSpinLock, hsel, if_pos hdir]
  refine ⟨hlist, _, hiter, ?_⟩
  generalize hs : (KeReleaseInStackQueuedSpinLock Lock.gConnListLock
      { w.g with
        configPermitTraffic := o.isTrafficPermitted
        policyQueries := w.g.policyQueries + 1
        lockLog := w.g.lockLog ++ [LockOp.acquire Lock.gConnListLock]
        gConnList := before ++ after }) = s
  have e1 : s.gConnList = before ++ after := by rw [← hs]; rfl
  have e2 : s.gPacketQueue = w.g.gPacketQueue := by rw [← hs]; rfl
  have hc : (workerProcess o item none s).gConnList = before ++ after := by
    unfold workerProcess
    rw [(workerFinish_frame _).1, (workerHandle_unlinked o item s).1, e1]
  have hq : (workerProcess o item none s).gPacketQueue = w.g.gPacketQueue := by
    rw [(workerProcess_frame o item none s).1, e2]
  have hnot : ∀ p ∈ (before ++ after) ++ w.g.gPacketQueue, p.addr ≠ item.addr := by
    rw [hlist] at hdistinct
    have hnd : (List.map (fun p => p.addr) before ++
        item.addr :: (List.map (fun p => p.addr) after ++
          List.map (fun p => p.addr) w.g.gPacketQueue)).Nodup := by
      simpa [List.map_append] using hdistinct
    have hmid := (List.nodup_cons.mp (List.nodup_middle.mp hnd)).1
    intro p hp heq
    apply hmid
    rw [← heq, ← List.map_append, ← List.map_append, ← List.append_assoc]
    exact List.mem_map_of_mem _ hp
  refine ⟨hc, hq, ?_, ?_⟩
  · show ∀ p ∈ (workerProcess o item none s).gConnList ++
        (workerProcess o item none s).gPacketQueue, p.addr ≠ item.addr
    rw [hc, hq]
    exact hnot
  · intro isM a p hfind
    show p.addr ≠ item.addr
    have hmem : p ∈ (workerProcess o item none s).gConnList := List.mem_of_find?_eq_some hfind
    rw [hc] at hmem
    exact hnot p (List.mem_append_left _ hmem)

/-- C21, witness: the iteration on the sample state whose connection list
holds the undecided inbound sample connection between two decided outbound
connections. -/
theorem selected_inbound_connection_is_unlinked_witness :
    inboundPendedWorker.g.gConnList
      = [sampleDecided] ++ { sampleInbound with addr := 1 } :: [{ sampleDecided with addr := 2 }] ∧
    ∃ w', TLInspectWorkerIteration permitOracle inboundPendedWorker = some w' ∧
      w'.g.gConnList = [sampleDecided] ++ [{ sampleDecided with addr := 2 }] ∧
      w'.g.gPacketQueue = inboundPendedWorker.g.gPacketQueue := by
  obtain ⟨h1, w', h2, h3, h4, _⟩ :=
    selected_inbound_connection_is_unlinked permitOracle inboundPendedWorker
      [sampleDecided] [{ sampleDecided with addr := 2 }] { sampleInbound with addr := 1 }
      (by decide) rfl (by decide)
  exact ⟨h1, w', h2, h3, h4⟩

/-! ## The signal: who clears it -/

/-- Signalling the worker never clears the event. -/
theorem signalWorker_keeps_signal (b : Bool) (s : Globals) :
    (signalWorker b s).clearEventCalls = s.clearEventCalls ∧
    (s.gWorkerEvent = true → (signalWorker b s).gWorkerEvent = true) := by
  cases b
  · exact ⟨rfl, fun h => h⟩
  · exact ⟨rfl, fun _ => rfl⟩

/-- Regular processing never clears the event. -/
theorem queueRegularPacket_keeps_signal (a : ClassifyArgs)
    (packetType : TL_INSPECT_PACKET_TYPE) (captureIpSec : Bool)
    (classifyOut : FWPS_CLASSIFY_OUT) (s : Globals) :
    (queueRegularPacket a packetType captureIpSec classifyOut s).2.clearEventCalls
      = s.clearEventCalls ∧
    (s.gWorkerEvent = true →
      (queueRegularPacket a packetType captureIpSec classifyOut s).2.gWorkerEvent = true) := by
  cases halloc : a.allocOk
  · rw [queueRegularPacket_allocFail a _ _ classifyOut s halloc]
    exact ⟨rfl, fun h => h⟩
  · cases hunload : s.gDriverUnloading
    · rw [queueRegularPacket_queued a _ _ classifyOut s halloc hunload]
      exact ⟨(signalWorker_keeps_signal _ _).1, fun h => (signalWorker_keeps_signal _ _).2 h⟩
    · rw [queueRegularPacket_unloading a _ _ classifyOut s halloc hunload]
      exact ⟨rfl, fun h => h⟩

/-- The initial-authorization branch never clears the event. -/
theorem pendInitialConnection_keeps_signal (a : ClassifyArgs) (direction : FWP_DIRECTION)
    (classifyOut : FWPS_CLASSIFY_OUT) (s : Globals) :
    (pendInitialConnection a direction classifyOut s).2.clearEventCalls = s.clearEventCalls ∧
    (s.gWorkerEvent = true →
      (pendInitialConnection a direction classifyOut s).2.gWorkerEvent = true) := by
  cases halloc : a.allocOk
  · rw [pendInitialConnection_allocFail a direction classifyOut s halloc]
    exact ⟨rfl, fun h => h⟩
  · cases hpend : a.pendResult with
    | none =>
      rw [pendInitialConnection_pendFail a direction classifyOut s halloc hpend]
      exact ⟨rfl, fun h => h⟩
    | some completionContext =>
      rw [pendInitialConnection_ok a direction classifyOut s completionContext halloc hpend]
      exact ⟨(signalWorker_keeps_signal _ _).1, fun h => (signalWorker_keeps_signal _ _).2 h⟩

/-- The body of the re-authorization match never clears the event. -/
theorem completeReauthMatch_keeps_signal (a : ClassifyArgs)
    (item : TL_INSPECT_PENDED_PACKET) (test : TL_INSPECT_PENDED_PACKET → Bool)
    (classifyOut : FWPS_CLASSIFY_OUT) (s : Globals) :
    (completeReauthMatch a item test classifyOut s).2.clearEventCalls = s.clearEventCalls ∧
    (s.gWorkerEvent = true →
      (completeReauthMatch a item test classifyOut s).2.gWorkerEvent = true) := by
  by_cases h : s.gDriverUnloading = false ∧ item.netBufferList.isSome = true ∧
      item.authConnectDecision = FWP_ACTION_PERMIT
  · rw [completeReauthMatch_requeue a item test classifyOut s h.1 h.2.1 h.2.2]
    exact ⟨(signalWorker_keeps_signal _ _).1, fun h => (signalWorker_keeps_signal _ _).2 h⟩
  · rw [completeReauthMatch_free a item test classifyOut s h]
    exact ⟨rfl, fun h => h⟩

/-- No classify call clears the event. -/
theorem classifyFn_keeps_signal
    (IsMatchingConnectPacket :
      FlowIdentity → Nat → FWP_DIRECTION → TL_INSPECT_PENDED_PACKET → Bool)
    (hook : HookPoint) (a : ClassifyArgs) (classifyOut : FWPS_CLASSIFY_OUT) (s : Globals) :
    (classifyFn IsMatchingConnectPacket hook a classifyOut s).2.clearEventCalls
      = s.clearEventCalls ∧
    (s.gWorkerEvent = true →
      (classifyFn IsMatchingConnectPacket hook a classifyOut s).2.gWorkerEvent = true) := by
  cases hook with
  | ALE_AUTH_CONNECT =>
    simp only [classifyFn, TLInspectALEConnectClassify]
    split_ifs
    · exact ⟨rfl, fun h => h⟩
    · exact ⟨rfl, fun h => h⟩
    · exact pendInitialConnection_keeps_signal _ _ _ _
    · split
      · exact completeReauthMatch_keeps_signal _ _ _ _ _
      · exact queueRegularPacket_keeps_signal _ _ _ _ _
    · exact queueRegularPacket_keeps_signal _ _ _ _ _
  | ALE_AUTH_RECV_ACCEPT =>
    simp only [classifyFn, TLInspectALERecvAcceptClassify]
    split_ifs
    · exact ⟨rfl, fun h => h⟩
    · exact ⟨rfl, fun h => h⟩
    · exact pendInitialConnection_keeps_signal _ _ _ _
    · exact queueRegularPacket_keeps_signal _ _ _ _ _
  | TRANSPORT =>
    simp only [classifyFn, TLInspectTransportClassify]
    split_ifs
    · exact ⟨rfl, fun h => h⟩
    · exact ⟨rfl, fun h => h⟩
    · exact ⟨rfl, fun h => h⟩
    · exact ⟨rfl, fun h => h⟩
    · exact queueRegularPacket_keeps_signal _ _ _ _ _

/-- The processing of the selected record touches neither the event nor the
count of `KeClearEvent` calls. -/
theorem workerHandle_signal (o : WorkerOracle) (packet : TL_INSPECT_PENDED_PACKET)
    (place : Option (List TL_INSPECT_PENDED_PACKET × List TL_INSPECT_PENDED_PACKET))
    (s : Globals) :
    (workerHandle o packet place s).gWorkerEvent = s.gWorkerEvent ∧
    (workerHandle o packet place s).clearEventCalls = s.clearEventCalls := by
  have hc : (workerComplete packet place s).2.gWorkerEvent = s.gWorkerEvent ∧
      (workerComplete packet place s).2.clearEventCalls = s.clearEventCalls := by
    unfold workerComplete TlInspectCompletePendedConnection
    by_cases ht : packet.type = TL_INSPECT_CONNECT_PACKET
    · by_cases hd : packet.direction = FWP_DIRECTION_OUTBOUND
      · cases place <;> simp [ht, hd, FwpsCompleteOperation]
      · cases hp : s.configPermitTraffic <;> cases place <;>
          simp [ht, hd, hp, FreePendedPacket]
    · cases place <;> simp [ht]
  have hr : ∀ (p : Option TL_INSPECT_PENDED_PACKET) (t : Globals),
      (workerReinject o p t).2.gWorkerEvent = t.gWorkerEvent ∧
      (workerReinject o p t).2.clearEventCalls = t.clearEventCalls := by
    intro p t
    cases p with
    | none => simp [workerReinject]
    | some p =>
      simp only [workerReinject]
      unfold TLInspectCloneReinjectOutbound TLInspectCloneReinjectInbound
      cases t.configPermitTraffic <;> cases o.allocateCloneOk <;> cases o.injectOk <;>
        cases o.constructIpHeaderOk <;> cases p.ipSecProtected <;>
        cases p.completionContext <;>
        by_cases hd : p.direction = FWP_DIRECTION_OUTBOUND <;>
        simp [hd, FwpsCompleteOperation]
  have hf : ∀ (p : Option TL_INSPECT_PENDED_PACKET) (t : Globals),
      (workerFree p t).gWorkerEvent = t.gWorkerEvent ∧
      (workerFree p t).clearEventCalls = t.clearEventCalls := by
    intro p t
    cases p <;> simp [workerFree, FreePendedPacket]
  unfold workerHandle
  exact ⟨((hf _ _).1.trans (hr _ _).1).trans hc.1, ((hf _ _).2.trans (hr _ _).2).trans hc.2⟩

/-- The end of an iteration clears the event, with one `KeClearEvent` call,
exactly when both queues are empty and the driver is not unloading. -/
theorem workerFinish_signal (s : Globals) :
    ((s.gConnList = [] ∧ s.gPacketQueue = [] ∧ s.gDriverUnloading = false) →
      (workerFinish s).gWorkerEvent = false ∧
      (workerFinish s).clearEventCalls = s.clearEventCalls + 1) ∧
    (¬ (s.gConnList = [] ∧ s.gPacketQueue = [] ∧ s.gDriverUnloading = false) →
      (workerFinish s).gWorkerEvent = s.gWorkerEvent ∧
      (workerFinish s).clearEventCalls = s.clearEventCalls) := by
  unfold workerFinish
  simp only [KeAcquireInStackQueuedSpinLock, KeReleaseInStackQueuedSpinLock, KeClearEvent]
  cases hc : s.gConnList <;> cases hq : s.gPacketQueue <;> cases hu : s.gDriverUnloading <;>
    simp

/-- The processing of a record and the end of the iteration: the event is
cleared exactly when both queues are empty at the end and the driver is not
unloading. -/
theorem workerProcess_signal (o : WorkerOracle) (packet : TL_INSPECT_PENDED_PACKET)
    (place : Option (List TL_INSPECT_PENDED_PACKET × List TL_INSPECT_PENDED_PACKET))
    (s : Globals) :
    (((workerProcess o packet place s).gConnList = [] ∧
        (workerProcess o packet place s).gPacketQueue = [] ∧
        (workerProcess o packet place s).gDriverUnloading = false) →
      (workerProcess o packet place s).gWorkerEvent = false ∧
      (workerProcess o packet place s).clearEventCalls = s.clearEventCalls + 1) ∧
    (¬ ((workerProcess o packet place s).gConnList = [] ∧
        (workerProcess o packet place s).gPacketQueue = [] ∧
        (workerProcess o packet place s).gDriverUnloading = false) →
      (workerProcess o packet place s).gWorkerEvent = s.gWorkerEvent ∧
      (workerProcess o packet place s).clearEventCalls = s.clearEventCalls) := by
  unfold workerProcess
  obtain ⟨f1, f2, f3, _⟩ := workerFinish_frame (workerHandle o packet place s)
  obtain ⟨g1, g2⟩ := workerHandle_signal o packet place s
  obtain ⟨k1, k2⟩ := workerFinish_signal (workerHandle o packet place s)
  rw [f1, f2, f3]
  constructor
  · intro h
    rw [← g2]
    exact k1 h
  · intro h
    rw [← g1, ← g2]
    exact k2 h

/-- C22: at the end of each worker iteration that returns, the event is
cleared (one `KeClearEvent` call) if and only if both the connection list and
the packet queue are empty and the driver is not unloading; in every other
case the iteration makes no `KeClearEvent` call and leaves the event as it
found it, that is set, since an iteration runs only when the event is set.
No classify call, at any hook or at the network layer, ever clears the
event: it makes no `KeClearEvent` call, and an event that is set stays set. -/
theorem signal_is_cleared_iff_idle
    (IsMatchingConnectPacket :
      FlowIdentity → Nat → FWP_DIRECTION → TL_INSPECT_PENDED_PACKET → Bool)
    (o : WorkerOracle) (w w' : WorkerState)
    (hook : HookPoint) (a : ClassifyArgs) (classifyOut : FWPS_CLASSIFY_OUT) (s : Globals)
    (hev : w.g.gWorkerEvent = true)
    (hiter : TLInspectWorkerIteration o w = some w') :
    ((w'.g.gConnList = [] ∧ w'.g.gPacketQueue = [] ∧ w'.g.gDriverUnloading = false) →
      w'.g.gWorkerEvent = false ∧ w'.g.clearEventCalls = w.g.clearEventCalls + 1) ∧
    (¬ (w'.g.gConnList = [] ∧ w'.g.gPacketQueue = [] ∧ w'.g.gDriverUnloading = false) →
      w'.g.gWorkerEvent = true ∧ w'.g.clearEventCalls = w.g.clearEventCalls) ∧
    (classifyFn IsMatchingConnectPacket hook a classifyOut s).2.clearEventCalls
      = s.clearEventCalls ∧
    (s.gWorkerEvent = true →
      (classifyFn IsMatchingConnectPacket hook a classifyOut s).2.gWorkerEvent = true) ∧
    (TLInspectIpClassify a classifyOut s).2.clearEventCalls = s.clearEventCalls ∧
    (TLInspectIpClassify a classifyOut s).2.gWorkerEvent = s.gWorkerEvent := by
  have hworker :
      ((w'.g.gConnList = [] ∧ w'.g.gPacketQueue = [] ∧ w'.g.gDriverUnloading = false) →
        w'.g.gWorkerEvent = false ∧ w'.g.clearEventCalls = w.g.clearEventCalls + 1) ∧
      (¬ (w'.g.gConnList = [] ∧ w'.g.gPacketQueue = [] ∧ w'.g.gDriverUnloading = false) →
        w'.g.gWorkerEvent = w.g.gWorkerEvent ∧ w'.g.clearEventCalls = w.g.clearEventCalls) := by
    unfold TLInspectWorkerIteration at hiter
    simp only [KeAcquireInStackQueuedSpinLock, KeReleaseInStackQueuedSpinLock] at hiter
    split at hiter
    · next before packet after _ =>
      split at hiter
      · cases hiter
        exact workerProcess_signal o packet none _
      · cases hiter
        exact workerProcess_signal o packet (some (before, after)) _
    · split at hiter
      · cases hiter
      · next packet rest _ =>
        cases hiter
        exact workerProcess_signal o packet none _
  refine ⟨hworker.1, ?_, (classifyFn_keeps_signal IsMatchingConnectPacket hook a classifyOut s).1,
    (classifyFn_keeps_signal IsMatchingConnectPacket hook a classifyOut s).2, rfl, rfl⟩
  intro h
  rw [← hev]
  exact hworker.2 h

/-- C22, witness: the iteration that takes the first of the two sample
packets leaves the event set, as one packet is still queued. -/
theorem signal_is_cleared_iff_idle_witness :
    ∃ w', TLInspectWorkerIteration permitOracle twoPacketsWorker = some w' ∧
      w'.g.gPacketQueue = [samplePacket2] ∧
      w'.g.gWorkerEvent = true ∧
      w'.g.clearEventCalls = twoPacketsWorker.g.clearEventCalls :=
  ⟨(TLInspectWorkerIteration permitOracle twoPacketsWorker).getD twoPacketsWorker,
    by decide, by decide,
    ((signal_is_cleared_iff_idle sampleMatch permitOracle twoPacketsWorker
      ((TLInspectWorkerIteration permitOracle twoPacketsWorker).getD twoPacketsWorker)
      TRANSPORT sampleArgs sampleOut initialGlobals rfl (by decide)).2.1 (by decide)).1,
    ((signal_is_cleared_iff_idle sampleMatch permitOracle twoPacketsWorker
      ((TLInspectWorkerIteration permitOracle twoPacketsWorker).getD twoPacketsWorker)
      TRANSPORT sampleArgs sampleOut initialGlobals rfl (by decide)).2.1 (by decide)).2⟩

/-! ## The completion of a pended connection during unload -/

/-- C23, failing run: from the initial state, the transport callout queues a
data packet, a worker iteration with the answer Permit reinjects it (the
global `configPermitTraffic` is TRUE from then on), the recv-accept callout
pends an inbound connection, and the driver starts to unload. In the state
reached, the call of TlInspectCompletePendedConnection the shutdown loop
makes for that connection, with `permitTraffic = FALSE`, does not consume the
item: the pointer of the caller is not NULL afterwards and the globals are
as before, so that a pass of the shutdown loop neither frees nor completes
the item. The effect follows the global, not the argument: with the global
FALSE the same call frees the item, also when the argument is TRUE. -/
theorem completion_of_inbound_connection_follows_the_global :
    Relation.ReflTransGen (Step sampleMatch) initialWorker shutdownPermitWorker ∧
    shutdownPermitWorker.g.gDriverUnloading = true ∧
    shutdownPermitWorker.g.configPermitTraffic = true ∧
    ∃ item, shutdownPermitWorker.g.gConnList = [item] ∧
      item.direction = FWP_DIRECTION_INBOUND ∧
      (TlInspectCompletePendedConnection item false shutdownPermitWorker.g).1 = some item ∧
      (TlInspectCompletePendedConnection item false shutdownPermitWorker.g).2.2
        = shutdownPermitWorker.g ∧
      (shutdownConnPass shutdownPermitWorker.g).gConnList = [item] ∧
      (shutdownConnPass shutdownPermitWorker.g).freed = shutdownPermitWorker.g.freed ∧
      (shutdownConnPass shutdownPermitWorker.g).completeOps
        = shutdownPermitWorker.g.completeOps ∧
      (TlInspectCompletePendedConnection item false
        { shutdownPermitWorker.g with configPermitTraffic := false }).1 = none ∧
      (TlInspectCompletePendedConnection item true
        { shutdownPermitWorker.g with configPermitTraffic := false }).1 = none ∧
      (TlInspectCompletePendedConnection item true
        { shutdownPermitWorker.g with configPermitTraffic := false }).2.2.freed
        = shutdownPermitWorker.g.freed ++ [item] := by
  refine ⟨?_, by decide, by decide, _, rfl, ?_⟩
  · exact Relation.ReflTransGen.tail
      (Relation.ReflTransGen.tail
        (Relation.ReflTransGen.tail
          (Relation.ReflTransGen.single
            (Step.classify TRANSPORT sampleArgs sampleOut initialWorker))
          (Step.iteration permitOracle transportQueuedWorker verdictPermitWorker
            (by decide) (by decide) (by decide)))
        (Step.classify ALE_AUTH_RECV_ACCEPT sampleAcceptArgs sampleOut verdictPermitWorker))
      (Step.shutdown acceptPendedPermitWorker)
  · decide

/-! ## The worker: the removal of the head of the packet queue -/

/-- C24, failing run: from the initial state, the connect callout pends the
sample connection, a worker iteration with the answer Block completes it
with the decision Block (the item stays in the connection list, so the event
stays set), and the re-authorization of the connection matches the item,
removes it from the connection list and frees it, since a blocked connection
is not queued again. In the state reached the event is set, the driver is not
unloading and both queues are empty: the next worker iteration selects no
connection item and removes the head of an empty packet queue, whatever the
answers it gets. -/
theorem worker_removes_head_of_empty_packet_queue :
    Relation.ReflTransGen (Step sampleMatch) initialWorker reauthFreedWorker ∧
    reauthFreedWorker.g.gWorkerEvent = true ∧
    reauthFreedWorker.g.gDriverUnloading = false ∧
    reauthFreedWorker.g.gConnList = [] ∧
    reauthFreedWorker.g.gPacketQueue = [] ∧
    (workerSelect reauthFreedWorker.found reauthFreedWorker.g.gConnList).2 = none ∧
    (∀ o, TLInspectWorkerIteration o reauthFreedWorker = none) := by
  refine ⟨?_, by decide, by decide, by decide, by decide, by decide, ?_⟩
  · exact Relation.ReflTransGen.tail
      (Relation.ReflTransGen.tail
        (Relation.ReflTransGen.single
          (Step.classify ALE_AUTH_CONNECT sampleArgs sampleOut initialWorker))
        (Step.iteration blockOracle connectPendedWorker connectBlockedWorker
          (by decide) (by decide) (by decide)))
      (Step.classify ALE_AUTH_CONNECT sampleReauthArgs sampleOut connectBlockedWorker)
  · intro o
    have hc : reauthFreedWorker.g.gConnList = [] := by decide
    have hq : reauthFreedWorker.g.gPacketQueue = [] := by decide
    simp [TLInspectWorkerIteration, KeAcquireInStackQueuedSpinLock,
      KeReleaseInStackQueuedSpinLock, workerSelect, hc, hq]

end WFPInspect
